import Mathlib

/-!
Live subscription client of tibber-cli.

Embedding of `internal/api/websocket.go` (`LiveClient.Subscribe`, `sendMessage`,
`waitForAck`, `parsePayload`) and of the record type of `internal/models/types.go`,
followed by `output.New` of `internal/output/formatter.go`, by the end of `liveCmd` in
`internal/commands/live.go`, by `FormatLiveMeasurement`, `FormatPrices` and
`formatPriceList` of `internal/output/pretty.go`, by `config.Load`, by `Client.GetPrices`
and by the token masking of `config show`.

The Go code talks to three things it does not own: the `encoding/json` package, the
websocket connection and the caller's context.  They are taken as inputs:

* `Json` holds the four uses of `encoding/json` made by the file;
* `Env` holds what the connection and the context answer, call by call;
* the handler is a state-passing function, so that a handler with memory is covered.

Where a property depends on how `encoding/json` treats the declared structs, `Json` is
built from a text layer (`JsonText`, an input) and from the struct tags (`toJson`).

Go byte slices and strings are Lean strings, a nil pointer or nil error is `none`,
and a finite `float64` is the rational number it denotes. Where the code computes with
`float64` (the price bars), every operation is rounded as IEEE 754 rounds it
(`Float64.round`), with the infinities and NaN as results.
-/

namespace Tibber

/-! ## Errors -/

/-- The two values `ctx.Err()` can take once the context is done. -/
inductive CtxErr
  | Canceled
  | DeadlineExceeded
deriving DecidableEq, Repr

/-- Go `error` values: a context error, an error with a text and no cause
(`errors.New`, `fmt.Errorf` with `%s` only), or `fmt.Errorf(lead + "%w", inner)`. -/
inductive GoError
  | ctx (c : CtxErr)
  | new (text : String)
  | wrap (lead : String) (inner : GoError)
deriving DecidableEq, Repr

/-- The text `err.Error()` shows. -/
def GoError.Error : GoError → String
  | .ctx .Canceled => "context canceled"
  | .ctx .DeadlineExceeded => "context deadline exceeded"
  | .new text => text
  | .wrap lead inner => lead ++ inner.Error

/-- `errors.Unwrap`: the cause a `%w` error carries. -/
def GoError.Unwrap : GoError → Option GoError
  | .wrap _ inner => some inner
  | _ => none

/-! ## Data model -/

/-- Stand-in for `time.Time`: an instant, as nanoseconds since the Unix epoch. -/
structure Time where
  unixNano : Int
deriving DecidableEq, Repr

/-- `models.LiveMeasurement`, field by field. -/
structure LiveMeasurement where
  Timestamp : Time
  Power : ℚ
  PowerProduction : ℚ
  AccumulatedConsumption : ℚ
  AccumulatedProduction : ℚ
  AccumulatedCost : ℚ
  AccumulatedReward : ℚ
  MinPower : ℚ
  MaxPower : ℚ
  AveragePower : ℚ
  VoltagePhase1 : ℚ
  VoltagePhase2 : ℚ
  VoltagePhase3 : ℚ
  CurrentL1 : ℚ
  CurrentL2 : ℚ
  CurrentL3 : ℚ
  Currency : String
deriving DecidableEq, Repr

/-- `LiveClient`: the token and the home id. -/
structure LiveClient where
  token : String
  homeID : String
deriving DecidableEq, Repr

/-- `wsMessage`: `type`, `id` (omitted when empty) and the raw `payload`
(omitted when empty). -/
structure wsMessage where
  Type_ : String
  ID : String
  Payload : String
deriving DecidableEq, Repr

/-- The inner anonymous struct `parsePayload` decodes into: the `liveMeasurement` pointer. -/
structure payloadInner where
  LiveMeasurement : Option LiveMeasurement
deriving DecidableEq, Repr

/-- The outer anonymous struct `parsePayload` decodes into: the `data` member. -/
structure payloadData where
  Data : payloadInner
deriving DecidableEq, Repr

/-- A value of one of the two map types `Subscribe` marshals: a string, or a
`map[string]string`. -/
inductive JField
  | str (s : String)
  | strMap (m : List (String × String))
deriving DecidableEq, Repr

/-- A Go map with string keys, as its list of entries. -/
abbrev JObject := List (String × JField)

/-- The uses of `encoding/json` in `websocket.go`. -/
structure Json where
  /-- Is `json.Marshal` of a payload map (its error is discarded by the code). -/
  Marshal : JObject → String
  /-- Is `json.Marshal(msg)` in `sendMessage`. -/
  MarshalMsg : wsMessage → Except GoError String
  /-- Is `json.Unmarshal(data, &msg)` into a fresh `wsMessage`. -/
  UnmarshalMsg : String → Except GoError wsMessage
  /-- Is `json.Unmarshal(payload, &data)` in `parsePayload`. -/
  UnmarshalPayload : String → Except GoError payloadData

/-- `SubscriptionLiveMeasurement` of `queries.go`. -/
def SubscriptionLiveMeasurement : String :=
  "subscription($homeId: ID!) \x7b\n  liveMeasurement(homeId: $homeId) \x7b\n    timestamp\n    power\n    powerProduction\n    accumulatedConsumption\n    accumulatedProduction\n    accumulatedCost\n    accumulatedReward\n    minPower\n    maxPower\n    averagePower\n    voltagePhase1\n    voltagePhase2\n    voltagePhase3\n    currentL1\n    currentL2\n    currentL3\n    currency\n  \x7d\n\x7d"

/-! ## What the connection and the context answer -/

/-- One turn of the receive loop as the outside world answers it: `done` is what the
poll of `ctx.Done()` finds (`some c` when the context is done, `ctx.Err()` being `c`),
`read` is what `conn.Read` returns if it is called. -/
structure Tick where
  done : Option CtxErr
  read : Except GoError String

/-- A turn in which the context is live and `conn.Read` delivers `data`. -/
def Tick.frame (data : String) : Tick := ⟨none, .ok data⟩

/-- The answers one run of `Subscribe` gets: from `websocket.Dial`, from the
`conn.Write` of the init frame, from the `conn.Read` of `waitForAck`, from the
`conn.Write` of the subscribe frame, and turn by turn in the receive loop. -/
structure Env where
  dial : Option GoError
  initWrite : Option GoError
  ack : Except GoError String
  subWrite : Option GoError
  script : List Tick

/-- The same answers with another script for the receive loop. -/
def Env.withScript (env : Env) (script : List Tick) : Env :=
  ⟨env.dial, env.initWrite, env.ack, env.subWrite, script⟩

/-- What `Subscribe` does to the outside, in order. -/
inductive Action
  | dial
  | write (data : String)
  | read
  | call (m : Option LiveMeasurement)
  | close
deriving DecidableEq, Repr

/-- Where a run stands when the script ends: `pending` when the answers ran out
with `Subscribe` still waiting in `conn.Read`, else the error it returned. -/
inductive Outcome
  | pending
  | returned (err : Option GoError)
deriving DecidableEq, Repr

/-- A run: the actions so far, the handler's state, the outcome. -/
structure Run (σ : Type) where
  trace : List Action
  state : σ
  outcome : Outcome

/-- The run `r` preceded by the actions `pre`. -/
def Run.after {σ : Type} (pre : List Action) (r : Run σ) : Run σ :=
  ⟨pre ++ r.trace, r.state, r.outcome⟩

/-- Effect of `defer conn.Close(...)`: the connection is closed when the function returns. -/
def Run.deferClose {σ : Type} (r : Run σ) : Run σ :=
  match r.outcome with
  | .pending => r
  | .returned err => ⟨r.trace ++ [.close], r.state, .returned err⟩

/-- The handler calls of a trace, in order. -/
def handlerCalls : List Action → List (Option LiveMeasurement)
  | [] => []
  | .call m :: rest => m :: handlerCalls rest
  | _ :: rest => handlerCalls rest

/-- The number of `conn.Read` calls of a trace. -/
def readCount : List Action → Nat
  | [] => 0
  | .read :: rest => readCount rest + 1
  | _ :: rest => readCount rest

/-! ## The code -/

/-- `LiveClient.sendMessage`: marshal, then write; `w` is what `conn.Write` answers. -/
def sendMessage (J : Json) (w : Option GoError) (msg : wsMessage) :
    List Action × Option GoError :=
  match J.MarshalMsg msg with
  | .error err => ([], some err)
  | .ok data => ([.write data], w)

/-- `LiveClient.waitForAck`: `r` is what `conn.Read` answers under the 10 second
deadline. -/
def waitForAck (J : Json) (r : Except GoError String) : Option GoError :=
  match r with
  | .error err => some (.wrap "failed to read ack: " err)
  | .ok data =>
    match J.UnmarshalMsg data with
    | .error err => some (.wrap "failed to parse ack: " err)
    | .ok msg =>
      if msg.Type_ ≠ "connection_ack" then
        some (.new ("expected connection_ack, got " ++ msg.Type_))
      else none

/-- `LiveClient.parsePayload`. -/
def parsePayload (J : Json) (payload : String) : Except GoError (Option LiveMeasurement) :=
  match J.UnmarshalPayload payload with
  | .error err => .error err
  | .ok data => .ok data.Data.LiveMeasurement

/-- The `for` loop of `LiveClient.Subscribe`, one script turn per iteration. -/
def receiveLoop {σ : Type} (J : Json)
    (handler : σ → Option LiveMeasurement → σ × Option GoError) :
    List Tick → σ → Run σ
  | [], s => ⟨[], s, .pending⟩
  | t :: rest, s =>
    match t.done with
    | some c => ⟨[], s, .returned (some (.ctx c))⟩
    | none =>
      match t.read with
      | .error err => ⟨[.read], s, .returned (some (.wrap "read error: " err))⟩
      | .ok data =>
        match J.UnmarshalMsg data with
        | .error _ => Run.after [.read] (receiveLoop J handler rest s)
        | .ok msg =>
          if msg.Type_ = "next" then
            match parsePayload J msg.Payload with
            | .error _ => Run.after [.read] (receiveLoop J handler rest s)
            | .ok measurement =>
              match handler s measurement with
              | (s1, some err) => ⟨[.read, .call measurement], s1, .returned (some err)⟩
              | (s1, none) =>
                Run.after [.read, .call measurement] (receiveLoop J handler rest s1)
          else if msg.Type_ = "error" then
            ⟨[.read], s, .returned (some (.new ("subscription error: " ++ msg.Payload)))⟩
          else if msg.Type_ = "complete" then
            ⟨[.read], s, .returned none⟩
          else Run.after [.read] (receiveLoop J handler rest s)

/-- The body of `LiveClient.Subscribe` after a successful `websocket.Dial`. -/
def subscribeConnected {σ : Type} (J : Json) (c : LiveClient)
    (handler : σ → Option LiveMeasurement → σ × Option GoError) (env : Env) (s : σ) :
    Run σ :=
  let initPayload := J.Marshal [("token", .str c.token)]
  let initMsg : wsMessage := ⟨"connection_init", "", initPayload⟩
  match sendMessage J env.initWrite initMsg with
  | (tr1, some err) => ⟨tr1, s, .returned (some (.wrap "failed to send init: " err))⟩
  | (tr1, none) =>
    match waitForAck J env.ack with
    | some err => ⟨tr1 ++ [.read], s, .returned (some err)⟩
    | none =>
      let subPayload := J.Marshal
        [("query", .str SubscriptionLiveMeasurement),
         ("variables", .strMap [("homeId", c.homeID)])]
      let subMsg : wsMessage := ⟨"subscribe", "1", subPayload⟩
      match sendMessage J env.subWrite subMsg with
      | (tr2, some err) =>
        ⟨tr1 ++ [.read] ++ tr2, s,
          .returned (some (.wrap "failed to send subscription: " err))⟩
      | (tr2, none) =>
        Run.after (tr1 ++ [.read] ++ tr2) (receiveLoop J handler env.script s)

/-- `LiveClient.Subscribe`. -/
def Subscribe {σ : Type} (J : Json) (c : LiveClient)
    (handler : σ → Option LiveMeasurement → σ × Option GoError) (env : Env) (s : σ) :
    Run σ :=
  match env.dial with
  | some err => ⟨[.dial], s, .returned (some (.wrap "failed to connect: " err))⟩
  | none => Run.after [.dial] (Run.deferClose (subscribeConnected J c handler env s))

/-! ## A concrete codec and concrete answers, to run the code -/

/-- A measurement with power 1234. -/
def sampleA : LiveMeasurement :=
  ⟨⟨0⟩, 1234, 0, 0, 0, 0, 0, 0, 0, 0, 0, 0, 0, 0, 0, 0, "NOK"⟩

/-- A measurement with power 250. -/
def sampleB : LiveMeasurement :=
  ⟨⟨1⟩, 250, 0, 0, 0, 0, 0, 0, 0, 0, 0, 0, 0, 0, 0, 0, "NOK"⟩

/-- A table-driven stand-in for `encoding/json` over a handful of frames; every
other input is rejected. -/
def tableJson : Json where
  Marshal := fun _ => "obj"
  MarshalMsg := fun msg => .ok (msg.Type_ ++ "/" ++ msg.ID ++ "/" ++ msg.Payload)
  UnmarshalMsg := fun data =>
    if data = "ack" then .ok ⟨"connection_ack", "", ""⟩
    else if data = "nextA" then .ok ⟨"next", "1", "A"⟩
    else if data = "nextB" then .ok ⟨"next", "1", "B"⟩
    else if data = "nextBad" then .ok ⟨"next", "1", "?"⟩
    else if data = "ping" then .ok ⟨"ping", "", ""⟩
    else if data = "errorX" then .ok ⟨"error", "1", "X"⟩
    else if data = "complete" then .ok ⟨"complete", "1", ""⟩
    else .error (.new "invalid character")
  UnmarshalPayload := fun payload =>
    if payload = "A" then .ok ⟨⟨some sampleA⟩⟩
    else if payload = "B" then .ok ⟨⟨some sampleB⟩⟩
    else .error (.new "unexpected end of JSON input")

/-- The client of the end-to-end scenario. -/
def sampleClient : LiveClient := ⟨"abc123", "home-1"⟩

/-- Answers of a connection whose handshake succeeds, with no loop turn yet. -/
def ackedEnv : Env := ⟨none, none, .ok "ack", none, []⟩

/-- A handler that counts its calls and always accepts. -/
def countingHandler (n : Nat) (_ : Option LiveMeasurement) : Nat × Option GoError :=
  (n + 1, none)

/-- A handler that counts its calls and asks to stop on its second call. -/
def stopSecondHandler (n : Nat) (_ : Option LiveMeasurement) : Nat × Option GoError :=
  (n + 1, if n = 1 then some (.new "stop") else none)

/-- `errors.Is(e, target)` for these error values: `target` is `e` or a cause of `e`. -/
def GoError.Is : GoError → GoError → Bool
  | .wrap lead inner, target =>
    (GoError.wrap lead inner == target) || inner.Is target
  | e, target => e == target

/-- A well-formed `next` frame: `data` decodes as an envelope of type `next` whose
payload `parsePayload` decodes, returning the pointer `m`. -/
def carries (J : Json) (data : String) (m : Option LiveMeasurement) : Prop :=
  ∃ msg, J.UnmarshalMsg data = .ok msg ∧ msg.Type_ = "next" ∧
    parsePayload J msg.Payload = .ok m

/-- One answer `conn.Read` may give when the context is cancelled while it waits for a
frame: the context's error, wrapped by the websocket library. -/
def readAborted : GoError := .wrap "failed to get reader: " (.ctx .Canceled)

/-- The actions of delivering the records `ms` one frame each: a read, then the call. -/
def deliveries : List (Option LiveMeasurement) → List Action
  | [] => []
  | m :: rest => .read :: .call m :: deliveries rest

/-- The handler states after the records `ms` were accepted in order from state `s`. -/
def feed {σ : Type} (handler : σ → Option LiveMeasurement → σ × Option GoError) :
    σ → List (Option LiveMeasurement) → σ
  | s, [] => s
  | s, m :: rest => feed handler (handler s m).1 rest

/-! ## Further readings of a trace -/

/-- The frames handed to `conn.Write`, in order. -/
def sentFrames : List Action → List String
  | [] => []
  | .write data :: rest => data :: sentFrames rest
  | _ :: rest => sentFrames rest

/-- The number of `conn.Close` calls of a trace. -/
def closeCount : List Action → Nat
  | [] => 0
  | .close :: rest => closeCount rest + 1
  | _ :: rest => closeCount rest

/-! ## `internal/output/formatter.go` -/

/-- The three implementations of the `Formatter` interface, by dynamic type. -/
inductive output.Formatter
  | JSONFormatter
  | MarkdownFormatter
  | PrettyFormatter
deriving DecidableEq, Repr

/-- `output.New`: the `switch` on the format name, case by case. -/
def output.New (format : String) : output.Formatter :=
  if format = "json" then .JSONFormatter
  else if format = "markdown" ∨ format = "md" then .MarkdownFormatter
  else if format = "pretty" ∨ format = "" then .PrettyFormatter
  else .PrettyFormatter

/-! ## `internal/commands/live.go`, from the call of `Subscribe` on -/

/-- The handler `liveCmd` passes to `Subscribe`: it prints the record and returns nil.
The state is the list of records printed so far. -/
def liveHandler (printed : List (Option LiveMeasurement)) (m : Option LiveMeasurement) :
    List (Option LiveMeasurement) × Option GoError :=
  (printed ++ [m], none)

/-- `exitWithError`: after printing, `os.Exit(1)`. -/
def exitWithError : Nat := 1

/-- The test after `Subscribe` in `liveCmd`: `err` is what `Subscribe` returned, `ctxErr`
what `ctx.Err()` is at that moment. The result is the exit status of the process: that
of `exitWithError`, or 0 when `Run` returns. -/
def liveExitStatus (err : Option GoError) (ctxErr : Option CtxErr) : Nat :=
  if err ≠ none ∧ ctxErr = none then exitWithError else 0

/-- `liveCmd` from the call of `Subscribe` on: the exit status, or `none` while
`Subscribe` has not returned. -/
def liveCmd (J : Json) (c : LiveClient) (env : Env) (ctxErr : Option CtxErr) : Option Nat :=
  match (Subscribe J c liveHandler env []).outcome with
  | .pending => none
  | .returned err => some (liveExitStatus err ctxErr)

/-! ## A stand-in codec over frames written as JSON text -/

/-- The zero `time.Time`: January 1 of year 1, 00:00 UTC. -/
def Time.zero : Time := ⟨-62135596800000000000⟩

/-- The record `json.Unmarshal` builds from `{"power":1234}`: power 1234, every other
field at its zero value. -/
def powerOnly : LiveMeasurement :=
  ⟨Time.zero, 1234, 0, 0, 0, 0, 0, 0, 0, 0, 0, 0, 0, 0, 0, 0, ""⟩

/-- The frame `{"type":"connection_ack"}`. -/
def ackFrame : String := "\x7b\"type\":\"connection_ack\"\x7d"

/-- The payload `{"data":{"liveMeasurement":{"power":1234}}}`. -/
def powerPayload : String :=
  "\x7b\"data\":\x7b\"liveMeasurement\":\x7b\"power\":1234\x7d\x7d\x7d"

/-- The frame `{"id":"1","type":"next","payload":{"data":{"liveMeasurement":{"power":1234}}}}`. -/
def nextFrame : String :=
  "\x7b\"id\":\"1\",\"type\":\"next\",\"payload\":" ++ powerPayload ++ "\x7d"

/-- The frame `{"id":"1","type":"complete"}`. -/
def completeFrame : String := "\x7b\"id\":\"1\",\"type\":\"complete\"\x7d"

/-- The frame `{"type":"next","payload":{"data":{"liveMeasurement":{"power":1234}}}}`,
without `id`. -/
def nextFrameNoId : String := "\x7b\"type\":\"next\",\"payload\":" ++ powerPayload ++ "\x7d"

/-- The frame `{"type":"complete"}`, without `id`. -/
def completeFrameNoId : String := "\x7b\"type\":\"complete\"\x7d"

/-- The payload `[{"message":"X"}]`. -/
def errorPayload : String := "[\x7b\"message\":\"X\"\x7d]"

/-- The frame `{"type":"error","payload":[{"message":"X"}]}`, without `id`. -/
def errorFrameNoId : String := "\x7b\"type\":\"error\",\"payload\":" ++ errorPayload ++ "\x7d"

/-- A table-driven stand-in for `encoding/json` over the frames above, each decoded as
`json.Unmarshal` decodes it: a member that is absent leaves the field at its zero
value. Every other input is rejected. -/
def wireJson : Json where
  Marshal := fun _ => "\x7b\x7d"
  MarshalMsg := fun msg => .ok (msg.Type_ ++ "/" ++ msg.ID ++ "/" ++ msg.Payload)
  UnmarshalMsg := fun data =>
    if data = ackFrame then .ok ⟨"connection_ack", "", ""⟩
    else if data = nextFrame then .ok ⟨"next", "1", powerPayload⟩
    else if data = completeFrame then .ok ⟨"complete", "1", ""⟩
    else if data = nextFrameNoId then .ok ⟨"next", "", powerPayload⟩
    else if data = completeFrameNoId then .ok ⟨"complete", "", ""⟩
    else if data = errorFrameNoId then .ok ⟨"error", "", errorPayload⟩
    else .error (.new "invalid character")
  UnmarshalPayload := fun payload =>
    if payload = powerPayload then .ok ⟨⟨some powerOnly⟩⟩
    else .error (.new "unexpected end of JSON input")

/-- Answers of a connection on which the server acknowledges with `ackFrame`. -/
def wireEnv : Env := ⟨none, none, .ok ackFrame, none, []⟩

/-- The frame `{"id":"1","type":"error","payload":[{"message":"X"}]}`: an `error` frame
whose message text is `X`. -/
def errorFrame : String :=
  "\x7b\"id\":\"1\",\"type\":\"error\",\"payload\":" ++ errorPayload ++ "\x7d"

/-- The message text `say "hi"`. -/
def quotedMessage : String := "say \"hi\""

/-- The payload `[{"message":"say \"hi\""}]`, whose message text is `quotedMessage`. -/
def quotedErrorPayload : String := "[\x7b\"message\":\"say \\\"hi\\\"\"\x7d]"

/-- The frame `{"id":"1","type":"error","payload":[{"message":"say \"hi\""}]}`. -/
def quotedErrorFrame : String :=
  "\x7b\"id\":\"1\",\"type\":\"error\",\"payload\":" ++ quotedErrorPayload ++ "\x7d"

/-- A table-driven stand-in for `encoding/json` over the acknowledgement, one `next`
frame and the two `error` frames above, each decoded as `json.Unmarshal` decodes it (the
payload is the text of the member `payload` as it stands in the frame). Every other
input is rejected. -/
def errorJson : Json where
  Marshal := fun _ => "\x7b\x7d"
  MarshalMsg := fun msg => .ok (msg.Type_ ++ "/" ++ msg.ID ++ "/" ++ msg.Payload)
  UnmarshalMsg := fun data =>
    if data = ackFrame then .ok ⟨"connection_ack", "", ""⟩
    else if data = nextFrame then .ok ⟨"next", "1", powerPayload⟩
    else if data = errorFrame then .ok ⟨"error", "1", errorPayload⟩
    else if data = quotedErrorFrame then .ok ⟨"error", "1", quotedErrorPayload⟩
    else .error (.new "invalid character")
  UnmarshalPayload := fun payload =>
    if payload = powerPayload then .ok ⟨⟨some powerOnly⟩⟩
    else .error (.new "unexpected end of JSON input")

/-- Another answer `conn.Read` may give when the connection is shut down under it: an
error that has no context error in its chain. -/
def readClosed : GoError :=
  .wrap "failed to get reader: " (.new "use of closed network connection")

/-! ## The struct declarations as `encoding/json` reads them

`json.Marshal` and `json.Unmarshal` work in two layers. The text layer turns JSON text
into values and back; it knows nothing of this program and is taken as an input
(`JsonText`). The struct layer walks the declaration of the Go type: which member name
each field has, which field is left out when empty, what kind of value each field
accepts. That layer is fixed by the struct tags of `wsMessage`, of the anonymous struct
of `parsePayload` and of `models.LiveMeasurement`, and is written out here. -/

/-- What `json.Marshal` writes for one field: a Go string, or the text of a
`json.RawMessage`. -/
inductive JWrite
  | str (s : String)
  | raw (text : String)
deriving DecidableEq, Repr

/-- The kind of a JSON value, as far as a string field cares: a string (decoded), the
literal `null`, or something else (`what` names it: number, bool, array, object). -/
inductive JKind
  | string (s : String)
  | null
  | other (what : String)
deriving DecidableEq, Repr

/-- The value of one object member as `json.Unmarshal` meets it: its text as it stands
in the input, and its kind. -/
structure JRead where
  raw : String
  kind : JKind
deriving DecidableEq, Repr

/-- A whole JSON document as `json.Unmarshal` into a struct meets it: `null`, an object
with its members in order, or something else. -/
inductive JDoc
  | null
  | object (members : List (String × JRead))
  | other (what : String)
deriving DecidableEq, Repr

/-- A JSON value as a tree. A number carries the `float64` it denotes (`none` when it is
out of range); a string carries its decoded content and its text as it stands in the
input, quotes included. -/
inductive JValue
  | null
  | bool (b : Bool)
  | num (v : Option ℚ)
  | str (s : String) (raw : String)
  | arr (items : List JValue)
  | obj (members : List (String × JValue))

/-- The word `encoding/json` uses for the kind of a value in its type errors. -/
def JValue.what : JValue → String
  | .null => "null"
  | .bool _ => "bool"
  | .num _ => "number"
  | .str _ _ => "string"
  | .arr _ => "array"
  | .obj _ => "object"

/-- The text layer of `encoding/json`, and `time.Time.UnmarshalJSON`. -/
structure JsonText where
  /-- Is `json.Marshal` of a payload map. -/
  marshalMap : JObject → String
  /-- Writes an object with the given members; fails when a raw text is not valid JSON. -/
  renderObject : List (String × JWrite) → Except GoError String
  /-- Reads a document for a struct with raw fields; fails on a syntax error. -/
  parseDoc : String → Except GoError JDoc
  /-- Reads a document as a tree; fails on a syntax error. -/
  parseValue : String → Except GoError JValue
  /-- Folds a member name for the case-insensitive match of field names. -/
  foldName : String → String
  /-- Is `time.Time.UnmarshalJSON` on the text of a JSON string. -/
  unmarshalTime : String → Except GoError Time

/-- An `UnmarshalTypeError`, its text abridged: a value of kind `what` met a field or
type that does not accept it. -/
def typeError (what target : String) : GoError :=
  .new ("json: cannot unmarshal " ++ what ++ " into " ++ target)

/-- The field a member key selects among the member names of a struct: the field of
exactly that name, else the first field whose name folds to the same. -/
def fieldOf (fold : String → String) (names : List String) (key : String) :
    Option String :=
  if key ∈ names then some key else names.find? (fun n => fold n = fold key)

/-- The members `json.Marshal` writes for a `wsMessage`: `type` always, `id` and
`payload` only when not empty (`omitempty`). -/
def wsMessage.members (msg : wsMessage) : List (String × JWrite) :=
  [("type", .str msg.Type_)] ++
    (if msg.ID = "" then [] else [("id", .str msg.ID)]) ++
    (if msg.Payload = "" then [] else [("payload", .raw msg.Payload)])

/-- What a string field becomes when a member selects it. -/
def stringField (target : String) (cur : String) (k : JKind) : Except GoError String :=
  match k with
  | .string s => .ok s
  | .null => .ok cur
  | .other what => .error (typeError what target)

/-- One member of an object read into a `wsMessage`: `type` and `id` take a string,
`payload` takes the text of any value, a member of another name is passed over. -/
def wsMessage.assign (T : JsonText) (msg : wsMessage) (key : String) (v : JRead) :
    Except GoError wsMessage :=
  match fieldOf T.foldName ["type", "id", "payload"] key with
  | none => .ok msg
  | some name =>
    if name = "type" then
      match stringField "Go struct field wsMessage.type of type string" msg.Type_ v.kind with
      | .error err => .error err
      | .ok s => .ok { msg with Type_ := s }
    else if name = "id" then
      match stringField "Go struct field wsMessage.id of type string" msg.ID v.kind with
      | .error err => .error err
      | .ok s => .ok { msg with ID := s }
    else if name = "payload" then .ok { msg with Payload := v.raw }
    else .ok msg

/-- The members of an object read into a `wsMessage`, in order. -/
def wsMessage.fill (T : JsonText) : wsMessage → List (String × JRead) →
    Except GoError wsMessage
  | msg, [] => .ok msg
  | msg, (key, v) :: rest =>
    match wsMessage.assign T msg key v with
    | .error err => .error err
    | .ok msg1 => wsMessage.fill T msg1 rest

/-- `json.Marshal(msg)` for a `wsMessage`. -/
def marshalMsg (T : JsonText) (msg : wsMessage) : Except GoError String :=
  T.renderObject (wsMessage.members msg)

/-- `json.Unmarshal(data, &msg)` into a fresh `wsMessage`. -/
def unmarshalMsg (T : JsonText) (data : String) : Except GoError wsMessage :=
  match T.parseDoc data with
  | .error err => .error err
  | .ok .null => .ok ⟨"", "", ""⟩
  | .ok (.other what) => .error (typeError what "Go value of type api.wsMessage")
  | .ok (.object members) => wsMessage.fill T ⟨"", "", ""⟩ members

/-- The member names of `models.LiveMeasurement`, in field order. -/
def LiveMeasurement.jsonNames : List String :=
  ["timestamp", "power", "powerProduction", "accumulatedConsumption",
   "accumulatedProduction", "accumulatedCost", "accumulatedReward", "minPower",
   "maxPower", "averagePower", "voltagePhase1", "voltagePhase2", "voltagePhase3",
   "currentL1", "currentL2", "currentL3", "currency"]

/-- The zero value of `models.LiveMeasurement`. -/
def LiveMeasurement.zero : LiveMeasurement :=
  ⟨Time.zero, 0, 0, 0, 0, 0, 0, 0, 0, 0, 0, 0, 0, 0, 0, 0, ""⟩

/-- What a `float64` field becomes when a member selects it. -/
def floatField (cur : ℚ) (v : JValue) : Except GoError ℚ :=
  match v with
  | .num (some x) => .ok x
  | .null => .ok cur
  | other => .error (typeError other.what "Go struct field of type float64")

/-- What a `time.Time` field becomes when a member selects it. -/
def timeField (T : JsonText) (cur : Time) (v : JValue) : Except GoError Time :=
  match v with
  | .str _ raw => T.unmarshalTime raw
  | .null => .ok cur
  | _ => .error (.new "Time.UnmarshalJSON: input is not a JSON string")

/-- What a `string` field of a struct read from a tree becomes when a member selects
it. -/
def textField (cur : String) (v : JValue) : Except GoError String :=
  match v with
  | .str s _ => .ok s
  | .null => .ok cur
  | other => .error (typeError other.what "Go struct field of type string")

/-- One member of an object read into a `models.LiveMeasurement`. -/
def LiveMeasurement.assign (T : JsonText) (m : LiveMeasurement) (key : String)
    (v : JValue) : Except GoError LiveMeasurement :=
  match fieldOf T.foldName LiveMeasurement.jsonNames key with
  | none => .ok m
  | some name =>
    if name = "timestamp" then (timeField T m.Timestamp v).map ({ m with Timestamp := · })
    else if name = "power" then (floatField m.Power v).map ({ m with Power := · })
    else if name = "powerProduction" then
      (floatField m.PowerProduction v).map ({ m with PowerProduction := · })
    else if name = "accumulatedConsumption" then
      (floatField m.AccumulatedConsumption v).map ({ m with AccumulatedConsumption := · })
    else if name = "accumulatedProduction" then
      (floatField m.AccumulatedProduction v).map ({ m with AccumulatedProduction := · })
    else if name = "accumulatedCost" then
      (floatField m.AccumulatedCost v).map ({ m with AccumulatedCost := · })
    else if name = "accumulatedReward" then
      (floatField m.AccumulatedReward v).map ({ m with AccumulatedReward := · })
    else if name = "minPower" then (floatField m.MinPower v).map ({ m with MinPower := · })
    else if name = "maxPower" then (floatField m.MaxPower v).map ({ m with MaxPower := · })
    else if name = "averagePower" then
      (floatField m.AveragePower v).map ({ m with AveragePower := · })
    else if name = "voltagePhase1" then
      (floatField m.VoltagePhase1 v).map ({ m with VoltagePhase1 := · })
    else if name = "voltagePhase2" then
      (floatField m.VoltagePhase2 v).map ({ m with VoltagePhase2 := · })
    else if name = "voltagePhase3" then
      (floatField m.VoltagePhase3 v).map ({ m with VoltagePhase3 := · })
    else if name = "currentL1" then (floatField m.CurrentL1 v).map ({ m with CurrentL1 := · })
    else if name = "currentL2" then (floatField m.CurrentL2 v).map ({ m with CurrentL2 := · })
    else if name = "currentL3" then (floatField m.CurrentL3 v).map ({ m with CurrentL3 := · })
    else if name = "currency" then (textField m.Currency v).map ({ m with Currency := · })
    else .ok m

/-- The members of an object read into a `models.LiveMeasurement`, in order. -/
def LiveMeasurement.fill (T : JsonText) : LiveMeasurement → List (String × JValue) →
    Except GoError LiveMeasurement
  | m, [] => .ok m
  | m, (key, v) :: rest =>
    match LiveMeasurement.assign T m key v with
    | .error err => .error err
    | .ok m1 => LiveMeasurement.fill T m1 rest

/-- One member of an object read into the inner struct of `parsePayload`: the member
`liveMeasurement` sets the pointer (to nil for `null`, else to a record filled from an
object, a fresh one if the pointer was nil). -/
def payloadInner.assign (T : JsonText) (d : payloadInner) (key : String) (v : JValue) :
    Except GoError payloadInner :=
  match fieldOf T.foldName ["liveMeasurement"] key with
  | none => .ok d
  | some _ =>
    match v with
    | .null => .ok ⟨none⟩
    | .obj members =>
      (LiveMeasurement.fill T (d.LiveMeasurement.getD LiveMeasurement.zero) members).map
        (fun m => ⟨some m⟩)
    | other =>
      .error (typeError other.what "Go struct field of type models.LiveMeasurement")

/-- The members of an object read into the inner struct of `parsePayload`, in order. -/
def payloadInner.fill (T : JsonText) : payloadInner → List (String × JValue) →
    Except GoError payloadInner
  | d, [] => .ok d
  | d, (key, v) :: rest =>
    match payloadInner.assign T d key v with
    | .error err => .error err
    | .ok d1 => payloadInner.fill T d1 rest

/-- One member of an object read into the outer struct of `parsePayload`: the member
`data` fills the inner struct from an object. -/
def payloadData.assign (T : JsonText) (d : payloadData) (key : String) (v : JValue) :
    Except GoError payloadData :=
  match fieldOf T.foldName ["data"] key with
  | none => .ok d
  | some _ =>
    match v with
    | .null => .ok d
    | .obj members => (payloadInner.fill T d.Data members).map (fun i => ⟨i⟩)
    | other => .error (typeError other.what "Go struct field of type struct")

/-- The members of an object read into the outer struct of `parsePayload`, in order. -/
def payloadData.fill (T : JsonText) : payloadData → List (String × JValue) →
    Except GoError payloadData
  | d, [] => .ok d
  | d, (key, v) :: rest =>
    match payloadData.assign T d key v with
    | .error err => .error err
    | .ok d1 => payloadData.fill T d1 rest

/-- `json.Unmarshal(payload, &data)` in `parsePayload`, `data` being fresh. -/
def unmarshalPayload (T : JsonText) (payload : String) : Except GoError payloadData :=
  match T.parseValue payload with
  | .error err => .error err
  | .ok .null => .ok ⟨⟨none⟩⟩
  | .ok (.obj members) => payloadData.fill T ⟨⟨none⟩⟩ members
  | .ok other => .error (typeError other.what "Go value of type struct")

/-- The uses of `encoding/json` in `websocket.go`, over a text layer. -/
def JsonText.toJson (T : JsonText) : Json where
  Marshal := T.marshalMap
  MarshalMsg := marshalMsg T
  UnmarshalMsg := unmarshalMsg T
  UnmarshalPayload := unmarshalPayload T

/-- A member read back agrees with the member written: same name; the string written
is the string read; for a raw text, the text read is the text that stands in the
encoding, which is `rewrite` of the text given (`json.Marshal` does not copy a
`json.RawMessage`: it writes it compacted, with `<`, `>` and `&` escaped). -/
def readsBack (rewrite : String → String) (w : String × JWrite) (r : String × JRead) :
    Prop :=
  r.1 = w.1 ∧
    match w.2 with
    | .str s => r.2.kind = .string s
    | .raw text => r.2.raw = rewrite text

/-- The contract between the writer and the reader of `encoding/json`, `rewrite` being
what the writer makes of a raw text: whatever object the writer has written, the reader
reads as an object with the same members in the same order. -/
def JsonText.readsWhatItWrites (T : JsonText) (rewrite : String → String) : Prop :=
  ∀ (members : List (String × JWrite)) (text : String),
    T.renderObject members = .ok text →
    ∃ reads, T.parseDoc text = .ok (.object reads) ∧
      List.Forall₂ (readsBack rewrite) members reads

/-- The JSON value of a measurement: an object with one member per field, under the
member names of the struct tags, each number denoting the field. `stamp` is the text of
the timestamp string; `stampText` and `currencyRaw` are the parts of the two strings
that no field looks at. -/
def LiveMeasurement.toJSON (stamp stampText currencyRaw : String) (m : LiveMeasurement) :
    JValue :=
  .obj [("timestamp", .str stampText stamp), ("power", .num (some m.Power)),
    ("powerProduction", .num (some m.PowerProduction)),
    ("accumulatedConsumption", .num (some m.AccumulatedConsumption)),
    ("accumulatedProduction", .num (some m.AccumulatedProduction)),
    ("accumulatedCost", .num (some m.AccumulatedCost)),
    ("accumulatedReward", .num (some m.AccumulatedReward)),
    ("minPower", .num (some m.MinPower)), ("maxPower", .num (some m.MaxPower)),
    ("averagePower", .num (some m.AveragePower)),
    ("voltagePhase1", .num (some m.VoltagePhase1)),
    ("voltagePhase2", .num (some m.VoltagePhase2)),
    ("voltagePhase3", .num (some m.VoltagePhase3)),
    ("currentL1", .num (some m.CurrentL1)), ("currentL2", .num (some m.CurrentL2)),
    ("currentL3", .num (some m.CurrentL3)), ("currency", .str m.Currency currencyRaw)]

/-! ## A stand-in text layer, to run the struct layer -/

/-- A string between quotes, written as it is (no character is escaped). -/
def bareQuote (s : String) : String := "\"" ++ s ++ "\""

/-- The members of an object as text, separated by commas; strings go through
`bareQuote`, raw texts are copied. -/
def bareMembers : List (String × JWrite) → String
  | [] => ""
  | [(key, .str s)] => bareQuote key ++ ":" ++ bareQuote s
  | [(key, .raw text)] => bareQuote key ++ ":" ++ text
  | (key, .str s) :: rest => bareQuote key ++ ":" ++ bareQuote s ++ "," ++ bareMembers rest
  | (key, .raw text) :: rest => bareQuote key ++ ":" ++ text ++ "," ++ bareMembers rest

/-- The frame `{"type":"subscribe","id":"1","payload":{}}`. -/
def subscribeText : String :=
  "\x7b\"type\":\"subscribe\",\"id\":\"1\",\"payload\":\x7b\x7d\x7d"

/-- A measurement with a value in every field. -/
def sampleFull : LiveMeasurement :=
  ⟨⟨1714564800000000000⟩, 1234, 0, 12, 1, 30, 2, 200, 4000, 900, 230, 231, 229, 5, 6, 7,
    "NOK"⟩

/-- The payload of a `next` frame carrying `sampleFull`. -/
def fullPayload : String :=
  "\x7b\"data\":\x7b\"liveMeasurement\":\x7b\"timestamp\":\"2024-05-01T12:00:00Z\",\"power\":1234,\"powerProduction\":0,\"accumulatedConsumption\":12,\"accumulatedProduction\":1,\"accumulatedCost\":30,\"accumulatedReward\":2,\"minPower\":200,\"maxPower\":4000,\"averagePower\":900,\"voltagePhase1\":230,\"voltagePhase2\":231,\"voltagePhase3\":229,\"currentL1\":5,\"currentL2\":6,\"currentL3\":7,\"currency\":\"NOK\"\x7d\x7d\x7d"

/-- A stand-in for the text layer: it writes objects without escaping, and reads the two
texts `subscribeText` and `fullPayload`; every other input is rejected. -/
def tableText : JsonText where
  marshalMap := fun _ => "\x7b\x7d"
  renderObject := fun members => .ok ("\x7b" ++ bareMembers members ++ "\x7d")
  parseDoc := fun data =>
    if data = subscribeText then
      .ok (.object [("type", ⟨"\"subscribe\"", .string "subscribe"⟩),
        ("id", ⟨"\"1\"", .string "1"⟩), ("payload", ⟨"\x7b\x7d", .other "object"⟩)])
    else .error (.new "invalid character")
  parseValue := fun payload =>
    if payload = fullPayload then
      .ok (.obj [("data", .obj [("liveMeasurement",
        LiveMeasurement.toJSON "\"2024-05-01T12:00:00Z\"" "2024-05-01T12:00:00Z" "\"NOK\""
          sampleFull)])])
    else .error (.new "invalid character")
  foldName := String.toLower
  unmarshalTime := fun raw =>
    if raw = "\"2024-05-01T12:00:00Z\"" then .ok ⟨1714564800000000000⟩
    else .error (.new "parsing time: cannot parse")

/-! ## A stand-in text layer that writes and reads

The stand-in covers the strings `encoding/json` writes without an escape, and three raw
texts; on every other member its writer fails, and its reader rejects every text its
writer does not write. -/

/-- The characters `encoding/json` writes between quotes as they are: not a control
character, not `"` or `\`, not `<`, `>` or `&`, not U+2028 or U+2029. -/
def plainChar (c : Char) : Bool :=
  decide (32 ≤ c.toNat) && c != '"' && c != '\\' && c != '<' && c != '>' && c != '&' &&
    c.toNat != 8232 && c.toNat != 8233

/-- A string of such characters. -/
def plainString (s : String) : Bool := s.data.all plainChar

/-- The payload `{"a": 1}`, with a blank after the colon. -/
def spacedPayload : String := "\x7b\"a\": 1\x7d"

/-- The payload `{"a":1}`. -/
def compactPayload : String := "\x7b\"a\":1\x7d"

/-- The raw texts the stand-in writes: `{}`, `{"a": 1}` and `{"a":1}`. -/
def knownRaw : List String := ["\x7b\x7d", spacedPayload, compactPayload]

/-- What `json.Marshal` writes for a raw text the stand-in knows: the text compacted,
`{"a":1}` for `{"a": 1}`. -/
def compactKnown (text : String) : String :=
  if text = spacedPayload then compactPayload else text

/-- The text of one value: a plain string between quotes, a known raw text compacted. -/
def plainValue : JWrite → Option (List Char)
  | .str s => if plainString s then some ('"' :: (s.data ++ ['"'])) else none
  | .raw text => if text ∈ knownRaw then some (compactKnown text).data else none

/-- The text of the members of an object, separated by commas. -/
def plainMembers : List (String × JWrite) → Option (List Char)
  | [] => some []
  | (key, w) :: rest =>
    if plainString key then
      match plainValue w, plainMembers rest with
      | some v, some more =>
        some ('"' :: (key.data ++ '"' :: ':' :: (v ++
          (if rest.isEmpty then [] else ',' :: more))))
      | _, _ => none
    else none

/-- Reads a plain string up to its closing quote, the opening quote being passed. -/
def plainReadString : List Char → Option (List Char × List Char)
  | [] => none
  | c :: rest =>
    if c = '"' then some ([], rest)
    else if plainChar c then
      match plainReadString rest with
      | some (s, r) => some (c :: s, r)
      | none => none
    else none

/-- Reads one value: a plain string, or one of the raw texts the writer writes. -/
def plainReadValue (cs : List Char) : Option (JRead × List Char) :=
  if cs.head? = some '"' then
    match plainReadString cs.tail with
    | some (s, r) => some (⟨String.mk ('"' :: (s ++ ['"'])), .string (String.mk s)⟩, r)
    | none => none
  else if "\x7b\x7d".data.isPrefixOf cs then
    some (⟨"\x7b\x7d", .other "object"⟩, cs.drop 2)
  else if compactPayload.data.isPrefixOf cs then
    some (⟨compactPayload, .other "object"⟩, cs.drop 7)
  else none

/-- Reads the members of an object up to the closing brace, which ends the text. -/
def plainReadMembers : Nat → List Char → Option (List (String × JRead))
  | 0, _ => none
  | fuel + 1, cs =>
    if cs.head? = some '"' then
      match plainReadString cs.tail with
      | some (key, r) =>
        if r.head? = some ':' then
          match plainReadValue r.tail with
          | some (v, r2) =>
            if r2 = ['\x7d'] then some [(String.mk key, v)]
            else if r2.head? = some ',' then
              match plainReadMembers fuel r2.tail with
              | some more => some ((String.mk key, v) :: more)
              | none => none
            else none
          | none => none
        else none
      | none => none
    else none

/-- A stand-in for the text layer that writes objects of plain strings and known raw
texts the way `encoding/json` does, and reads them back. -/
def plainText : JsonText where
  marshalMap := fun _ => "\x7b\x7d"
  renderObject := fun members =>
    match plainMembers members with
    | some cs => .ok (String.mk ('\x7b' :: (cs ++ ['\x7d'])))
    | none => .error (.new "json: unsupported value")
  parseDoc := fun data =>
    if data.data = ['\x7b', '\x7d'] then .ok (.object [])
    else if data.data.head? = some '\x7b' then
      match plainReadMembers data.data.length data.data.tail with
      | some members => .ok (.object members)
      | none => .error (.new "invalid character")
    else .error (.new "invalid character")
  parseValue := fun _ => .error (.new "invalid character")
  foldName := String.toLower
  unmarshalTime := fun _ => .error (.new "parsing time: cannot parse")

/-- What the stand-in reads for a value it has written. -/
def plainRead : JWrite → JRead
  | .str s => ⟨String.mk ('"' :: (s.data ++ ['"'])), .string s⟩
  | .raw text => ⟨compactKnown text, .other "object"⟩

/-- The encoding `{"type":"next","id":"1","payload":{"a":1}}`. -/
def nextCompact : String :=
  "\x7b\"type\":\"next\",\"id\":\"1\",\"payload\":\x7b\"a\":1\x7d\x7d"

/-! ## `internal/output/pretty.go` -/

/-- ANSI code `Reset`. -/
def output.Reset : String := "\x1b[0m"

/-- ANSI code `Bold`. -/
def output.Bold : String := "\x1b[1m"

/-- ANSI code `Dim`. -/
def output.Dim : String := "\x1b[2m"

/-- ANSI code `Red`. -/
def output.Red : String := "\x1b[31m"

/-- ANSI code `Green`. -/
def output.Green : String := "\x1b[32m"

/-- ANSI code `Yellow`. -/
def output.Yellow : String := "\x1b[33m"

/-- ANSI code `Cyan`. -/
def output.Cyan : String := "\x1b[36m"

/-- ANSI code `BrightRed`. -/
def output.BrightRed : String := "\x1b[91m"

/-- ANSI code `BrightGreen`. -/
def output.BrightGreen : String := "\x1b[92m"

/-- ANSI code `BrightYellow`. -/
def output.BrightYellow : String := "\x1b[93m"

/-- ANSI code `BrightCyan`. -/
def output.BrightCyan : String := "\x1b[96m"

/-- What the formatters leave to `fmt` and `time`: `float n x` is `x` under the verb
`%.nf`; `clock t` is `t.Local().Format("15:04:05")`; `hourMinute t` is
`t.Local().Format("15:04")`; `hour t` and `day t` are `t.Local().Hour()` and
`t.Local().Day()`. -/
structure Fmt where
  float : Nat → ℚ → String
  clock : Time → String
  hourMinute : Time → String
  hour : Time → Int
  day : Time → Int

/-- `strings.Repeat(s, n)` for a count that is not negative. -/
def repeatString (s : String) : Nat → String
  | 0 => ""
  | n + 1 => s ++ repeatString s n

/-- `strings.Repeat(s, count)`: it panics (`none`) on a negative count. -/
def stringsRepeat (s : String) (count : Int) : Option String :=
  if count < 0 then none else some (repeatString s count.toNat)

/-- The colour `FormatLiveMeasurement` picks for the power line (the `if` chain on
`m.Power`). -/
def output.powerColor (power : ℚ) : String :=
  if power > 5000 then output.BrightRed
  else if power > 2000 then output.BrightYellow
  else output.BrightGreen

/-- `PrettyFormatter.FormatLiveMeasurement`. The argument is the pointer: on nil the
first field access panics (`none`). -/
def output.PrettyFormatter.FormatLiveMeasurement (F : Fmt) :
    Option LiveMeasurement → Option String
  | none => none
  | some m =>
    some (
      ("\n" ++ output.Bold ++ output.Cyan ++ "⚡ Live Power" ++ output.Reset ++ "\n") ++
      (output.Dim ++ repeatString "─" 14 ++ output.Reset ++ "\n\n") ++
      ("  " ++ output.Bold ++ output.powerColor m.Power ++ F.float 0 m.Power ++ " W" ++
        output.Reset ++ "\n\n") ++
      (if m.PowerProduction > 0 then
        "  " ++ output.Green ++ "☀️  Production:" ++ output.Reset ++ " " ++
          F.float 0 m.PowerProduction ++ " W\n"
       else "") ++
      ("  " ++ output.Bold ++ "📊 Today" ++ output.Reset ++ "\n") ++
      ("     Consumed: " ++ output.BrightCyan ++ F.float 2 m.AccumulatedConsumption ++
        " kWh" ++ output.Reset ++ "\n") ++
      ("     Cost:     " ++ output.BrightYellow ++ F.float 2 m.AccumulatedCost ++ " " ++
        m.Currency ++ output.Reset ++ "\n") ++
      (if m.VoltagePhase1 > 0 then
        ("\n  " ++ output.Bold ++ "🔌 Grid" ++ output.Reset ++ "\n") ++
        ("     Voltage: " ++ F.float 0 m.VoltagePhase1 ++ " / " ++
          F.float 0 m.VoltagePhase2 ++ " / " ++ F.float 0 m.VoltagePhase3 ++ " V\n") ++
        ("     Current: " ++ F.float 1 m.CurrentL1 ++ " / " ++ F.float 1 m.CurrentL2 ++
          " / " ++ F.float 1 m.CurrentL3 ++ " A\n")
       else "") ++
      ("\n  " ++ output.Dim ++ F.clock m.Timestamp ++ output.Reset ++ "\n"))

/-- `models.Price`. -/
structure Price where
  Total : ℚ
  Energy : ℚ
  Tax : ℚ
  StartsAt : Time
  Level : String
  Currency : String
deriving DecidableEq, Repr

/-- `models.PriceInfo`. -/
structure PriceInfo where
  Current : Option Price
  Today : List Price
  Tomorrow : List Price
deriving DecidableEq, Repr

/-- `priceColor`. -/
def output.priceColor (level : String) : String :=
  if level = "VERY_CHEAP" then output.BrightGreen
  else if level = "CHEAP" then output.Green
  else if level = "NORMAL" then output.Yellow
  else if level = "EXPENSIVE" then output.Red
  else if level = "VERY_EXPENSIVE" then output.BrightRed
  else output.Reset

/-- `levelLabel`. -/
def output.levelLabel (level : String) : String :=
  if level = "VERY_CHEAP" then output.BrightGreen ++ "● Very Cheap" ++ output.Reset
  else if level = "CHEAP" then output.Green ++ "● Cheap" ++ output.Reset
  else if level = "NORMAL" then output.Yellow ++ "● Normal" ++ output.Reset
  else if level = "EXPENSIVE" then output.Red ++ "● Expensive" ++ output.Reset
  else if level = "VERY_EXPENSIVE" then
    output.BrightRed ++ "● Very Expensive" ++ output.Reset
  else level

/-- The first loop of `formatPriceList`: the running minimum and maximum of the
totals. -/
def output.priceRange : List Price → ℚ × ℚ → ℚ × ℚ
  | [], acc => acc
  | p :: rest, (minPrice, maxPrice) =>
    output.priceRange rest
      (if p.Total < minPrice then p.Total else minPrice,
       if p.Total > maxPrice then p.Total else maxPrice)

/-! ### `float64` arithmetic

The bar length is computed in `float64`: every operation gives the exact result rounded
to the nearest value of the format (IEEE 754 binary64, ties to even). The finite
values are the rationals `m * 2^e` with `|m| < 2^53` and `-1074 ≤ e ≤ 971`. -/

/-- A `float64`: a finite value (the number it denotes; the sign of a zero is not kept),
an infinity with its sign, or a NaN. -/
inductive Float64
  | fin (q : ℚ)
  | inf (negative : Bool)
  | nan
deriving DecidableEq, Repr

/-- Rounding to the nearest integer, a tie going to the even one. -/
def roundHalfEven (x : ℚ) : Int :=
  if x - ⌊x⌋ < 1 / 2 then ⌊x⌋
  else if 1 / 2 < x - ⌊x⌋ then ⌊x⌋ + 1
  else if ⌊x⌋ % 2 = 0 then ⌊x⌋ else ⌊x⌋ + 1

/-- The exponent of the last place of the `float64` format around `x`: 52 below the
binary exponent of `x`, and never below -1074 (the subnormal range). -/
def Float64.ulpExp (x : ℚ) : Int := max (Int.log 2 |x|) (-1022) - 52

/-- The unit in the last place of the `float64` format around `x`. -/
def Float64.ulp (x : ℚ) : ℚ := 2 ^ Float64.ulpExp x

/-- The multiple of the unit in the last place nearest to `x`, a tie going to the even
multiple. -/
def Float64.nearest (x : ℚ) : ℚ := roundHalfEven (x / Float64.ulp x) * Float64.ulp x

/-- The `float64` an exact result is rounded to (IEEE 754, round to nearest even): the
nearest value of the format, an infinity from `2^1024` on. -/
def Float64.round (x : ℚ) : Float64 :=
  if (2 : ℚ) ^ (1024 : ℤ) ≤ |Float64.nearest x| then .inf (decide (Float64.nearest x < 0))
  else .fin (Float64.nearest x)

/-- The number `x` is a finite `float64`: rounding leaves it as it is. -/
def Float64.isValue (x : ℚ) : Prop := Float64.round x = .fin x

instance Float64.decidableIsValue (x : ℚ) : Decidable (Float64.isValue x) :=
  inferInstanceAs (Decidable (Float64.round x = .fin x))

/-- The difference `x - y` of two `float64`. -/
def Float64.sub : Float64 → Float64 → Float64
  | .nan, _ => .nan
  | _, .nan => .nan
  | .fin a, .fin b => Float64.round (a - b)
  | .fin _, .inf s => .inf (!s)
  | .inf s, .fin _ => .inf s
  | .inf s, .inf t => if s = t then .nan else .inf s

/-- The product `x * y` of two `float64`. -/
def Float64.mul : Float64 → Float64 → Float64
  | .nan, _ => .nan
  | _, .nan => .nan
  | .fin a, .fin b => Float64.round (a * b)
  | .fin a, .inf s => if a = 0 then .nan else .inf (xor s (decide (a < 0)))
  | .inf s, .fin b => if b = 0 then .nan else .inf (xor s (decide (b < 0)))
  | .inf s, .inf t => .inf (xor s t)

/-- The quotient `x / y` of two `float64`. A zero divisor counts as `+0`, the sign of a
zero not being kept. -/
def Float64.div : Float64 → Float64 → Float64
  | .nan, _ => .nan
  | _, .nan => .nan
  | .fin a, .fin b =>
    if b = 0 then (if a = 0 then .nan else .inf (decide (a < 0)))
    else Float64.round (a / b)
  | .fin _, .inf _ => .fin 0
  | .inf s, .fin b => .inf (xor s (decide (b < 0)))
  | .inf _, .inf _ => .nan

/-- The conversion `int(x)` of a number: truncation toward zero. -/
def truncate (x : ℚ) : Int :=
  if 0 ≤ x then ⌊x⌋ else -⌊-x⌋

/-- The conversion `int(x)` of a `float64`, `int` being 64 bits wide: truncation toward
zero when the result fits. For a NaN, an infinity or a value out of range the Go
specification leaves the result to the implementation: `conv` gives it. -/
def Float64.toInt (conv : Float64 → Int) : Float64 → Int
  | .fin q =>
    if -2 ^ 63 ≤ truncate q ∧ truncate q < 2 ^ 63 then truncate q else conv (.fin q)
  | x => conv x

/-- The bar length of one entry of `formatPriceList`, `barWidth` being 20:
`int(float64(barWidth) * (p.Total - minPrice) / (maxPrice - minPrice))`, each operation
rounded to `float64`, raised to 1 when below. -/
def output.barLen (conv : Float64 → Int) (minPrice maxPrice total : ℚ) : Int :=
  if Float64.toInt conv
      (Float64.div (Float64.mul (.fin 20) (Float64.sub (.fin total) (.fin minPrice)))
        (Float64.sub (.fin maxPrice) (.fin minPrice))) < 1 then 1
  else Float64.toInt conv
      (Float64.div (Float64.mul (.fin 20) (Float64.sub (.fin total) (.fin minPrice)))
        (Float64.sub (.fin maxPrice) (.fin minPrice)))

/-- What `int(x)` gives on amd64 where the Go specification leaves it open: the minimum
`int64`, for a NaN, an infinity and every value out of range. -/
def Float64.amd64 (_ : Float64) : Int := -9223372036854775808

/-- One turn of the second loop of `formatPriceList`: the line of the price `p`, `now`
being `time.Now()` in that turn. A failing `strings.Repeat` panics (`none`). -/
def output.priceLine (conv : Float64 → Int) (F : Fmt) (now : Time) (minPrice maxPrice : ℚ)
    (p : Price) : Option String :=
  let lead :=
    if F.hour p.StartsAt = F.hour now ∧ F.day p.StartsAt = F.day now then
      output.BrightYellow ++ "▶" ++ output.Reset ++ " "
    else "  "
  if maxPrice > minPrice then
    match stringsRepeat "█" (output.barLen conv minPrice maxPrice p.Total),
        stringsRepeat "░" (20 - output.barLen conv minPrice maxPrice p.Total) with
    | some filled, some empty =>
      some ("   " ++ lead ++ F.hourMinute p.StartsAt ++ " " ++ output.priceColor p.Level ++
        (filled ++ empty) ++ F.float 2 p.Total ++ output.Reset ++ " " ++ output.Dim ++
        p.Currency ++ output.Reset ++ "\n")
    | _, _ => none
  else
    some ("   " ++ lead ++ F.hourMinute p.StartsAt ++ " " ++ F.float 2 p.Total ++ " " ++
      p.Currency ++ "\n")

/-- The second loop of `formatPriceList` from turn `i` on; `now i` is `time.Now()` in
turn `i`. -/
def output.priceLines (conv : Float64 → Int) (F : Fmt) (now : Nat → Time)
    (minPrice maxPrice : ℚ) : Nat → List Price → Option String
  | _, [] => some ""
  | i, p :: rest =>
    match output.priceLine conv F (now i) minPrice maxPrice p,
        output.priceLines conv F now minPrice maxPrice (i + 1) rest with
    | some line, some more => some (line ++ more)
    | _, _ => none

/-- `PrettyFormatter.formatPriceList`: `prices[0]` panics (`none`) on an empty list. -/
def output.PrettyFormatter.formatPriceList (conv : Float64 → Int) (F : Fmt)
    (now : Nat → Time) (prices : List Price) : Option String :=
  match prices with
  | [] => none
  | first :: _ =>
    output.priceLines conv F now (output.priceRange prices (first.Total, first.Total)).1
      (output.priceRange prices (first.Total, first.Total)).2 0 prices

/-- `PrettyFormatter.FormatPrices`, `prices` being the record behind the pointer;
`nowToday` and `nowTomorrow` are the clock readings during the two lists. -/
def output.PrettyFormatter.FormatPrices (conv : Float64 → Int) (F : Fmt)
    (nowToday nowTomorrow : Nat → Time) (prices : PriceInfo) (_homeID : String) :
    Option String :=
  let head :=
    ("\n" ++ output.Bold ++ output.Cyan ++ "⚡ Electricity Prices" ++ output.Reset ++ "\n") ++
    (output.Dim ++ repeatString "─" 22 ++ output.Reset ++ "\n\n")
  let current :=
    match prices.Current with
    | some cur =>
      ("  " ++ output.Bold ++ output.BrightYellow ++ "NOW" ++ output.Reset ++ "  ") ++
      (output.Bold ++ output.priceColor cur.Level ++ F.float 2 cur.Total ++ " " ++
        cur.Currency ++ "/kWh" ++ output.Reset) ++
      ("  " ++ output.levelLabel cur.Level ++ "\n\n")
    | none => ""
  let today : Option String :=
    if prices.Today.length > 0 then
      match output.PrettyFormatter.formatPriceList conv F nowToday prices.Today with
      | some list =>
        some (("  " ++ output.Bold ++ "📅 Today" ++ output.Reset ++ "\n") ++ list ++ "\n")
      | none => none
    else some ""
  let tomorrow : Option String :=
    if prices.Tomorrow.length > 0 then
      match output.PrettyFormatter.formatPriceList conv F nowTomorrow prices.Tomorrow with
      | some list =>
        some (("  " ++ output.Bold ++ "📅 Tomorrow" ++ output.Reset ++ "\n") ++ list)
      | none => none
    else
      some (("  " ++ output.Bold ++ "📅 Tomorrow" ++ output.Reset ++ "\n") ++
        ("     " ++ output.Dim ++ "Not yet available (published ~13:00)" ++ output.Reset ++
          "\n"))
  match today, tomorrow with
  | some a, some b => some (head ++ current ++ a ++ b)
  | _, _ => none

/-- The totals of a list are finite `float64` values. -/
def output.finiteTotals (prices : List Price) : Prop :=
  ∀ p ∈ prices, Float64.isValue p.Total

instance output.decidableFiniteTotals (prices : List Price) :
    Decidable (output.finiteTotals prices) := by
  unfold output.finiteTotals
  exact inferInstance

/-- No two totals of a list are further apart than `2^1019`: no operation of
`formatPriceList` on them overflows. -/
def output.closeTotals (prices : List Price) : Prop :=
  ∀ p ∈ prices, ∀ q ∈ prices, q.Total - p.Total ≤ 2 ^ (1019 : ℤ)

instance output.decidableCloseTotals (prices : List Price) :
    Decidable (output.closeTotals prices) := by
  unfold output.closeTotals
  exact inferInstance

/-- The totals of a list are finite `float64` values, and an overflow cannot make a bar
longer than 20 cells: either nothing overflows (`closeTotals`), or the `int(x)` of the
platform gives at most 20 for a NaN or an infinity (as on amd64). -/
def output.plainTotals (conv : Float64 → Int) (prices : List Price) : Prop :=
  output.finiteTotals prices ∧ ((∀ x, conv x ≤ 20) ∨ output.closeTotals prices)

/-! ## `internal/config/config.go` -/

/-- `config.Config`. -/
structure Config where
  Token : String
  HomeID : String
  Format : String
deriving DecidableEq, Repr

/-- What `config.Load` asks of the outside: the two environment variables (`os.Getenv`,
empty when unset), `DefaultConfigPath()`, and the config file through viper:
`readInConfig path` is `none` when `viper.ReadInConfig()` fails for that file, else the
function `viper.GetString` of the file read. -/
structure ConfigEnv where
  tibberToken : String
  tibberHomeID : String
  defaultConfigPath : String
  readInConfig : String → Option (String → String)

/-- `config.Load`. -/
def Load (E : ConfigEnv) (configPath : String) : Config × Option GoError :=
  let cfg : Config := ⟨"", "", "pretty"⟩
  let cfg := if E.tibberToken ≠ "" then { cfg with Token := E.tibberToken } else cfg
  let cfg := if E.tibberHomeID ≠ "" then { cfg with HomeID := E.tibberHomeID } else cfg
  let configPath := if configPath = "" then E.defaultConfigPath else configPath
  let cfg :=
    if configPath ≠ "" then
      match E.readInConfig configPath with
      | some getString =>
        let cfg := if cfg.Token = "" then { cfg with Token := getString "token" } else cfg
        let cfg :=
          if cfg.HomeID = "" then { cfg with HomeID := getString "home_id" } else cfg
        if getString "format" ≠ "" then { cfg with Format := getString "format" } else cfg
      | none => cfg
    else cfg
  (cfg, none)

/-! ## `Client.GetPrices` of `internal/api/client.go` -/

/-- The anonymous struct behind `currentSubscription` in `GetPrices`. -/
structure PriceSubscription where
  PriceInfo : Option PriceInfo
deriving DecidableEq, Repr

/-- The anonymous struct of one home in `GetPrices`. -/
structure PriceHome where
  ID : String
  CurrentSubscription : Option PriceSubscription
deriving DecidableEq, Repr

/-- The `for` loop of `GetPrices`: the price info it returns, `none` when it runs to the
end. -/
def GetPrices.scan (homeID : String) : List PriceHome → Option PriceInfo
  | [] => none
  | home :: rest =>
    if homeID = "" ∨ home.ID = homeID then
      match home.CurrentSubscription with
      | some sub =>
        match sub.PriceInfo with
        | some info => some info
        | none => GetPrices.scan homeID rest
      | none => GetPrices.scan homeID rest
    else GetPrices.scan homeID rest

/-- `Client.GetPrices`: `executed` is what `c.execute` returns, `unmarshal` is
`json.Unmarshal` into the anonymous result struct, read at `Viewer.Homes`. -/
def GetPrices (executed : Except GoError String)
    (unmarshal : String → Except GoError (List PriceHome)) (homeID : String) :
    Except GoError PriceInfo :=
  match executed with
  | .error err => .error err
  | .ok data =>
    match unmarshal data with
    | .error err => .error (.wrap "failed to parse prices: " err)
    | .ok homes =>
      match GetPrices.scan homeID homes with
      | some info => .ok info
      | none => .error (.new "no price information found")

/-- A home a scan for `homeID` stops at, and the price info it then returns. -/
def GetPrices.selects (homeID : String) (home : PriceHome) (info : PriceInfo) : Prop :=
  (homeID = "" ∨ home.ID = homeID) ∧
    ∃ sub, home.CurrentSubscription = some sub ∧ sub.PriceInfo = some info

/-! ## The token masking of `config show` (`internal/commands/config.go`) -/

/-- The slice `b[:n]`: it panics (`none`) when `n` is beyond the length. -/
def sliceTo (b : List UInt8) (n : Int) : Option (List UInt8) :=
  if 0 ≤ n ∧ n ≤ b.length then some (b.take n.toNat) else none

/-- The slice `b[n:]`: it panics (`none`) when `n` is negative or beyond the length. -/
def sliceFrom (b : List UInt8) (n : Int) : Option (List UInt8) :=
  if 0 ≤ n ∧ n ≤ b.length then some (b.drop n.toNat) else none

/-- The bytes of `"..."`. -/
def dots : List UInt8 := [46, 46, 46]

/-- What `config show` displays for the `token` entry of the config file: masked when
longer than 8 bytes, else as it is. A panic is `none`. -/
def showFileToken (token : List UInt8) : Option (List UInt8) :=
  if (token.length : Int) > 8 then
    match sliceTo token 4, sliceFrom token ((token.length : Int) - 4) with
    | some head, some tail => some (head ++ dots ++ tail)
    | _, _ => none
  else some token

/-- What `config show` displays for a non-empty `TIBBER_TOKEN` (between the label and
the newline): `envToken[:4]`, three dots, `envToken[len(envToken)-4:]`. A panic is
`none`. -/
def showEnvToken (envToken : List UInt8) : Option (List UInt8) :=
  match sliceTo envToken 4, sliceFrom envToken ((envToken.length : Int) - 4) with
  | some head, some tail => some (head ++ dots ++ tail)
  | _, _ => none

/-- The bytes `shown` contain the bytes `token` as a contiguous run. -/
def containsToken (shown token : List UInt8) : Prop :=
  ∃ before after, shown = before ++ token ++ after

/-! ## Sample values for the formatters and the price lookup -/

/-- A stand-in for the formatting done by `fmt` and `time`. -/
def plainFmt : Fmt where
  float := fun _ _ => "#"
  clock := fun _ => "12:00:00"
  hourMinute := fun _ => "12:00"
  hour := fun _ => 12
  day := fun _ => 1

/-- Three prices with totals 1, 3 and 2. -/
def samplePriceList : List Price :=
  [⟨1, 1, 0, ⟨0⟩, "CHEAP", "NOK"⟩, ⟨3, 2, 1, ⟨1⟩, "EXPENSIVE", "NOK"⟩,
   ⟨2, 1, 1, ⟨2⟩, "NORMAL", "NOK"⟩]

/-- A price info with today's list only. -/
def samplePriceInfo : PriceInfo := ⟨none, samplePriceList, []⟩

/-- Three homes: one without subscription, two with price info. -/
def sampleHomes : List PriceHome :=
  [⟨"home-0", none⟩, ⟨"home-1", some ⟨some samplePriceInfo⟩⟩,
   ⟨"home-2", some ⟨some ⟨none, [], []⟩⟩⟩]


/-- The `float64` nearest to 0.47: `2116691824864133 * 2^-52`. -/
def nearly047 : ℚ := 2116691824864133 / 4503599627370496

/-- Two prices with totals 0 and the `float64` nearest to 0.47. -/
def floatPriceList : List Price :=
  [⟨0, 0, 0, ⟨0⟩, "VERY_CHEAP", "NOK"⟩, ⟨nearly047, 0, 0, ⟨1⟩, "NORMAL", "NOK"⟩]

/-! ## A stand-in text layer over payloads without a record -/

/-- The `next` frame with id 1 and the given payload text. -/
def nextFrameWith (payload : String) : String :=
  "\x7b\"id\":\"1\",\"type\":\"next\",\"payload\":" ++ payload ++ "\x7d"

/-- The payload `{"data":{"liveMeasurement":null}}`. -/
def nullMeasurementPayload : String :=
  "\x7b\"data\":\x7b\"liveMeasurement\":null\x7d\x7d"

/-- The payload `{}`. -/
def emptyObjectPayload : String := "\x7b\x7d"

/-- The payload `null`. -/
def nullPayload : String := "null"

/-- A stand-in for the text layer: it reads the ack frame and the `next` frames carrying
the three payloads above, and these payloads; every other input is rejected. -/
def nullText : JsonText where
  marshalMap := fun _ => "\x7b\x7d"
  renderObject := fun members => .ok ("\x7b" ++ bareMembers members ++ "\x7d")
  parseDoc := fun data =>
    if data = ackFrame then
      .ok (.object [("type", ⟨"\"connection_ack\"", .string "connection_ack"⟩)])
    else if data = nextFrameWith nullMeasurementPayload then
      .ok (.object [("id", ⟨"\"1\"", .string "1"⟩), ("type", ⟨"\"next\"", .string "next"⟩),
        ("payload", ⟨nullMeasurementPayload, .other "object"⟩)])
    else if data = nextFrameWith emptyObjectPayload then
      .ok (.object [("id", ⟨"\"1\"", .string "1"⟩), ("type", ⟨"\"next\"", .string "next"⟩),
        ("payload", ⟨emptyObjectPayload, .other "object"⟩)])
    else if data = nextFrameWith nullPayload then
      .ok (.object [("id", ⟨"\"1\"", .string "1"⟩), ("type", ⟨"\"next\"", .string "next"⟩),
        ("payload", ⟨nullPayload, .null⟩)])
    else .error (.new "invalid character")
  parseValue := fun payload =>
    if payload = nullMeasurementPayload then
      .ok (.obj [("data", .obj [("liveMeasurement", .null)])])
    else if payload = emptyObjectPayload then .ok (.obj [])
    else if payload = nullPayload then .ok .null
    else .error (.new "invalid character")
  foldName := String.toLower
  unmarshalTime := fun _ => .error (.new "parsing time: cannot parse")

/-! ## Lemmas on traces and on the loop -/

@[simp] theorem handlerCalls_append (a b : List Action) :
    handlerCalls (a ++ b) = handlerCalls a ++ handlerCalls b := by
  induction a with
  | nil => rfl
  | cons x rest ih => cases x <;> simp [handlerCalls, ih]

@[simp] theorem readCount_append (a b : List Action) :
    readCount (a ++ b) = readCount a + readCount b := by
  induction a with
  | nil => simp [readCount]
  | cons x rest ih => cases x <;> simp [readCount, ih]; omega

@[simp] theorem Run.after_trace {σ : Type} (pre : List Action) (r : Run σ) :
    (Run.after pre r).trace = pre ++ r.trace := rfl

@[simp] theorem Run.after_state {σ : Type} (pre : List Action) (r : Run σ) :
    (Run.after pre r).state = r.state := rfl

@[simp] theorem Run.after_outcome {σ : Type} (pre : List Action) (r : Run σ) :
    (Run.after pre r).outcome = r.outcome := rfl

theorem Run.after_after {σ : Type} (a b : List Action) (r : Run σ) :
    Run.after a (Run.after b r) = Run.after (a ++ b) r := by
  simp [Run.after]

@[simp] theorem Run.deferClose_outcome {σ : Type} (r : Run σ) :
    r.deferClose.outcome = r.outcome := by
  unfold Run.deferClose
  split <;> simp_all

@[simp] theorem Run.deferClose_state {σ : Type} (r : Run σ) :
    r.deferClose.state = r.state := by
  unfold Run.deferClose
  split <;> simp_all

@[simp] theorem Run.deferClose_calls {σ : Type} (r : Run σ) :
    handlerCalls r.deferClose.trace = handlerCalls r.trace := by
  unfold Run.deferClose
  split <;> simp_all [handlerCalls]

theorem Run.deferClose_after {σ : Type} (pre : List Action) (r : Run σ) :
    (Run.after pre r).deferClose = Run.after pre r.deferClose := by
  unfold Run.deferClose
  cases h : r.outcome <;> simp [Run.after, h]

theorem Run.deferClose_pending {σ : Type} (r : Run σ) (h : r.outcome = .pending) :
    r.deferClose = r := by
  unfold Run.deferClose
  simp [h]

theorem Run.deferClose_returned {σ : Type} (tr : List Action) (s : σ)
    (err : Option GoError) :
    (Run.mk tr s (.returned err)).deferClose = ⟨tr ++ [.close], s, .returned err⟩ := rfl

/-- The loop on `pre ++ post`: if it returns within `pre` the rest is never looked at,
else it goes on with `post` from the state `pre` left. -/
theorem receiveLoop_append {σ : Type} (J : Json)
    (handler : σ → Option LiveMeasurement → σ × Option GoError)
    (pre post : List Tick) (s : σ) :
    receiveLoop J handler (pre ++ post) s =
      match (receiveLoop J handler pre s).outcome with
      | .pending =>
        Run.after (receiveLoop J handler pre s).trace
          (receiveLoop J handler post (receiveLoop J handler pre s).state)
      | .returned _ => receiveLoop J handler pre s := by
  induction pre generalizing s with
  | nil => simp [receiveLoop, Run.after]
  | cons t rest ih =>
    simp only [List.cons_append, receiveLoop]
    split
    · rfl
    · split
      · rfl
      · split
        · rw [List.append_eq, ih]; simp only [Run.after_outcome, Run.after_trace, Run.after_state]
          split <;> simp_all [Run.after]
        · split
          · split
            · rw [List.append_eq, ih]; simp only [Run.after_outcome, Run.after_trace, Run.after_state]
              split <;> simp_all [Run.after]
            · split
              · rfl
              · rw [List.append_eq, ih]; simp only [Run.after_outcome, Run.after_trace, Run.after_state]
                split <;> simp_all [Run.after]
          · split
            · rfl
            · split
              · rfl
              · rw [List.append_eq, ih]; simp only [Run.after_outcome, Run.after_trace, Run.after_state]
                split <;> simp_all [Run.after]

/-- The part of `Subscribe` before the loop does not depend on the script: either the
handshake goes through, and `Subscribe` is a fixed list of actions without handler
call, then the loop, then the close; or it fails, and `Subscribe` returns a fixed
error without calling the handler. -/
theorem Subscribe_shape (J : Json) (c : LiveClient) (env : Env) :
    (∃ tr, handlerCalls tr = [] ∧
      ∀ (σ : Type) (handler : σ → Option LiveMeasurement → σ × Option GoError)
        (script : List Tick) (s : σ),
        Subscribe J c handler (env.withScript script) s =
          Run.after tr (receiveLoop J handler script s).deferClose) ∨
    (∃ tr err, handlerCalls tr = [] ∧
      ∀ (σ : Type) (handler : σ → Option LiveMeasurement → σ × Option GoError)
        (script : List Tick) (s : σ),
        Subscribe J c handler (env.withScript script) s =
          ⟨tr, s, .returned (some err)⟩) := by
  rcases env with ⟨d, iw, a, sw, sc⟩
  cases d with
  | some err =>
    right
    exact ⟨[.dial], .wrap "failed to connect: " err, rfl, fun _ _ _ _ => rfl⟩
  | none =>
    cases h1 : J.MarshalMsg ⟨"connection_init", "", J.Marshal [("token", .str c.token)]⟩ with
    | error err =>
      right
      refine ⟨[.dial, .close], .wrap "failed to send init: " err, rfl, ?_⟩
      intro σ handler script s
      simp [Subscribe, subscribeConnected, sendMessage, Env.withScript, h1,
        Run.deferClose, Run.after]
    | ok data1 =>
      cases iw with
      | some err =>
        right
        refine ⟨[.dial, .write data1, .close], .wrap "failed to send init: " err, rfl, ?_⟩
        intro σ handler script s
        simp [Subscribe, subscribeConnected, sendMessage, Env.withScript, h1,
          Run.deferClose, Run.after]
      | none =>
        cases h2 : waitForAck J a with
        | some err =>
          right
          refine ⟨[.dial, .write data1, .read, .close], err, rfl, ?_⟩
          intro σ handler script s
          simp [Subscribe, subscribeConnected, sendMessage, Env.withScript, h1, h2,
            Run.deferClose, Run.after]
        | none =>
          cases h3 : J.MarshalMsg ⟨"subscribe", "1", J.Marshal
              [("query", .str SubscriptionLiveMeasurement),
               ("variables", .strMap [("homeId", c.homeID)])]⟩ with
          | error err =>
            right
            refine ⟨[.dial, .write data1, .read, .close],
              .wrap "failed to send subscription: " err, rfl, ?_⟩
            intro σ handler script s
            simp [Subscribe, subscribeConnected, sendMessage, Env.withScript, h1, h2, h3,
              Run.deferClose, Run.after]
          | ok data2 =>
            cases sw with
            | some err =>
              right
              refine ⟨[.dial, .write data1, .read, .write data2, .close],
                .wrap "failed to send subscription: " err, rfl, ?_⟩
              intro σ handler script s
              simp [Subscribe, subscribeConnected, sendMessage, Env.withScript, h1, h2, h3,
                Run.deferClose, Run.after]
            | none =>
              left
              refine ⟨[.dial, .write data1, .read, .write data2], rfl, ?_⟩
              intro σ handler script s
              simp only [Subscribe, subscribeConnected, sendMessage, Env.withScript, h1, h2,
                h3, Run.deferClose_after, Run.after_after]
              rfl

/-- A run that is still pending after `pre` goes on with `post` from where it stands. -/
theorem Subscribe_extend {σ : Type} (J : Json) (c : LiveClient)
    (handler : σ → Option LiveMeasurement → σ × Option GoError) (env : Env) (s : σ)
    (pre post : List Tick)
    (hpre : (Subscribe J c handler (env.withScript pre) s).outcome = .pending) :
    Subscribe J c handler (env.withScript (pre ++ post)) s =
      Run.after (Subscribe J c handler (env.withScript pre) s).trace
        (receiveLoop J handler post
          (Subscribe J c handler (env.withScript pre) s).state).deferClose := by
  rcases Subscribe_shape J c env with ⟨tr, _, h⟩ | ⟨tr, err, _, h⟩
  · rw [h] at hpre ⊢
    rw [h]
    simp only [Run.after_outcome, Run.deferClose_outcome] at hpre
    rw [receiveLoop_append, hpre]
    simp only [Run.deferClose_after, Run.after_after, Run.after_trace, Run.after_state,
      Run.deferClose_state, Run.deferClose_pending _ hpre]
  · rw [h] at hpre
    simp at hpre

/-- A turn the loop passes over (it reads, then goes on with the next turn in the same
state) can be taken out of the script without changing the handler calls, the outcome
or the handler state of `Subscribe`. -/
theorem Subscribe_skip {σ : Type} (J : Json) (c : LiveClient)
    (handler : σ → Option LiveMeasurement → σ × Option GoError) (env : Env) (s : σ)
    (pre post : List Tick) (t : Tick)
    (hskip : ∀ (rest : List Tick) (s1 : σ),
      receiveLoop J handler (t :: rest) s1 =
        Run.after [.read] (receiveLoop J handler rest s1)) :
    handlerCalls (Subscribe J c handler (env.withScript (pre ++ t :: post)) s).trace =
      handlerCalls (Subscribe J c handler (env.withScript (pre ++ post)) s).trace ∧
    (Subscribe J c handler (env.withScript (pre ++ t :: post)) s).outcome =
      (Subscribe J c handler (env.withScript (pre ++ post)) s).outcome ∧
    (Subscribe J c handler (env.withScript (pre ++ t :: post)) s).state =
      (Subscribe J c handler (env.withScript (pre ++ post)) s).state := by
  rcases Subscribe_shape J c env with ⟨tr, _, h⟩ | ⟨tr, err, _, h⟩
  · rw [h, h, receiveLoop_append, receiveLoop_append J handler pre post]
    cases hp : (receiveLoop J handler pre s).outcome with
    | pending => simp [hskip, handlerCalls]
    | returned e => simp
  · rw [h, h]
    simp

/-! ## One turn of the loop, case by case -/

theorem receiveLoop_done {σ : Type} (J : Json)
    (handler : σ → Option LiveMeasurement → σ × Option GoError)
    (t : Tick) (rest : List Tick) (s : σ) (c : CtxErr) (h : t.done = some c) :
    receiveLoop J handler (t :: rest) s = ⟨[], s, .returned (some (.ctx c))⟩ := by
  simp [receiveLoop, h]

theorem receiveLoop_readError {σ : Type} (J : Json)
    (handler : σ → Option LiveMeasurement → σ × Option GoError)
    (t : Tick) (rest : List Tick) (s : σ) (err : GoError)
    (hlive : t.done = none) (h : t.read = .error err) :
    receiveLoop J handler (t :: rest) s =
      ⟨[.read], s, .returned (some (.wrap "read error: " err))⟩ := by
  simp [receiveLoop, hlive, h]

theorem receiveLoop_malformed {σ : Type} (J : Json)
    (handler : σ → Option LiveMeasurement → σ × Option GoError)
    (data : String) (rest : List Tick) (s : σ) (err : GoError)
    (h : J.UnmarshalMsg data = .error err) :
    receiveLoop J handler (Tick.frame data :: rest) s =
      Run.after [.read] (receiveLoop J handler rest s) := by
  simp [receiveLoop, Tick.frame, h]

theorem receiveLoop_other {σ : Type} (J : Json)
    (handler : σ → Option LiveMeasurement → σ × Option GoError)
    (data : String) (rest : List Tick) (s : σ) (msg : wsMessage)
    (h : J.UnmarshalMsg data = .ok msg) (hn : msg.Type_ ≠ "next")
    (he : msg.Type_ ≠ "error") (hc : msg.Type_ ≠ "complete") :
    receiveLoop J handler (Tick.frame data :: rest) s =
      Run.after [.read] (receiveLoop J handler rest s) := by
  simp [receiveLoop, Tick.frame, h, hn, he, hc]

theorem receiveLoop_badPayload {σ : Type} (J : Json)
    (handler : σ → Option LiveMeasurement → σ × Option GoError)
    (data : String) (rest : List Tick) (s : σ) (msg : wsMessage) (err : GoError)
    (h : J.UnmarshalMsg data = .ok msg) (hn : msg.Type_ = "next")
    (hp : parsePayload J msg.Payload = .error err) :
    receiveLoop J handler (Tick.frame data :: rest) s =
      Run.after [.read] (receiveLoop J handler rest s) := by
  simp [receiveLoop, Tick.frame, h, hn, hp]

theorem receiveLoop_next {σ : Type} (J : Json)
    (handler : σ → Option LiveMeasurement → σ × Option GoError)
    (data : String) (rest : List Tick) (s : σ) (m : Option LiveMeasurement)
    (h : carries J data m) :
    receiveLoop J handler (Tick.frame data :: rest) s =
      match (handler s m).2 with
      | some err => ⟨[.read, .call m], (handler s m).1, .returned (some err)⟩
      | none => Run.after [.read, .call m] (receiveLoop J handler rest (handler s m).1) := by
  obtain ⟨msg, h1, h2, h3⟩ := h
  simp only [receiveLoop, Tick.frame, h1, h2, h3, if_true]
  rcases hh : handler s m with ⟨s1, _ | err⟩ <;> simp

theorem receiveLoop_error {σ : Type} (J : Json)
    (handler : σ → Option LiveMeasurement → σ × Option GoError)
    (data : String) (rest : List Tick) (s : σ) (msg : wsMessage)
    (h : J.UnmarshalMsg data = .ok msg) (he : msg.Type_ = "error") :
    receiveLoop J handler (Tick.frame data :: rest) s =
      ⟨[.read], s, .returned (some (.new ("subscription error: " ++ msg.Payload)))⟩ := by
  simp [receiveLoop, Tick.frame, h, he]

theorem receiveLoop_complete {σ : Type} (J : Json)
    (handler : σ → Option LiveMeasurement → σ × Option GoError)
    (data : String) (rest : List Tick) (s : σ) (msg : wsMessage)
    (h : J.UnmarshalMsg data = .ok msg) (hc : msg.Type_ = "complete") :
    receiveLoop J handler (Tick.frame data :: rest) s = ⟨[.read], s, .returned none⟩ := by
  simp [receiveLoop, Tick.frame, h, hc]

@[simp] theorem handlerCalls_deliveries (ms : List (Option LiveMeasurement)) :
    handlerCalls (deliveries ms) = ms := by
  induction ms with
  | nil => rfl
  | cons m rest ih => simp [deliveries, handlerCalls, ih]

/-- A run of well-formed `next` frames with an accepting handler: the loop reads and
delivers each in turn and goes on with what follows. -/
theorem receiveLoop_nexts {σ : Type} (J : Json)
    (handler : σ → Option LiveMeasurement → σ × Option GoError)
    (frames : List String) (ms : List (Option LiveMeasurement)) (tail : List Tick)
    (hframes : List.Forall₂ (carries J) frames ms)
    (haccept : ∀ s m, (handler s m).2 = none) (s : σ) :
    receiveLoop J handler (frames.map Tick.frame ++ tail) s =
      Run.after (deliveries ms) (receiveLoop J handler tail (feed handler s ms)) := by
  induction hframes generalizing s with
  | nil => simp [deliveries, feed, Run.after]
  | cons hd _ ih =>
    simp only [List.map_cons, List.cons_append]
    rw [receiveLoop_next J handler _ _ s _ hd, haccept]
    simp only [ih, Run.after_after, deliveries, feed]
    rfl

/-- When the handshake went through (the run with an empty script is pending),
`Subscribe` is a fixed list of actions without handler call, then the loop, then the
close. -/
theorem Subscribe_of_handshake {σ : Type} (J : Json) (c : LiveClient)
    (handler : σ → Option LiveMeasurement → σ × Option GoError) (env : Env) (s : σ)
    (hshake : (Subscribe J c handler (env.withScript []) s).outcome = .pending) :
    ∃ tr, handlerCalls tr = [] ∧ ∀ script,
      Subscribe J c handler (env.withScript script) s =
        Run.after tr (receiveLoop J handler script s).deferClose := by
  rcases Subscribe_shape J c env with ⟨tr, htr, h⟩ | ⟨tr, err, _, h⟩
  · exact ⟨tr, htr, fun script => h σ handler script s⟩
  · rw [h] at hshake
    simp at hshake

/-! ## The receive loop of `LiveClient.Subscribe`: claims -/

/-- C1. After a successful handshake, on a script of `n` well-formed `next` frames
carrying `R1..Rn` and with a handler that always accepts, `Subscribe` calls the handler
exactly `n` times, with `R1, ..., Rn` in the order received, and is then still waiting;
and whatever follows in the script, these are the first calls, in that order. -/
theorem C1_next_frames_delivered_in_order {σ : Type} (J : Json) (c : LiveClient)
    (handler : σ → Option LiveMeasurement → σ × Option GoError) (env : Env) (s : σ)
    (frames : List String) (Rs : List LiveMeasurement)
    (hshake : (Subscribe J c handler (env.withScript []) s).outcome = .pending)
    (hframes : List.Forall₂ (fun data R => carries J data (some R)) frames Rs)
    (haccept : ∀ s1 m, (handler s1 m).2 = none) :
    handlerCalls (Subscribe J c handler
        (env.withScript (frames.map Tick.frame)) s).trace = Rs.map some ∧
    (handlerCalls (Subscribe J c handler
        (env.withScript (frames.map Tick.frame)) s).trace).length = frames.length ∧
    (Subscribe J c handler (env.withScript (frames.map Tick.frame)) s).outcome
      = .pending ∧
    ∀ tail : List Tick,
      handlerCalls (Subscribe J c handler
          (env.withScript (frames.map Tick.frame ++ tail)) s).trace =
        Rs.map some ++
          handlerCalls (receiveLoop J handler tail (feed handler s (Rs.map some))).trace := by
  obtain ⟨tr, htr, h⟩ := Subscribe_of_handshake J c handler env s hshake
  have hms : List.Forall₂ (carries J) frames (Rs.map some) := by
    induction hframes with
    | nil => exact .nil
    | cons hd _ ih => exact .cons hd ih
  have hloop := fun tail => receiveLoop_nexts J handler frames (Rs.map some) tail hms haccept s
  have h0 := hloop []
  simp only [List.append_nil] at h0
  refine ⟨?_, ?_, ?_, ?_⟩
  · rw [h, h0]
    simp [htr, receiveLoop, handlerCalls]
  · rw [h, h0]
    simp [htr, receiveLoop, handlerCalls, hframes.length_eq]
  · rw [h, h0]
    simp [receiveLoop]
  · intro tail
    rw [h, hloop tail]
    simp [htr]

/-- C1 at two frames carrying the two sample records. -/
theorem C1_witness :
    handlerCalls (Subscribe tableJson sampleClient countingHandler
        (ackedEnv.withScript (["nextA", "nextB"].map Tick.frame)) 0).trace
      = [some sampleA, some sampleB] :=
  (C1_next_frames_delivered_in_order tableJson sampleClient countingHandler ackedEnv 0
    ["nextA", "nextB"] [sampleA, sampleB] (by decide)
    (.cons ⟨_, rfl, rfl, rfl⟩ (.cons ⟨_, rfl, rfl, rfl⟩ .nil))
    (fun _ _ => rfl)).1

/-- C2. A frame that does not decode as an envelope is skipped: put anywhere in a
script, it changes neither the records delivered to the handler, nor what `Subscribe`
returns, nor the handler state; and a run that is waiting when the frame arrives is
still waiting after it. -/
theorem C2_malformed_frame_skipped {σ : Type} (J : Json) (c : LiveClient)
    (handler : σ → Option LiveMeasurement → σ × Option GoError) (env : Env) (s : σ)
    (pre post : List Tick) (data : String) (err : GoError)
    (hbad : J.UnmarshalMsg data = .error err) :
    (handlerCalls (Subscribe J c handler
        (env.withScript (pre ++ Tick.frame data :: post)) s).trace =
      handlerCalls (Subscribe J c handler (env.withScript (pre ++ post)) s).trace ∧
    (Subscribe J c handler (env.withScript (pre ++ Tick.frame data :: post)) s).outcome =
      (Subscribe J c handler (env.withScript (pre ++ post)) s).outcome ∧
    (Subscribe J c handler (env.withScript (pre ++ Tick.frame data :: post)) s).state =
      (Subscribe J c handler (env.withScript (pre ++ post)) s).state) ∧
    ((Subscribe J c handler (env.withScript pre) s).outcome = .pending →
      (Subscribe J c handler (env.withScript (pre ++ [Tick.frame data])) s).outcome
        = .pending) := by
  have hskip := fun rest s1 => receiveLoop_malformed J handler data rest s1 err hbad
  refine ⟨Subscribe_skip J c handler env s pre post _ hskip, fun hpre => ?_⟩
  have h := (Subscribe_skip J c handler env s pre [] _ hskip).2.1
  rw [h, List.append_nil]
  exact hpre

/-- C2 at a malformed frame between two `next` frames. -/
theorem C2_witness :
    tableJson.UnmarshalMsg "junk" = .error (.new "invalid character") ∧
    handlerCalls (Subscribe tableJson sampleClient countingHandler (ackedEnv.withScript
        ([Tick.frame "nextA"] ++ Tick.frame "junk" :: [Tick.frame "nextB"])) 0).trace =
      handlerCalls (Subscribe tableJson sampleClient countingHandler (ackedEnv.withScript
        ([Tick.frame "nextA"] ++ [Tick.frame "nextB"])) 0).trace :=
  ⟨rfl, (C2_malformed_frame_skipped tableJson sampleClient countingHandler ackedEnv 0
    [Tick.frame "nextA"] [Tick.frame "nextB"] "junk" (.new "invalid character") rfl).1.1⟩

/-- C3, as stated, fails: for the `error` frame whose message text is `X` the error
returned is neither `X` nor `subscription error: X`; its text is the lead followed by the
whole payload as it was received, `[{"message":"X"}]`. For a message with a quote in it
the message text is not even a part of the error text, the payload carrying it escaped. -/
theorem C3_counterexample :
    (Subscribe errorJson sampleClient countingHandler
        (wireEnv.withScript [Tick.frame errorFrame]) 0).outcome =
      .returned (some (.new "subscription error: [\x7b\"message\":\"X\"\x7d]")) ∧
    (Subscribe errorJson sampleClient countingHandler
        (wireEnv.withScript [Tick.frame errorFrame]) 0).outcome ≠
      .returned (some (.new "X")) ∧
    (Subscribe errorJson sampleClient countingHandler
        (wireEnv.withScript [Tick.frame errorFrame]) 0).outcome ≠
      .returned (some (.new "subscription error: X")) ∧
    (Subscribe errorJson sampleClient countingHandler
        (wireEnv.withScript [Tick.frame quotedErrorFrame]) 0).outcome =
      .returned (some (.new ("subscription error: " ++ quotedErrorPayload))) ∧
    ¬ (quotedMessage.data <:+:
      (GoError.new ("subscription error: " ++ quotedErrorPayload)).Error.data) := by
  decide

/-- C3, amended. An `error` frame reaching a waiting loop ends `Subscribe` with the error
`fmt.Errorf("subscription error: %s", string(msg.Payload))`: its text is that lead
followed by the raw payload of the frame, the JSON text as it was received, from which
no message is taken out; two `error` frames give the same error only if their payloads
are the same text. The handler is not called for the frame and nothing is read after
it. -/
theorem C3_error_frame_returns_raw_payload {σ : Type} (J : Json) (c : LiveClient)
    (handler : σ → Option LiveMeasurement → σ × Option GoError) (env : Env) (s : σ)
    (pre post : List Tick) (data : String) (msg : wsMessage)
    (hpre : (Subscribe J c handler (env.withScript pre) s).outcome = .pending)
    (hmsg : J.UnmarshalMsg data = .ok msg) (hty : msg.Type_ = "error") :
    (Subscribe J c handler (env.withScript (pre ++ Tick.frame data :: post)) s).outcome =
      .returned (some (.new ("subscription error: " ++ msg.Payload))) ∧
    (GoError.new ("subscription error: " ++ msg.Payload)).Error =
      "subscription error: " ++ msg.Payload ∧
    (∀ (data2 : String) (msg2 : wsMessage), J.UnmarshalMsg data2 = .ok msg2 →
      msg2.Type_ = "error" →
      ((Subscribe J c handler (env.withScript (pre ++ Tick.frame data2 :: post)) s).outcome =
        (Subscribe J c handler (env.withScript (pre ++ Tick.frame data :: post)) s).outcome ↔
        msg2.Payload = msg.Payload)) ∧
    (Subscribe J c handler (env.withScript (pre ++ Tick.frame data :: post)) s).trace =
      (Subscribe J c handler (env.withScript pre) s).trace ++ [.read, .close] ∧
    handlerCalls
        (Subscribe J c handler (env.withScript (pre ++ Tick.frame data :: post)) s).trace =
      handlerCalls (Subscribe J c handler (env.withScript pre) s).trace := by
  have hrun : ∀ (d : String) (m : wsMessage), J.UnmarshalMsg d = .ok m → m.Type_ = "error" →
      (Subscribe J c handler (env.withScript (pre ++ Tick.frame d :: post)) s).outcome =
        .returned (some (.new ("subscription error: " ++ m.Payload))) := by
    intro d m hd hm
    rw [Subscribe_extend J c handler env s pre _ hpre,
      receiveLoop_error J handler d post _ m hd hm]
    rfl
  refine ⟨hrun data msg hmsg hty, rfl, ?_, ?_, ?_⟩
  · intro data2 msg2 h2 hty2
    rw [hrun data2 msg2 h2 hty2, hrun data msg hmsg hty]
    constructor
    · intro h
      have h1 := congrArg String.data (GoError.new.inj (Option.some.inj (Outcome.returned.inj h)))
      simp only [String.data_append] at h1
      exact String.ext (List.append_cancel_left h1)
    · intro h
      rw [h]
  · rw [Subscribe_extend J c handler env s pre _ hpre,
      receiveLoop_error J handler data post _ msg hmsg hty]
    rfl
  · rw [Subscribe_extend J c handler env s pre _ hpre,
      receiveLoop_error J handler data post _ msg hmsg hty]
    simp [Run.deferClose, handlerCalls]

/-- C3 amended, at the `error` frame with message `X` after one delivered record. -/
theorem C3_witness :
    (Subscribe errorJson sampleClient countingHandler (wireEnv.withScript
        ([Tick.frame nextFrame] ++ Tick.frame errorFrame :: [Tick.frame nextFrame]))
        0).outcome =
      .returned (some (.new ("subscription error: " ++ errorPayload))) ∧
    handlerCalls (Subscribe errorJson sampleClient countingHandler (wireEnv.withScript
        ([Tick.frame nextFrame] ++ Tick.frame errorFrame :: [Tick.frame nextFrame]))
        0).trace = [some powerOnly] :=
  have h := C3_error_frame_returns_raw_payload errorJson sampleClient countingHandler
    wireEnv 0 [Tick.frame nextFrame] [Tick.frame nextFrame] errorFrame
    ⟨"error", "1", errorPayload⟩ (by decide) rfl rfl
  ⟨h.1, h.2.2.2.2.trans (by decide)⟩

/-- C4. A `complete` frame reaching a waiting loop ends `Subscribe` with a nil error;
after the read of that frame the only action is the close: no later frame is read and
the handler is not called again, whatever follows in the script. -/
theorem C4_complete_frame_returns_nil {σ : Type} (J : Json) (c : LiveClient)
    (handler : σ → Option LiveMeasurement → σ × Option GoError) (env : Env) (s : σ)
    (pre post : List Tick) (data : String) (msg : wsMessage)
    (hpre : (Subscribe J c handler (env.withScript pre) s).outcome = .pending)
    (hmsg : J.UnmarshalMsg data = .ok msg) (hty : msg.Type_ = "complete") :
    (Subscribe J c handler (env.withScript (pre ++ Tick.frame data :: post)) s).outcome =
      .returned none ∧
    (Subscribe J c handler (env.withScript (pre ++ Tick.frame data :: post)) s).trace =
      (Subscribe J c handler (env.withScript pre) s).trace ++ [.read, .close] ∧
    handlerCalls
        (Subscribe J c handler (env.withScript (pre ++ Tick.frame data :: post)) s).trace =
      handlerCalls (Subscribe J c handler (env.withScript pre) s).trace ∧
    (Subscribe J c handler (env.withScript (pre ++ Tick.frame data :: post)) s).state =
      (Subscribe J c handler (env.withScript pre) s).state := by
  rw [Subscribe_extend J c handler env s pre _ hpre,
    receiveLoop_complete J handler data post _ msg hmsg hty]
  refine ⟨rfl, rfl, ?_, rfl⟩
  simp [Run.deferClose, handlerCalls]

/-- C4 at a `complete` frame followed by a further `next` frame. -/
theorem C4_witness :
    (Subscribe tableJson sampleClient countingHandler (ackedEnv.withScript
        ([Tick.frame "nextA"] ++ Tick.frame "complete" :: [Tick.frame "nextB"])) 0).outcome =
      .returned none ∧
    handlerCalls (Subscribe tableJson sampleClient countingHandler (ackedEnv.withScript
        ([Tick.frame "nextA"] ++ Tick.frame "complete" :: [Tick.frame "nextB"])) 0).trace =
      [some sampleA] :=
  have h := C4_complete_frame_returns_nil tableJson sampleClient countingHandler ackedEnv 0
    [Tick.frame "nextA"] [Tick.frame "nextB"] "complete" ⟨"complete", "1", ""⟩
    (by decide) rfl rfl
  ⟨h.1, h.2.2.1.trans (by decide)⟩

/-- C5. A turn of a waiting loop that finds the context done ends `Subscribe` with
`ctx.Err()`; the only action after that poll is the close: nothing is read, not even the
frame available in that turn, and the handler is not called. -/
theorem C5_cancellation_checked_before_receive {σ : Type} (J : Json) (c : LiveClient)
    (handler : σ → Option LiveMeasurement → σ × Option GoError) (env : Env) (s : σ)
    (pre post : List Tick) (t : Tick) (e : CtxErr)
    (hpre : (Subscribe J c handler (env.withScript pre) s).outcome = .pending)
    (hdone : t.done = some e) :
    (Subscribe J c handler (env.withScript (pre ++ t :: post)) s).outcome =
      .returned (some (.ctx e)) ∧
    (Subscribe J c handler (env.withScript (pre ++ t :: post)) s).trace =
      (Subscribe J c handler (env.withScript pre) s).trace ++ [.close] ∧
    readCount (Subscribe J c handler (env.withScript (pre ++ t :: post)) s).trace =
      readCount (Subscribe J c handler (env.withScript pre) s).trace ∧
    handlerCalls (Subscribe J c handler (env.withScript (pre ++ t :: post)) s).trace =
      handlerCalls (Subscribe J c handler (env.withScript pre) s).trace ∧
    (Subscribe J c handler (env.withScript (pre ++ t :: post)) s).state =
      (Subscribe J c handler (env.withScript pre) s).state := by
  rw [Subscribe_extend J c handler env s pre _ hpre,
    receiveLoop_done J handler t post _ e hdone]
  refine ⟨rfl, rfl, ?_, ?_, rfl⟩
  · simp [Run.deferClose, readCount]
  · simp [Run.deferClose, handlerCalls]

/-- C5 at a cancelled turn in which a `next` frame is available, with more behind it. -/
theorem C5_witness :
    (Subscribe tableJson sampleClient countingHandler (ackedEnv.withScript
        ([Tick.frame "nextA"] ++ ⟨some .Canceled, .ok "nextB"⟩ :: [Tick.frame "nextB"]))
        0).outcome = .returned (some (.ctx .Canceled)) ∧
    handlerCalls (Subscribe tableJson sampleClient countingHandler (ackedEnv.withScript
        ([Tick.frame "nextA"] ++ ⟨some .Canceled, .ok "nextB"⟩ :: [Tick.frame "nextB"]))
        0).trace = [some sampleA] :=
  have h := C5_cancellation_checked_before_receive tableJson sampleClient countingHandler
    ackedEnv 0 [Tick.frame "nextA"] [Tick.frame "nextB"] ⟨some .Canceled, .ok "nextB"⟩
    .Canceled (by decide) rfl
  ⟨h.1, h.2.2.2.1.trans (by decide)⟩

/-- C6, as stated, fails: when the context is cancelled while `conn.Read` waits (the
poll found the context live, the read comes back with an error), `Subscribe` returns a
`read error`, and not `ctx.Err()`, whether the error of the read has the context's error
in its chain or not. -/
theorem C6_counterexample :
    (Subscribe tableJson sampleClient countingHandler
        (ackedEnv.withScript [⟨none, .error readAborted⟩, ⟨some .Canceled, .ok "nextA"⟩])
        0).outcome = .returned (some (.wrap "read error: " readAborted)) ∧
    (Subscribe tableJson sampleClient countingHandler
        (ackedEnv.withScript [⟨none, .error readAborted⟩, ⟨some .Canceled, .ok "nextA"⟩])
        0).outcome ≠ .returned (some (.ctx .Canceled)) ∧
    (Subscribe tableJson sampleClient countingHandler
        (ackedEnv.withScript [⟨none, .error readClosed⟩, ⟨some .Canceled, .ok "nextA"⟩])
        0).outcome = .returned (some (.wrap "read error: " readClosed)) ∧
    (Subscribe tableJson sampleClient countingHandler
        (ackedEnv.withScript [⟨none, .error readClosed⟩, ⟨some .Canceled, .ok "nextA"⟩])
        0).outcome ≠ .returned (some (.ctx .Canceled)) ∧
    (GoError.wrap "read error: " readClosed).Is (.ctx .Canceled) = false := by
  decide

/-- C6, amended. When the cancellation fires while `Subscribe` is blocked in receive and
no frame arrives (the poll of that turn found the context live, and the read comes back
with an error, whichever it is), `Subscribe` ends with `read error: ` wrapping the error
of the read. What it returns is never `ctx.Err()` itself, and `ctx.Err()` is a cause of
it (`errors.Is`) exactly when it is a cause of the error the read returned. The handler
is not called, nothing is read afterwards and the context is not polled again, whatever
the later turns would answer. -/
theorem C6_cancel_during_receive_returns_wrapped_read_error {σ : Type} (J : Json)
    (c : LiveClient) (handler : σ → Option LiveMeasurement → σ × Option GoError)
    (env : Env) (s : σ) (pre post : List Tick) (t : Tick) (cause : GoError)
    (hpre : (Subscribe J c handler (env.withScript pre) s).outcome = .pending)
    (hlive : t.done = none) (hread : t.read = .error cause) :
    (Subscribe J c handler (env.withScript (pre ++ t :: post)) s).outcome =
      .returned (some (.wrap "read error: " cause)) ∧
    (∀ e : CtxErr,
      (Subscribe J c handler (env.withScript (pre ++ t :: post)) s).outcome ≠
        .returned (some (.ctx e)) ∧
      (GoError.wrap "read error: " cause).Is (.ctx e) = cause.Is (.ctx e)) ∧
    (GoError.wrap "read error: " cause).Error = "read error: " ++ cause.Error ∧
    (Subscribe J c handler (env.withScript (pre ++ t :: post)) s).trace =
      (Subscribe J c handler (env.withScript pre) s).trace ++ [.read, .close] ∧
    handlerCalls (Subscribe J c handler (env.withScript (pre ++ t :: post)) s).trace =
      handlerCalls (Subscribe J c handler (env.withScript pre) s).trace := by
  rw [Subscribe_extend J c handler env s pre _ hpre,
    receiveLoop_readError J handler t post _ cause hlive hread]
  refine ⟨rfl, ?_, rfl, rfl, ?_⟩
  · intro e
    constructor
    · simp [Run.deferClose, Run.after]
    · simp [GoError.Is]
  · simp [Run.deferClose, handlerCalls]

/-- C6 amended, at a read that fails after one delivered record, the context being done
at the next poll. -/
theorem C6_witness :
    (Subscribe tableJson sampleClient countingHandler (ackedEnv.withScript
        ([Tick.frame "nextA"] ++ ⟨none, .error readClosed⟩ ::
          [⟨some .Canceled, .ok "nextB"⟩])) 0).outcome =
      .returned (some (.wrap "read error: " readClosed)) ∧
    handlerCalls (Subscribe tableJson sampleClient countingHandler (ackedEnv.withScript
        ([Tick.frame "nextA"] ++ ⟨none, .error readClosed⟩ ::
          [⟨some .Canceled, .ok "nextB"⟩])) 0).trace = [some sampleA] :=
  have h := C6_cancel_during_receive_returns_wrapped_read_error tableJson sampleClient
    countingHandler ackedEnv 0 [Tick.frame "nextA"] [⟨some .Canceled, .ok "nextB"⟩]
    ⟨none, .error readClosed⟩ readClosed (by decide) rfl rfl
  ⟨h.1, h.2.2.2.2.trans (by decide)⟩

/-- C7. A failing `conn.Read` in a turn of a waiting loop ends `Subscribe` with
`read error: ` wrapping the read's error; the records delivered are those delivered
before that turn, and after the failed read the only action is the close. -/
theorem C7_read_failure_returns_transport_error {σ : Type} (J : Json) (c : LiveClient)
    (handler : σ → Option LiveMeasurement → σ × Option GoError) (env : Env) (s : σ)
    (pre post : List Tick) (t : Tick) (err : GoError)
    (hpre : (Subscribe J c handler (env.withScript pre) s).outcome = .pending)
    (hlive : t.done = none) (hread : t.read = .error err) :
    (Subscribe J c handler (env.withScript (pre ++ t :: post)) s).outcome =
      .returned (some (.wrap "read error: " err)) ∧
    (GoError.wrap "read error: " err).Unwrap = some err ∧
    handlerCalls (Subscribe J c handler (env.withScript (pre ++ t :: post)) s).trace =
      handlerCalls (Subscribe J c handler (env.withScript pre) s).trace ∧
    (Subscribe J c handler (env.withScript (pre ++ t :: post)) s).trace =
      (Subscribe J c handler (env.withScript pre) s).trace ++ [.read, .close] ∧
    (Subscribe J c handler (env.withScript (pre ++ t :: post)) s).state =
      (Subscribe J c handler (env.withScript pre) s).state := by
  rw [Subscribe_extend J c handler env s pre _ hpre,
    receiveLoop_readError J handler t post _ err hlive hread]
  refine ⟨rfl, rfl, ?_, rfl, rfl⟩
  simp [Run.deferClose, handlerCalls]

/-- C7 at a socket drop between two `next` frames. -/
theorem C7_witness :
    (Subscribe tableJson sampleClient countingHandler (ackedEnv.withScript
        ([Tick.frame "nextA"] ++ ⟨none, .error (.new "EOF")⟩ :: [Tick.frame "nextB"]))
        0).outcome = .returned (some (.wrap "read error: " (.new "EOF"))) ∧
    handlerCalls (Subscribe tableJson sampleClient countingHandler (ackedEnv.withScript
        ([Tick.frame "nextA"] ++ ⟨none, .error (.new "EOF")⟩ :: [Tick.frame "nextB"]))
        0).trace = [some sampleA] :=
  have h := C7_read_failure_returns_transport_error tableJson sampleClient countingHandler
    ackedEnv 0 [Tick.frame "nextA"] [Tick.frame "nextB"] ⟨none, .error (.new "EOF")⟩
    (.new "EOF") (by decide) rfl rfl
  ⟨h.1, h.2.2.1.trans (by decide)⟩

/-- C8. When the handler answers a decoded record with a stop error `e`, `Subscribe`
returns exactly `e`; after that call the only action is the close, so the handler is
not called for any later frame of the script. -/
theorem C8_handler_stop_error_propagated {σ : Type} (J : Json) (c : LiveClient)
    (handler : σ → Option LiveMeasurement → σ × Option GoError) (env : Env) (s : σ)
    (pre post : List Tick) (data : String) (m : Option LiveMeasurement) (e : GoError)
    (hpre : (Subscribe J c handler (env.withScript pre) s).outcome = .pending)
    (hnext : carries J data m)
    (hstop : (handler (Subscribe J c handler (env.withScript pre) s).state m).2 = some e) :
    (Subscribe J c handler (env.withScript (pre ++ Tick.frame data :: post)) s).outcome =
      .returned (some e) ∧
    (Subscribe J c handler (env.withScript (pre ++ Tick.frame data :: post)) s).trace =
      (Subscribe J c handler (env.withScript pre) s).trace ++ [.read, .call m, .close] ∧
    handlerCalls
        (Subscribe J c handler (env.withScript (pre ++ Tick.frame data :: post)) s).trace =
      handlerCalls (Subscribe J c handler (env.withScript pre) s).trace ++ [m] := by
  rw [Subscribe_extend J c handler env s pre _ hpre,
    receiveLoop_next J handler data post _ m hnext, hstop]
  refine ⟨rfl, rfl, ?_⟩
  simp [Run.deferClose, handlerCalls]

/-- C8 at a handler that stops on its second record, with a third frame behind. -/
theorem C8_witness :
    (Subscribe tableJson sampleClient stopSecondHandler (ackedEnv.withScript
        ([Tick.frame "nextA"] ++ Tick.frame "nextB" :: [Tick.frame "nextA"])) 0).outcome =
      .returned (some (.new "stop")) ∧
    handlerCalls (Subscribe tableJson sampleClient stopSecondHandler (ackedEnv.withScript
        ([Tick.frame "nextA"] ++ Tick.frame "nextB" :: [Tick.frame "nextA"])) 0).trace =
      [some sampleA, some sampleB] :=
  have h := C8_handler_stop_error_propagated tableJson sampleClient stopSecondHandler
    ackedEnv 0 [Tick.frame "nextA"] [Tick.frame "nextA"] "nextB" (some sampleB)
    (.new "stop") (by decide) ⟨_, rfl, rfl, rfl⟩ (by decide)
  ⟨h.1, h.2.2.trans (by decide)⟩

/-- C9. A well-formed frame whose type is none of `next`, `error`, `complete` is
passed over: put anywhere in a script, it changes neither the records delivered to the
handler, nor what `Subscribe` returns, nor the handler state; a run that is waiting when
the frame arrives is still waiting after it and has made no handler call for it. -/
theorem C9_other_frame_ignored {σ : Type} (J : Json) (c : LiveClient)
    (handler : σ → Option LiveMeasurement → σ × Option GoError) (env : Env) (s : σ)
    (pre post : List Tick) (data : String) (msg : wsMessage)
    (hmsg : J.UnmarshalMsg data = .ok msg) (hn : msg.Type_ ≠ "next")
    (he : msg.Type_ ≠ "error") (hc : msg.Type_ ≠ "complete") :
    (handlerCalls (Subscribe J c handler
        (env.withScript (pre ++ Tick.frame data :: post)) s).trace =
      handlerCalls (Subscribe J c handler (env.withScript (pre ++ post)) s).trace ∧
    (Subscribe J c handler (env.withScript (pre ++ Tick.frame data :: post)) s).outcome =
      (Subscribe J c handler (env.withScript (pre ++ post)) s).outcome ∧
    (Subscribe J c handler (env.withScript (pre ++ Tick.frame data :: post)) s).state =
      (Subscribe J c handler (env.withScript (pre ++ post)) s).state) ∧
    ((Subscribe J c handler (env.withScript pre) s).outcome = .pending →
      (Subscribe J c handler (env.withScript (pre ++ [Tick.frame data])) s).outcome
        = .pending ∧
      (Subscribe J c handler (env.withScript (pre ++ [Tick.frame data])) s).trace =
        (Subscribe J c handler (env.withScript pre) s).trace ++ [.read]) := by
  have hskip := fun rest s1 => receiveLoop_other J handler data rest s1 msg hmsg hn he hc
  refine ⟨Subscribe_skip J c handler env s pre post _ hskip, fun hpre => ?_⟩
  rw [Subscribe_extend J c handler env s pre _ hpre, hskip]
  simp [receiveLoop, Run.deferClose, Run.after]

/-- C9 at a `ping` frame between two `next` frames. -/
theorem C9_witness :
    handlerCalls (Subscribe tableJson sampleClient countingHandler (ackedEnv.withScript
        ([Tick.frame "nextA"] ++ Tick.frame "ping" :: [Tick.frame "nextB"])) 0).trace =
      handlerCalls (Subscribe tableJson sampleClient countingHandler (ackedEnv.withScript
        ([Tick.frame "nextA"] ++ [Tick.frame "nextB"])) 0).trace :=
  (C9_other_frame_ignored tableJson sampleClient countingHandler ackedEnv 0
    [Tick.frame "nextA"] [Tick.frame "nextB"] "ping" ⟨"ping", "", ""⟩ rfl
    (by decide) (by decide) (by decide)).1.1

/-- C10. A `next` frame whose payload `parsePayload` rejects is passed over: the read
is the only action for it, the handler is not called, and the loop goes on with the
following frames from the same state. A `next` frame whose payload `parsePayload`
decodes makes exactly one handler call, with the decoded record, right after its read. -/
theorem C10_next_payload_decode {σ : Type} (J : Json) (c : LiveClient)
    (handler : σ → Option LiveMeasurement → σ × Option GoError) (env : Env) (s : σ)
    (pre post : List Tick) (bad good : String) (msg : wsMessage) (err : GoError)
    (m : Option LiveMeasurement)
    (hpre : (Subscribe J c handler (env.withScript pre) s).outcome = .pending)
    (hmsg : J.UnmarshalMsg bad = .ok msg) (hty : msg.Type_ = "next")
    (hpayload : parsePayload J msg.Payload = .error err)
    (hgood : carries J good m) :
    Subscribe J c handler (env.withScript (pre ++ Tick.frame bad :: post)) s =
      Run.after ((Subscribe J c handler (env.withScript pre) s).trace ++ [.read])
        (receiveLoop J handler post
          (Subscribe J c handler (env.withScript pre) s).state).deferClose ∧
    handlerCalls (Subscribe J c handler
        (env.withScript (pre ++ Tick.frame bad :: post)) s).trace =
      handlerCalls (Subscribe J c handler (env.withScript (pre ++ post)) s).trace ∧
    (Subscribe J c handler (env.withScript (pre ++ Tick.frame bad :: post)) s).outcome =
      (Subscribe J c handler (env.withScript (pre ++ post)) s).outcome ∧
    (Subscribe J c handler (env.withScript (pre ++ [Tick.frame bad])) s).outcome
      = .pending ∧
    handlerCalls (Subscribe J c handler
        (env.withScript (pre ++ [Tick.frame good])) s).trace =
      handlerCalls (Subscribe J c handler (env.withScript pre) s).trace ++ [m] ∧
    (Subscribe J c handler (env.withScript (pre ++ [Tick.frame good])) s).trace =
      (Subscribe J c handler (env.withScript pre) s).trace ++ .read :: .call m ::
        (match (handler (Subscribe J c handler (env.withScript pre) s).state m).2 with
         | some _ => [.close]
         | none => []) := by
  have hskip := fun rest s1 =>
    receiveLoop_badPayload J handler bad rest s1 msg err hmsg hty hpayload
  have hinv := Subscribe_skip J c handler env s pre post _ hskip
  refine ⟨?_, hinv.1, hinv.2.1, ?_, ?_, ?_⟩
  · rw [Subscribe_extend J c handler env s pre _ hpre, hskip, Run.deferClose_after,
      Run.after_after]
  · rw [Subscribe_extend J c handler env s pre _ hpre, hskip]
    simp [receiveLoop]
  · rw [Subscribe_extend J c handler env s pre _ hpre,
      receiveLoop_next J handler good [] _ m hgood]
    cases (handler (Subscribe J c handler (env.withScript pre) s).state m).2 <;>
      simp [receiveLoop, Run.deferClose, Run.after, handlerCalls]
  · rw [Subscribe_extend J c handler env s pre _ hpre,
      receiveLoop_next J handler good [] _ m hgood]
    cases (handler (Subscribe J c handler (env.withScript pre) s).state m).2 <;>
      simp [receiveLoop, Run.deferClose, Run.after]

/-- C10 at a `next` frame with an undecodable payload and one carrying a record. -/
theorem C10_witness :
    handlerCalls (Subscribe tableJson sampleClient countingHandler (ackedEnv.withScript
        ([Tick.frame "nextA"] ++ Tick.frame "nextBad" :: [Tick.frame "nextB"])) 0).trace =
      [some sampleA, some sampleB] ∧
    handlerCalls (Subscribe tableJson sampleClient countingHandler (ackedEnv.withScript
        ([Tick.frame "nextA"] ++ [Tick.frame "nextB"])) 0).trace =
      [some sampleA, some sampleB] :=
  have h := C10_next_payload_decode tableJson sampleClient countingHandler ackedEnv 0
    [Tick.frame "nextA"] [Tick.frame "nextB"] "nextBad" "nextB" ⟨"next", "1", "?"⟩
    (.new "unexpected end of JSON input") (some sampleB) (by decide) rfl rfl rfl
    ⟨_, rfl, rfl, rfl⟩
  ⟨h.2.1.trans (by decide), h.2.2.2.2.1.trans (by decide)⟩

/-! ## The formatter choice and the exit status -/

/-- C20. `output.New` returns a `JSONFormatter` exactly for `"json"`, a
`MarkdownFormatter` exactly for `"markdown"` and `"md"`, and a `PrettyFormatter` for
every other name, among them `"pretty"`, the empty name and unknown names. -/
theorem C20_New_selects_formatter_by_name (format : String) :
    (output.New format = .JSONFormatter ↔ format = "json") ∧
    (output.New format = .MarkdownFormatter ↔ format = "markdown" ∨ format = "md") ∧
    (output.New format = .PrettyFormatter ↔
      format ≠ "json" ∧ format ≠ "markdown" ∧ format ≠ "md") ∧
    output.New "pretty" = .PrettyFormatter ∧
    output.New "" = .PrettyFormatter ∧
    output.New "unknown" = .PrettyFormatter := by
  refine ⟨?_, ?_, ?_, by decide, by decide, by decide⟩
  · unfold output.New
    by_cases h1 : format = "json"
    · simp [h1]
    · by_cases h2 : format = "markdown" ∨ format = "md"
      · simp [h1, h2]
      · by_cases h3 : format = "pretty" ∨ format = "" <;> simp [h1, h2, h3]
  · unfold output.New
    by_cases h1 : format = "json"
    · subst h1
      decide
    · by_cases h2 : format = "markdown" ∨ format = "md"
      · simp [h1, h2]
      · by_cases h3 : format = "pretty" ∨ format = "" <;> simp [h1, h2, h3]
  · unfold output.New
    by_cases h1 : format = "json"
    · simp [h1]
    · by_cases h2 : format = "markdown" ∨ format = "md"
      · simp only [h1, h2, if_true, if_false]
        rcases h2 with h2 | h2 <;> simp [h2]
      · have h2a : format ≠ "markdown" := fun h => h2 (Or.inl h)
        have h2b : format ≠ "md" := fun h => h2 (Or.inr h)
        by_cases h3 : format = "pretty" ∨ format = "" <;> simp [h1, h2, h3, h2a, h2b]

/-- C19, as stated, fails: the user cancels while `Subscribe` waits in `conn.Read`;
`Subscribe` returns a transport error (`read error: ...`), the context is cancelled, and
the live command exits with status 0. -/
theorem C19_counterexample :
    (Subscribe tableJson sampleClient liveHandler
        (ackedEnv.withScript [⟨none, .error readAborted⟩]) []).outcome =
      .returned (some (.wrap "read error: " readAborted)) ∧
    liveCmd tableJson sampleClient (ackedEnv.withScript [⟨none, .error readAborted⟩])
      (some .Canceled) = some 0 := by
  decide

/-- C19, amended. Once `Subscribe` has returned, the live command exits non-zero
exactly when the returned error is non-nil and the context is not cancelled: a nil
error exits 0, a cancelled context exits 0 whatever `Subscribe` returned, and any error
returned under a live context exits 1. -/
theorem C19_exit_status_of_live_command (J : Json) (c : LiveClient) (env : Env)
    (ctxErr : Option CtxErr) (err : Option GoError)
    (hret : (Subscribe J c liveHandler env []).outcome = .returned err) :
    (liveCmd J c env ctxErr = some 1 ↔ err ≠ none ∧ ctxErr = none) ∧
    (err = none → liveCmd J c env ctxErr = some 0) ∧
    (ctxErr ≠ none → liveCmd J c env ctxErr = some 0) ∧
    (err ≠ none → ctxErr = none → liveCmd J c env ctxErr = some 1) := by
  unfold liveCmd liveExitStatus exitWithError
  rw [hret]
  by_cases h1 : err = none <;> by_cases h2 : ctxErr = none <;> simp [h1, h2]

/-- C19 amended, at a remote `error` frame received under a live context. -/
theorem C19_witness :
    liveCmd tableJson sampleClient (ackedEnv.withScript [Tick.frame "errorX"]) none
      = some 1 :=
  (C19_exit_status_of_live_command tableJson sampleClient
    (ackedEnv.withScript [Tick.frame "errorX"]) none
    (some (.new ("subscription error: " ++ "X"))) (by decide)).2.2.2
    (by decide) rfl

/-! ## Handshake, close and sent frames -/

@[simp] theorem sentFrames_append (a b : List Action) :
    sentFrames (a ++ b) = sentFrames a ++ sentFrames b := by
  induction a with
  | nil => rfl
  | cons x rest ih => cases x <;> simp [sentFrames, ih]

@[simp] theorem closeCount_append (a b : List Action) :
    closeCount (a ++ b) = closeCount a + closeCount b := by
  induction a with
  | nil => simp [closeCount]
  | cons x rest ih => cases x <;> simp [closeCount, ih]; omega

/-- The loop only reads and calls the handler: it writes nothing and closes nothing. -/
theorem receiveLoop_quiet {σ : Type} (J : Json)
    (handler : σ → Option LiveMeasurement → σ × Option GoError)
    (script : List Tick) (s : σ) :
    sentFrames (receiveLoop J handler script s).trace = [] ∧
    closeCount (receiveLoop J handler script s).trace = 0 := by
  induction script generalizing s with
  | nil => simp [receiveLoop, sentFrames, closeCount]
  | cons t rest ih =>
    simp only [receiveLoop]
    split
    · simp [sentFrames, closeCount]
    · split
      · simp [sentFrames, closeCount]
      · split
        · simp [sentFrames, closeCount, ih]
        · split
          · split
            · simp [sentFrames, closeCount, ih]
            · split
              · simp [sentFrames, closeCount]
              · simp [sentFrames, closeCount, ih]
          · split
            · simp [sentFrames, closeCount]
            · split
              · simp [sentFrames, closeCount]
              · simp [sentFrames, closeCount, ih]

/-- Before its deferred close runs, the body of `Subscribe` closes nothing. -/
theorem subscribeConnected_closeCount {σ : Type} (J : Json) (c : LiveClient)
    (handler : σ → Option LiveMeasurement → σ × Option GoError) (env : Env) (s : σ) :
    closeCount (subscribeConnected J c handler env s).trace = 0 := by
  cases h1 : J.MarshalMsg ⟨"connection_init", "", J.Marshal [("token", .str c.token)]⟩ with
  | error err => simp [subscribeConnected, sendMessage, h1, closeCount]
  | ok data1 =>
    cases h2 : env.initWrite with
    | some err => simp [subscribeConnected, sendMessage, h1, h2, closeCount]
    | none =>
      cases h3 : waitForAck J env.ack with
      | some err => simp [subscribeConnected, sendMessage, h1, h2, h3, closeCount]
      | none =>
        cases h4 : J.MarshalMsg ⟨"subscribe", "1", J.Marshal
            [("query", .str SubscriptionLiveMeasurement),
             ("variables", .strMap [("homeId", c.homeID)])]⟩ with
        | error err => simp [subscribeConnected, sendMessage, h1, h2, h3, h4, closeCount]
        | ok data2 =>
          cases h5 : env.subWrite with
          | some err =>
            simp [subscribeConnected, sendMessage, h1, h2, h3, h4, h5, closeCount]
          | none =>
            simp [subscribeConnected, sendMessage, h1, h2, h3, h4, h5, closeCount,
              (receiveLoop_quiet J handler env.script s).2]

/-- What `waitForAck` answers to a frame that decodes as a `connection_ack`. -/
theorem waitForAck_ok (J : Json) (data : String) (msg : wsMessage)
    (hmsg : J.UnmarshalMsg data = .ok msg) (hty : msg.Type_ = "connection_ack") :
    waitForAck J (.ok data) = none := by
  simp [waitForAck, hmsg, hty]

/-- C11. When the init frame was sent and the handshake fails (the read for the ack
fails, as it does when the 10 second deadline passes; or the frame read does not decode;
or it decodes to a type other than `connection_ack`), `Subscribe` returns the error of
`waitForAck` for that case, never calls the handler, and the init frame is the only
frame it writes: its actions are dial, write of the init frame, read, close. -/
theorem C11_handshake_failure_sends_only_init {σ : Type} (J : Json) (c : LiveClient)
    (handler : σ → Option LiveMeasurement → σ × Option GoError) (env : Env) (s : σ)
    (data1 : String)
    (hdial : env.dial = none)
    (hinit : J.MarshalMsg ⟨"connection_init", "", J.Marshal [("token", .str c.token)]⟩
      = .ok data1)
    (hwrite : env.initWrite = none)
    (hfail : (∃ e, env.ack = .error e) ∨
      (∃ data e, env.ack = .ok data ∧ J.UnmarshalMsg data = .error e) ∨
      (∃ data msg, env.ack = .ok data ∧ J.UnmarshalMsg data = .ok msg ∧
        msg.Type_ ≠ "connection_ack")) :
    ∃ err,
      (Subscribe J c handler env s).outcome = .returned (some err) ∧
      (∀ e, env.ack = .error e → err = .wrap "failed to read ack: " e) ∧
      (∀ data e, env.ack = .ok data → J.UnmarshalMsg data = .error e →
        err = .wrap "failed to parse ack: " e) ∧
      (∀ data msg, env.ack = .ok data → J.UnmarshalMsg data = .ok msg →
        err = .new ("expected connection_ack, got " ++ msg.Type_)) ∧
      (Subscribe J c handler env s).trace = [.dial, .write data1, .read, .close] ∧
      handlerCalls (Subscribe J c handler env s).trace = [] ∧
      sentFrames (Subscribe J c handler env s).trace = [data1] := by
  have key : ∀ err, waitForAck J env.ack = some err →
      (Subscribe J c handler env s).outcome = .returned (some err) ∧
      (Subscribe J c handler env s).trace = [.dial, .write data1, .read, .close] := by
    intro err hw
    simp [Subscribe, subscribeConnected, sendMessage, hdial, hinit, hwrite, hw,
      Run.deferClose, Run.after]
  rcases hfail with ⟨e, he⟩ | ⟨data, e, hd, he⟩ | ⟨data, msg, hd, hm, hty⟩
  · have hw : waitForAck J env.ack = some (.wrap "failed to read ack: " e) := by
      simp [waitForAck, he]
    refine ⟨_, (key _ hw).1, ?_, ?_, ?_, (key _ hw).2, ?_, ?_⟩
    · intro e1 h1
      rw [he] at h1
      cases h1
      rfl
    · intro d1 e1 h1
      rw [he] at h1
      cases h1
    · intro d1 m1 h1
      rw [he] at h1
      cases h1
    · rw [(key _ hw).2]
      rfl
    · rw [(key _ hw).2]
      rfl
  · have hw : waitForAck J env.ack = some (.wrap "failed to parse ack: " e) := by
      simp [waitForAck, hd, he]
    refine ⟨_, (key _ hw).1, ?_, ?_, ?_, (key _ hw).2, ?_, ?_⟩
    · intro e1 h1
      rw [hd] at h1
      cases h1
    · intro d1 e1 h1 h2
      rw [hd] at h1
      cases h1
      rw [he] at h2
      cases h2
      rfl
    · intro d1 m1 h1 h2
      rw [hd] at h1
      cases h1
      rw [he] at h2
      cases h2
    · rw [(key _ hw).2]
      rfl
    · rw [(key _ hw).2]
      rfl
  · have hw : waitForAck J env.ack =
        some (.new ("expected connection_ack, got " ++ msg.Type_)) := by
      simp [waitForAck, hd, hm, hty]
    refine ⟨_, (key _ hw).1, ?_, ?_, ?_, (key _ hw).2, ?_, ?_⟩
    · intro e1 h1
      rw [hd] at h1
      cases h1
    · intro d1 e1 h1 h2
      rw [hd] at h1
      cases h1
      rw [hm] at h2
      cases h2
    · intro d1 m1 h1 h2
      rw [hd] at h1
      cases h1
      rw [hm] at h2
      cases h2
      rfl
    · rw [(key _ hw).2]
      rfl
    · rw [(key _ hw).2]
      rfl

/-- C11 at a server whose first frame is a `complete` frame instead of the ack, with a
`next` frame waiting behind it. -/
theorem C11_witness :
    sentFrames (Subscribe wireJson sampleClient countingHandler
        ⟨none, none, .ok completeFrame, none, [Tick.frame nextFrame]⟩ 0).trace
      = ["connection_init//\x7b\x7d"] ∧
    handlerCalls (Subscribe wireJson sampleClient countingHandler
        ⟨none, none, .ok completeFrame, none, [Tick.frame nextFrame]⟩ 0).trace = [] := by
  obtain ⟨err, _, _, _, _, _, h5, h6⟩ :=
    C11_handshake_failure_sends_only_init wireJson sampleClient countingHandler
      ⟨none, none, .ok completeFrame, none, [Tick.frame nextFrame]⟩ 0
      "connection_init//\x7b\x7d" rfl rfl rfl
      (Or.inr (Or.inr ⟨completeFrame, ⟨"complete", "1", ""⟩, rfl, rfl, by decide⟩))
  exact ⟨h6, h5⟩

/-- C12. On a connection that was opened, every run of `Subscribe` that returns,
whatever the exit path, closes the connection exactly once, and the close is its last
action, after every write and read. -/
theorem C12_close_exactly_once_and_last {σ : Type} (J : Json) (c : LiveClient)
    (handler : σ → Option LiveMeasurement → σ × Option GoError) (env : Env) (s : σ)
    (err : Option GoError)
    (hdial : env.dial = none)
    (hret : (Subscribe J c handler env s).outcome = .returned err) :
    closeCount (Subscribe J c handler env s).trace = 1 ∧
    ∃ before, (Subscribe J c handler env s).trace = before ++ [.close] ∧
      closeCount before = 0 := by
  have hc := subscribeConnected_closeCount J c handler env s
  have hshape : Subscribe J c handler env s =
      Run.after [.dial] (subscribeConnected J c handler env s).deferClose := by
    simp [Subscribe, hdial]
  rw [hshape] at hret ⊢
  simp only [Run.after_outcome, Run.deferClose_outcome] at hret
  have hd : (subscribeConnected J c handler env s).deferClose =
      ⟨(subscribeConnected J c handler env s).trace ++ [.close],
        (subscribeConnected J c handler env s).state, .returned err⟩ := by
    unfold Run.deferClose
    rw [hret]
  rw [hd]
  refine ⟨?_, .dial :: (subscribeConnected J c handler env s).trace, ?_, ?_⟩
  · simp [Run.after, closeCount, hc]
  · simp [Run.after]
  · simp [closeCount, hc]

/-- C12 at a run ended by a remote `error` frame. -/
theorem C12_witness :
    closeCount (Subscribe tableJson sampleClient countingHandler
      (ackedEnv.withScript [Tick.frame "nextA", Tick.frame "errorX"]) 0).trace = 1 :=
  (C12_close_exactly_once_and_last tableJson sampleClient countingHandler
    (ackedEnv.withScript [Tick.frame "nextA", Tick.frame "errorX"]) 0
    (some (.new ("subscription error: " ++ "X"))) rfl (by decide)).1

theorem Run.deferClose_sentFrames {σ : Type} (r : Run σ) :
    sentFrames r.deferClose.trace = sentFrames r.trace := by
  unfold Run.deferClose
  split <;> simp_all [sentFrames]

/-- C16. Once the init frame is sent and a `connection_ack` is read, `Subscribe` hands
to `conn.Write` the encoding of one `subscribe` envelope, with id `"1"` and as payload
the marshalled map of `query` (the live-measurement subscription document) and
`variables` (the map with `homeId` equal to the home id of the client). That write comes
right after the read of the ack; nothing that follows it is a write, so the frames sent
in the whole run are the init frame and this one. -/
theorem C16_subscribe_frame_sent_once_after_ack {σ : Type} (J : Json) (c : LiveClient)
    (handler : σ → Option LiveMeasurement → σ × Option GoError) (env : Env) (s : σ)
    (data1 data2 ackData : String) (ackMsg : wsMessage)
    (hdial : env.dial = none)
    (hinit : J.MarshalMsg ⟨"connection_init", "", J.Marshal [("token", .str c.token)]⟩
      = .ok data1)
    (hwrite : env.initWrite = none)
    (hack : env.ack = .ok ackData) (hackmsg : J.UnmarshalMsg ackData = .ok ackMsg)
    (hackty : ackMsg.Type_ = "connection_ack")
    (hsub : J.MarshalMsg ⟨"subscribe", "1", J.Marshal
        [("query", .str SubscriptionLiveMeasurement),
         ("variables", .strMap [("homeId", c.homeID)])]⟩ = .ok data2) :
    (∃ rest, (Subscribe J c handler env s).trace =
        [.dial, .write data1, .read, .write data2] ++ rest ∧ sentFrames rest = []) ∧
    sentFrames (Subscribe J c handler env s).trace = [data1, data2] := by
  have hw : waitForAck J env.ack = none := by
    rw [hack]
    exact waitForAck_ok J ackData ackMsg hackmsg hackty
  cases h5 : env.subWrite with
  | some err =>
    have ht : (Subscribe J c handler env s).trace =
        [.dial, .write data1, .read, .write data2] ++ [.close] := by
      simp [Subscribe, subscribeConnected, sendMessage, hdial, hinit, hwrite, hw, hsub, h5,
        Run.deferClose, Run.after]
    refine ⟨⟨[.close], ht, rfl⟩, ?_⟩
    rw [ht]
    rfl
  | none =>
    have ht : (Subscribe J c handler env s).trace =
        [.dial, .write data1, .read, .write data2] ++
          (receiveLoop J handler env.script s).deferClose.trace := by
      simp only [Subscribe, subscribeConnected, sendMessage, hdial, hinit, hwrite, hw, hsub,
        h5, Run.deferClose_after, Run.after_after, Run.after_trace]
      rfl
    have hq : sentFrames (receiveLoop J handler env.script s).deferClose.trace = [] := by
      rw [Run.deferClose_sentFrames]
      exact (receiveLoop_quiet J handler env.script s).1
    refine ⟨⟨_, ht, hq⟩, ?_⟩
    rw [ht, sentFrames_append, hq]
    rfl

/-- C16 at the sample client, with two frames in the loop. -/
theorem C16_witness :
    sentFrames (Subscribe wireJson sampleClient countingHandler
        (wireEnv.withScript [Tick.frame nextFrame, Tick.frame completeFrame]) 0).trace =
      ["connection_init//\x7b\x7d", "subscribe/1/\x7b\x7d"] :=
  (C16_subscribe_frame_sent_once_after_ack wireJson sampleClient countingHandler
    (wireEnv.withScript [Tick.frame nextFrame, Tick.frame completeFrame]) 0
    "connection_init//\x7b\x7d" "subscribe/1/\x7b\x7d" ackFrame ⟨"connection_ack", "", ""⟩
    rfl rfl rfl rfl rfl rfl rfl).2

/-- C18. End to end, with token `abc123` and home id `home-1`: the server sends a
`connection_ack`, then one `next` frame carrying a record of power 1234 (which the
handler accepts), then `complete`. `Subscribe` calls the handler exactly once, with that
record, returns nil, and its actions are: dial, init frame, read of the ack, subscribe
frame, read and delivery of the record, read of `complete`, close. -/
theorem C18_end_to_end {σ : Type} (J : Json)
    (handler : σ → Option LiveMeasurement → σ × Option GoError) (s : σ)
    (data1 data2 ackData nextData completeData : String)
    (ackMsg completeMsg : wsMessage) (R : LiveMeasurement)
    (hinit : J.MarshalMsg ⟨"connection_init", "", J.Marshal [("token", .str "abc123")]⟩
      = .ok data1)
    (hsub : J.MarshalMsg ⟨"subscribe", "1", J.Marshal
        [("query", .str SubscriptionLiveMeasurement),
         ("variables", .strMap [("homeId", "home-1")])]⟩ = .ok data2)
    (hackmsg : J.UnmarshalMsg ackData = .ok ackMsg)
    (hackty : ackMsg.Type_ = "connection_ack")
    (hnext : carries J nextData (some R)) (hpower : R.Power = 1234)
    (hcomplete : J.UnmarshalMsg completeData = .ok completeMsg)
    (hcompletety : completeMsg.Type_ = "complete")
    (haccept : (handler s (some R)).2 = none) :
    handlerCalls (Subscribe J ⟨"abc123", "home-1"⟩ handler
        ⟨none, none, .ok ackData, none,
          [Tick.frame nextData, Tick.frame completeData]⟩ s).trace = [some R] ∧
    (∀ m ∈ handlerCalls (Subscribe J ⟨"abc123", "home-1"⟩ handler
        ⟨none, none, .ok ackData, none,
          [Tick.frame nextData, Tick.frame completeData]⟩ s).trace,
      ∃ r, m = some r ∧ r.Power = 1234) ∧
    (Subscribe J ⟨"abc123", "home-1"⟩ handler
        ⟨none, none, .ok ackData, none,
          [Tick.frame nextData, Tick.frame completeData]⟩ s).outcome = .returned none ∧
    (Subscribe J ⟨"abc123", "home-1"⟩ handler
        ⟨none, none, .ok ackData, none,
          [Tick.frame nextData, Tick.frame completeData]⟩ s).trace =
      [.dial, .write data1, .read, .write data2, .read, .call (some R), .read, .close] := by
  have hw : waitForAck J (.ok ackData) = none := waitForAck_ok J ackData ackMsg hackmsg hackty
  have hloop : receiveLoop J handler [Tick.frame nextData, Tick.frame completeData] s =
      ⟨[.read, .call (some R), .read], (handler s (some R)).1, .returned none⟩ := by
    rw [receiveLoop_next J handler nextData _ s (some R) hnext, haccept]
    simp only []
    rw [receiveLoop_complete J handler completeData [] _ completeMsg hcomplete hcompletety]
    rfl
  have hrun : Subscribe J ⟨"abc123", "home-1"⟩ handler
      ⟨none, none, .ok ackData, none, [Tick.frame nextData, Tick.frame completeData]⟩ s =
      ⟨[.dial, .write data1, .read, .write data2, .read, .call (some R), .read, .close],
        (handler s (some R)).1, .returned none⟩ := by
    simp [Subscribe, subscribeConnected, sendMessage, hinit, hsub, hw, hloop,
      Run.deferClose, Run.after]
  rw [hrun]
  refine ⟨rfl, ?_, rfl, rfl⟩
  intro m hm
  have hm1 : m = some R := by
    simpa [handlerCalls] using hm
  exact ⟨R, hm1, hpower⟩

/-- C18 at the frames `connection_ack`, `next` with power 1234 and `complete` as JSON
text. -/
theorem C18_witness :
    handlerCalls (Subscribe wireJson ⟨"abc123", "home-1"⟩ countingHandler
        ⟨none, none, .ok ackFrame, none,
          [Tick.frame nextFrame, Tick.frame completeFrame]⟩ 0).trace = [some powerOnly] ∧
    (Subscribe wireJson ⟨"abc123", "home-1"⟩ countingHandler
        ⟨none, none, .ok ackFrame, none,
          [Tick.frame nextFrame, Tick.frame completeFrame]⟩ 0).outcome = .returned none :=
  have h := C18_end_to_end wireJson countingHandler 0 "connection_init//\x7b\x7d"
    "subscribe/1/\x7b\x7d" ackFrame nextFrame completeFrame ⟨"connection_ack", "", ""⟩
    ⟨"complete", "1", ""⟩ powerOnly rfl rfl rfl rfl ⟨_, rfl, rfl, rfl⟩ rfl rfl rfl rfl
  ⟨h.1, h.2.2.1⟩

/-- C14, as stated, fails: frames without `id` are not skipped. An id-less `complete`
frame ends `Subscribe` with nil (the `next` frame behind it is never delivered), an
id-less `next` frame reaches the handler, and an id-less `error` frame ends `Subscribe`
with the remote error. -/
theorem C14_counterexample :
    (Subscribe wireJson sampleClient countingHandler
        (wireEnv.withScript [Tick.frame completeFrameNoId, Tick.frame nextFrame]) 0).outcome
      = .returned none ∧
    handlerCalls (Subscribe wireJson sampleClient countingHandler
        (wireEnv.withScript [Tick.frame completeFrameNoId, Tick.frame nextFrame]) 0).trace
      = [] ∧
    handlerCalls (Subscribe wireJson sampleClient countingHandler
        (wireEnv.withScript [Tick.frame nextFrameNoId]) 0).trace = [some powerOnly] ∧
    (Subscribe wireJson sampleClient countingHandler
        (wireEnv.withScript [Tick.frame errorFrameNoId]) 0).outcome
      = .returned (some (.new ("subscription error: " ++ errorPayload))) := by
  decide

/-- C14, amended. The receive loop never looks at the `id` of a frame: a `next`,
`error` or `complete` frame is dispatched by its type alone. Received by a waiting loop
with an empty `id`, a `complete` frame ends `Subscribe` with nil, an `error` frame ends
it with the remote error, and a `next` frame whose payload decodes is delivered to the
handler; and two frames that differ only in their `id` make the same run. -/
theorem C14_frames_dispatched_by_type_alone {σ : Type} (J : Json) (c : LiveClient)
    (handler : σ → Option LiveMeasurement → σ × Option GoError) (env : Env) (s : σ)
    (pre post : List Tick) (dC dE dN : String) (pC pE pN : String)
    (m : Option LiveMeasurement)
    (hpre : (Subscribe J c handler (env.withScript pre) s).outcome = .pending)
    (hcomplete : J.UnmarshalMsg dC = .ok ⟨"complete", "", pC⟩)
    (herror : J.UnmarshalMsg dE = .ok ⟨"error", "", pE⟩)
    (hnext : J.UnmarshalMsg dN = .ok ⟨"next", "", pN⟩)
    (hpayload : parsePayload J pN = .ok m) :
    (Subscribe J c handler (env.withScript (pre ++ Tick.frame dC :: post)) s).outcome =
      .returned none ∧
    (Subscribe J c handler (env.withScript (pre ++ Tick.frame dE :: post)) s).outcome =
      .returned (some (.new ("subscription error: " ++ pE))) ∧
    handlerCalls (Subscribe J c handler (env.withScript (pre ++ [Tick.frame dN])) s).trace =
      handlerCalls (Subscribe J c handler (env.withScript pre) s).trace ++ [m] ∧
    (∀ (d1 d2 : String) (m1 m2 : wsMessage),
      J.UnmarshalMsg d1 = .ok m1 → J.UnmarshalMsg d2 = .ok m2 →
      m1.Type_ = m2.Type_ → m1.Payload = m2.Payload →
      Subscribe J c handler (env.withScript (pre ++ Tick.frame d1 :: post)) s =
        Subscribe J c handler (env.withScript (pre ++ Tick.frame d2 :: post)) s) := by
  refine ⟨?_, ?_, ?_, ?_⟩
  · rw [Subscribe_extend J c handler env s pre _ hpre,
      receiveLoop_complete J handler dC post _ _ hcomplete rfl]
    rfl
  · rw [Subscribe_extend J c handler env s pre _ hpre,
      receiveLoop_error J handler dE post _ _ herror rfl]
    rfl
  · rw [Subscribe_extend J c handler env s pre _ hpre,
      receiveLoop_next J handler dN [] _ m ⟨_, hnext, rfl, hpayload⟩]
    cases (handler (Subscribe J c handler (env.withScript pre) s).state m).2 <;>
      simp [receiveLoop, Run.deferClose, Run.after, handlerCalls]
  · intro d1 d2 m1 m2 h1 h2 hty hpl
    rw [Subscribe_extend J c handler env s pre _ hpre,
      Subscribe_extend J c handler env s pre _ hpre]
    congr 2
    simp only [receiveLoop, Tick.frame, h1, h2, hty, hpl]

/-- C14 amended, at the three id-less frames written as JSON text. -/
theorem C14_witness :
    (Subscribe wireJson sampleClient countingHandler (wireEnv.withScript
        ([Tick.frame nextFrame] ++ Tick.frame completeFrameNoId :: [Tick.frame nextFrame]))
        0).outcome = .returned none ∧
    handlerCalls (Subscribe wireJson sampleClient countingHandler (wireEnv.withScript
        ([Tick.frame nextFrame] ++ [Tick.frame nextFrameNoId])) 0).trace =
      [some powerOnly, some powerOnly] :=
  have h := C14_frames_dispatched_by_type_alone wireJson sampleClient countingHandler
    wireEnv 0 [Tick.frame nextFrame] [Tick.frame nextFrame] completeFrameNoId
    errorFrameNoId nextFrameNoId "" errorPayload powerPayload (some powerOnly)
    (by decide) rfl rfl rfl rfl
  ⟨h.1, h.2.2.1.trans (by decide)⟩

/-! ## The stand-in text layer reads what it writes -/

theorem plainChar_ne_quote (c : Char) (h : plainChar c = true) : c ≠ '"' := by
  intro hc
  rw [hc] at h
  revert h
  decide

/-- A plain string is read back up to its closing quote. -/
theorem plainReadString_spec (s r : List Char) (h : s.all plainChar = true) :
    plainReadString (s ++ '"' :: r) = some (s, r) := by
  induction s with
  | nil => simp [plainReadString]
  | cons c s ih =>
    simp only [List.all_cons, Bool.and_eq_true] at h
    simp [plainReadString, plainChar_ne_quote c h.1, h.1, ih h.2]

/-- A value the stand-in has written is read back, whatever follows it. -/
theorem plainReadValue_spec (w : JWrite) (v r : List Char) (h : plainValue w = some v) :
    plainReadValue (v ++ r) = some (plainRead w, r) := by
  cases w with
  | str s =>
    simp only [plainValue] at h
    split_ifs at h with hs
    cases h
    simp [plainReadValue, plainRead, plainReadString_spec s.data r hs]
  | raw text =>
    simp only [plainValue] at h
    split_ifs at h with hk
    cases h
    simp only [knownRaw, List.mem_cons, List.mem_singleton, List.not_mem_nil, or_false] at hk
    rcases hk with rfl | rfl | rfl
    · simp [plainReadValue, plainRead, compactKnown, spacedPayload, compactPayload,
        List.isPrefixOf]
    · simp [plainReadValue, plainRead, compactKnown, spacedPayload, compactPayload,
        List.isPrefixOf]
    · simp [plainReadValue, plainRead, compactKnown, spacedPayload, compactPayload,
        List.isPrefixOf]

/-- The text of members holds a character per member at least. -/
theorem plainMembers_length (ms : List (String × JWrite)) (cs : List Char)
    (h : plainMembers ms = some cs) : ms.length ≤ cs.length := by
  induction ms generalizing cs with
  | nil => simp
  | cons m rest ih =>
    obtain ⟨key, w⟩ := m
    simp only [plainMembers] at h
    by_cases hkey : plainString key = true
    · rw [if_pos hkey] at h
      cases hv : plainValue w with
      | none => simp [hv] at h
      | some v =>
        cases hm : plainMembers rest with
        | none => simp [hv, hm] at h
        | some more =>
          simp only [hv, hm, Option.some.injEq] at h
          subst h
          have := ih more hm
          cases rest with
          | nil => simp
          | cons a b =>
            simp only [List.isEmpty_cons, Bool.false_eq_true, if_false, List.length_cons,
              List.length_append] at this ⊢
            omega
    · rw [if_neg hkey] at h
      cases h

/-- The members the stand-in has written are read back, in order. -/
theorem plainReadMembers_spec (ms : List (String × JWrite)) (cs : List Char) (fuel : Nat)
    (hne : ms ≠ []) (h : plainMembers ms = some cs) (hfuel : ms.length ≤ fuel) :
    plainReadMembers fuel (cs ++ ['\x7d']) = some (ms.map (fun m => (m.1, plainRead m.2))) := by
  induction ms generalizing cs fuel with
  | nil => exact absurd rfl hne
  | cons m rest ih =>
    obtain ⟨key, w⟩ := m
    simp only [plainMembers] at h
    by_cases hkey : plainString key = true
    · rw [if_pos hkey] at h
      cases hv : plainValue w with
      | none => simp [hv] at h
      | some v =>
        cases hm : plainMembers rest with
        | none => simp [hv, hm] at h
        | some more =>
          simp only [hv, hm, Option.some.injEq] at h
          subst h
          cases fuel with
          | zero => simp at hfuel
          | succ f =>
            have hstr := plainReadString_spec key.data
              (':' :: (v ++ ((if rest.isEmpty then [] else ',' :: more) ++ ['\x7d']))) hkey
            have hval := plainReadValue_spec w v
              ((if rest.isEmpty then [] else ',' :: more) ++ ['\x7d']) hv
            cases rest with
            | nil =>
              simp only [List.isEmpty_nil, if_true, List.nil_append] at hstr hval
              simp [plainReadMembers, hstr, hval]
            | cons a b =>
              simp only [List.isEmpty_cons, Bool.false_eq_true, if_false, List.cons_append]
                at hstr hval
              have hrec := ih more f (by simp) hm (by simpa using hfuel)
              simp [plainReadMembers, hstr, hval, hrec]
    · rw [if_neg hkey] at h
      cases h

/-- The stand-in keeps the contract of `encoding/json`: it reads what it writes, a raw
text coming back compacted. -/
theorem plainText_readsWhatItWrites : plainText.readsWhatItWrites compactKnown := by
  intro members text h
  have hshow : plainText.renderObject members =
      (match plainMembers members with
        | some cs => .ok (String.mk ('\x7b' :: (cs ++ ['\x7d'])))
        | none => .error (.new "json: unsupported value")) := rfl
  rw [hshow] at h
  cases hm : plainMembers members with
  | none => simp [hm] at h
  | some cs =>
    simp only [hm, Except.ok.injEq] at h
    subst h
    have hall : List.Forall₂ (readsBack compactKnown) members
        (members.map (fun m => (m.1, plainRead m.2))) := by
      rw [List.forall₂_map_right_iff, List.forall₂_same]
      intro m _
      obtain ⟨key, w⟩ := m
      cases w <;> simp [readsBack, plainRead]
    cases members with
    | nil =>
      have : cs = [] := by simpa [plainMembers] using hm.symm
      subst this
      exact ⟨[], by simp [plainText], List.Forall₂.nil⟩
    | cons m rest =>
      refine ⟨(m :: rest).map (fun m => (m.1, plainRead m.2)), ?_, hall⟩
      have hlen := plainMembers_length (m :: rest) cs hm
      have hread := plainReadMembers_spec (m :: rest) cs (cs.length + 1 + 1) (by simp) hm
        (by omega)
      have hcs : cs ≠ [] := by
        intro hc
        rw [hc] at hlen
        simp at hlen
      have hne : ¬ ('\x7b' :: (cs ++ ['\x7d']) = ['\x7b', '\x7d']) := by
        intro hc
        have := congrArg List.length hc
        simp at this
        exact hcs this
      show (if ('\x7b' :: (cs ++ ['\x7d'])) = ['\x7b', '\x7d'] then _ else _) = _
      rw [if_neg hne]
      simp only [List.head?_cons, if_true, List.tail_cons, List.length_cons,
        List.length_append, List.length_singleton, List.length_nil]
      rw [hread]

/-! ## The struct layer of the codec -/

/-- The member `type`, read as a string, sets the field `Type`. -/
theorem wsMessage.assign_type (T : JsonText) (msg : wsMessage) (r : JRead) (s : String)
    (h : r.kind = .string s) :
    wsMessage.assign T msg "type" r = .ok { msg with Type_ := s } := by
  simp [wsMessage.assign, fieldOf, stringField, h]

/-- The member `id`, read as a string, sets the field `ID`. -/
theorem wsMessage.assign_id (T : JsonText) (msg : wsMessage) (r : JRead) (s : String)
    (h : r.kind = .string s) :
    wsMessage.assign T msg "id" r = .ok { msg with ID := s } := by
  simp [wsMessage.assign, fieldOf, stringField, h]

/-- The member `payload` sets the field `Payload` to the text of its value. -/
theorem wsMessage.assign_payload (T : JsonText) (msg : wsMessage) (r : JRead) :
    wsMessage.assign T msg "payload" r = .ok { msg with Payload := r.raw } := by
  simp [wsMessage.assign, fieldOf]

/-- Reading back the members written for an envelope gives the envelope, its payload
being the text that stands in the encoding. -/
theorem wsMessage.fill_members (T : JsonText) (rewrite : String → String) (e : wsMessage)
    (reads : List (String × JRead))
    (hreads : List.Forall₂ (readsBack rewrite) (wsMessage.members e) reads) :
    wsMessage.fill T ⟨"", "", ""⟩ reads =
      .ok ⟨e.Type_, e.ID, if e.Payload = "" then "" else rewrite e.Payload⟩ := by
  rcases e with ⟨ty, id, pl⟩
  by_cases hid : id = "" <;> by_cases hpl : pl = "" <;>
    simp only [wsMessage.members, hid, hpl, if_true, if_false, List.append_nil,
      List.cons_append, List.nil_append] at hreads
  · cases hreads with
    | cons h1 t1 =>
      cases t1
      rename_i r1
      obtain ⟨k1, r1⟩ := r1
      obtain ⟨hk1, hv1⟩ := h1
      simp only at hk1 hv1
      subst hk1
      simp [wsMessage.fill, wsMessage.assign_type T _ r1 ty hv1, hid, hpl]
  · cases hreads with
    | cons h1 t1 =>
      cases t1 with
      | cons h2 t2 =>
        cases t2
        rename_i r1 r2
        obtain ⟨k1, r1⟩ := r1
        obtain ⟨k2, r2⟩ := r2
        obtain ⟨hk1, hv1⟩ := h1
        obtain ⟨hk2, hv2⟩ := h2
        simp only at hk1 hv1 hk2 hv2
        subst hk1 hk2
        simp [wsMessage.fill, wsMessage.assign_type T _ r1 ty hv1,
          wsMessage.assign_payload, hid, hpl, hv2]
  · cases hreads with
    | cons h1 t1 =>
      cases t1 with
      | cons h2 t2 =>
        cases t2
        rename_i r1 r2
        obtain ⟨k1, r1⟩ := r1
        obtain ⟨k2, r2⟩ := r2
        obtain ⟨hk1, hv1⟩ := h1
        obtain ⟨hk2, hv2⟩ := h2
        simp only at hk1 hv1 hk2 hv2
        subst hk1 hk2
        simp [wsMessage.fill, wsMessage.assign_type T _ r1 ty hv1,
          wsMessage.assign_id T _ r2 id hv2, hpl]
  · cases hreads with
    | cons h1 t1 =>
      cases t1 with
      | cons h2 t2 =>
        cases t2 with
        | cons h3 t3 =>
          cases t3
          rename_i r1 r2 r3
          obtain ⟨k1, r1⟩ := r1
          obtain ⟨k2, r2⟩ := r2
          obtain ⟨k3, r3⟩ := r3
          obtain ⟨hk1, hv1⟩ := h1
          obtain ⟨hk2, hv2⟩ := h2
          obtain ⟨hk3, hv3⟩ := h3
          simp only at hk1 hv1 hk2 hv2 hk3 hv3
          subst hk1 hk2 hk3
          simp [wsMessage.fill, wsMessage.assign_type T _ r1 ty hv1,
            wsMessage.assign_id T _ r2 id hv2, wsMessage.assign_payload, hpl, hv3]

/-- C13, as stated, fails: the envelope of type `next` with id `1` and the valid payload
`{"a": 1}` is encoded with the payload compacted, as `json.Marshal` writes a
`json.RawMessage`, and decoding the encoding gives the payload `{"a":1}`: the envelope
that comes back is not the envelope that was encoded. -/
theorem C13_counterexample :
    plainText.toJson.MarshalMsg ⟨"next", "1", spacedPayload⟩ = .ok nextCompact ∧
    plainText.toJson.UnmarshalMsg nextCompact = .ok ⟨"next", "1", compactPayload⟩ ∧
    plainText.toJson.UnmarshalMsg nextCompact ≠ .ok ⟨"next", "1", spacedPayload⟩ :=
  ⟨rfl, rfl, fun h =>
    (by decide : (⟨"next", "1", compactPayload⟩ : wsMessage) ≠ ⟨"next", "1", spacedPayload⟩)
      (Except.ok.inj h)⟩

/-- C13, amended. Let the text layer keep the contract of `encoding/json`: it reads an
object it has written as the same members in the same order, a raw text coming back as
the writer rewrote it (`rewrite`: compacted, `<`, `>` and `&` escaped). Then for every
envelope that `json.Marshal` encodes, `json.Unmarshal` of the encoding succeeds and
gives the same `type`, the same `id` (left out of the text and empty again when it was
empty) and, as `payload`, the rewritten text of the payload (left out and empty again
when it was empty). So the envelope that comes back is the envelope encoded exactly when
the payload is empty or is written as it is; and `sendMessage` writes that encoding. -/
theorem C13_codec_round_trip_up_to_rewriting (T : JsonText) (rewrite : String → String)
    (hlaw : T.readsWhatItWrites rewrite) (e : wsMessage) (text : String)
    (hencode : T.toJson.MarshalMsg e = .ok text) :
    T.toJson.UnmarshalMsg text =
      .ok ⟨e.Type_, e.ID, if e.Payload = "" then "" else rewrite e.Payload⟩ ∧
    (T.toJson.UnmarshalMsg text = .ok e ↔
      (e.Payload = "" ∨ rewrite e.Payload = e.Payload)) ∧
    sendMessage T.toJson none e = ([.write text], none) := by
  obtain ⟨reads, hparse, hreads⟩ := hlaw (wsMessage.members e) text hencode
  have hdecode : T.toJson.UnmarshalMsg text =
      .ok ⟨e.Type_, e.ID, if e.Payload = "" then "" else rewrite e.Payload⟩ := by
    show unmarshalMsg T text = _
    unfold unmarshalMsg
    rw [hparse]
    exact wsMessage.fill_members T rewrite e reads hreads
  refine ⟨hdecode, ?_, ?_⟩
  · rw [hdecode]
    rcases e with ⟨ty, id, pl⟩
    constructor
    · intro h
      have hp := congrArg wsMessage.Payload (Except.ok.inj h)
      simp only at hp
      by_cases hpl : pl = ""
      · exact Or.inl hpl
      · rw [if_neg hpl] at hp
        exact Or.inr hp
    · intro h
      rcases h with h | h
      · simp only at h
        rw [if_pos h, h]
      · simp only at h
        by_cases hpl : pl = ""
        · rw [if_pos hpl, hpl]
        · rw [if_neg hpl, h]
  · unfold sendMessage
    rw [hencode]

/-- C13 amended, at the envelope of type `next` with id `1` and the payload `{"a":1}`,
which is written as it is: the envelope comes back. -/
theorem C13_witness :
    plainText.toJson.MarshalMsg ⟨"next", "1", compactPayload⟩ = .ok nextCompact ∧
    plainText.toJson.UnmarshalMsg nextCompact = .ok ⟨"next", "1", compactPayload⟩ :=
  ⟨rfl, ((C13_codec_round_trip_up_to_rewriting plainText compactKnown
    plainText_readsWhatItWrites ⟨"next", "1", compactPayload⟩ nextCompact rfl).2.1).mpr
      (Or.inr rfl)⟩

/-- C15. On every opened connection the first thing `Subscribe` does is write the
encoding of the envelope of type `connection_init` whose payload is the marshalled map
with the one entry `token`, the token of the client as it is. The members written for
that envelope are `type` and (when the marshalled map is not empty) `payload`: no member
is named `id`. -/
theorem C15_first_frame_is_connection_init {σ : Type} (T : JsonText) (c : LiveClient)
    (handler : σ → Option LiveMeasurement → σ × Option GoError) (env : Env) (s : σ)
    (data1 : String)
    (hdial : env.dial = none)
    (hinit : T.renderObject (wsMessage.members
      ⟨"connection_init", "", T.marshalMap [("token", .str c.token)]⟩) = .ok data1) :
    (∃ rest, (Subscribe T.toJson c handler env s).trace = .dial :: .write data1 :: rest) ∧
    (sentFrames (Subscribe T.toJson c handler env s).trace).head? = some data1 ∧
    wsMessage.members ⟨"connection_init", "", T.marshalMap [("token", .str c.token)]⟩ =
      ("type", .str "connection_init") ::
        (if T.marshalMap [("token", .str c.token)] = "" then []
         else [("payload", .raw (T.marshalMap [("token", .str c.token)]))]) ∧
    (∀ kv ∈ wsMessage.members
        ⟨"connection_init", "", T.marshalMap [("token", .str c.token)]⟩, kv.1 ≠ "id") := by
  have hm : T.toJson.MarshalMsg
      ⟨"connection_init", "", T.toJson.Marshal [("token", .str c.token)]⟩ = .ok data1 := hinit
  have htrace : ∃ rest,
      (Subscribe T.toJson c handler env s).trace = .dial :: .write data1 :: rest := by
    cases h2 : env.initWrite with
    | some err =>
      exact ⟨[.close], by
        simp [Subscribe, subscribeConnected, sendMessage, hdial, hm, h2, Run.deferClose,
          Run.after]⟩
    | none =>
      refine ⟨(Subscribe T.toJson c handler env s).trace.drop 2, ?_⟩
      have h3 : ∀ r : Run σ, ∃ tl, r.deferClose.trace = r.trace ++ tl := by
        intro r
        unfold Run.deferClose
        split
        · exact ⟨[], by simp⟩
        · exact ⟨[.close], rfl⟩
      obtain ⟨tl, htl⟩ := h3 (subscribeConnected T.toJson c handler env s)
      have h4 : ∃ more, (subscribeConnected T.toJson c handler env s).trace =
          .write data1 :: more := by
        simp only [subscribeConnected, sendMessage, hm, h2]
        cases waitForAck T.toJson env.ack with
        | some err => exact ⟨_, rfl⟩
        | none =>
          simp only []
          split <;> exact ⟨_, rfl⟩
      obtain ⟨more, hmore⟩ := h4
      simp [Subscribe, hdial, Run.after, htl, hmore]
  refine ⟨htrace, ?_, ?_, ?_⟩
  · obtain ⟨rest, hrest⟩ := htrace
    rw [hrest]
    rfl
  · simp [wsMessage.members]
  · intro kv hkv
    simp only [wsMessage.members] at hkv
    by_cases hp : T.marshalMap [("token", .str c.token)] = ""
    · simp [hp] at hkv
      rw [hkv]
      decide
    · simp [hp] at hkv
      rcases hkv with h | h
      · rw [h]
        decide
      · rw [h]
        show "payload" ≠ "id"
        decide

/-- C15 at the sample client over the stand-in text layer. -/
theorem C15_witness :
    (sentFrames (Subscribe tableText.toJson sampleClient countingHandler
        ⟨none, none, .error (.new "EOF"), none, []⟩ 0).trace).head? =
      some "\x7b\"type\":\"connection_init\",\"payload\":\x7b\x7d\x7d" :=
  (C15_first_frame_is_connection_init tableText sampleClient countingHandler
    ⟨none, none, .error (.new "EOF"), none, []⟩ 0
    "\x7b\"type\":\"connection_init\",\"payload\":\x7b\x7d\x7d" rfl rfl).2.1

/-- Reading the members of `LiveMeasurement.toJSON m` into any record gives `m`, when
the text of the timestamp string is one `time.Time.UnmarshalJSON` reads as the
timestamp of `m`. -/
theorem LiveMeasurement.fill_toJSON (T : JsonText) (stamp stampText currencyRaw : String)
    (m m0 : LiveMeasurement) (htime : T.unmarshalTime stamp = .ok m.Timestamp)
    (members : List (String × JValue))
    (hmembers : LiveMeasurement.toJSON stamp stampText currencyRaw m = .obj members) :
    LiveMeasurement.fill T m0 members = .ok m := by
  simp only [LiveMeasurement.toJSON, JValue.obj.injEq] at hmembers
  subst hmembers
  simp [LiveMeasurement.fill, LiveMeasurement.assign, LiveMeasurement.jsonNames, fieldOf,
    floatField, timeField, textField, htime, Except.map]

/-- C17. `parsePayload` returns the record found under `data.liveMeasurement`: for
every measurement `m`, a payload that the text layer reads as the object with the one
member `data`, itself an object with the one member `liveMeasurement`, itself the JSON
value of `m` (one member per field under the names of the struct tags), is parsed
without error into a record equal to `m`. A payload the text layer rejects as not valid
JSON gives that error and no record. And for any codec `parsePayload` returns the
pointer `Data.LiveMeasurement` of what `json.Unmarshal` decoded. -/
theorem C17_parsePayload_returns_nested_record (T : JsonText)
    (payload stamp stampText currencyRaw : String) (m : LiveMeasurement)
    (hparse : T.parseValue payload = .ok (.obj [("data", .obj [("liveMeasurement",
      LiveMeasurement.toJSON stamp stampText currencyRaw m)])]))
    (htime : T.unmarshalTime stamp = .ok m.Timestamp) :
    parsePayload T.toJson payload = .ok (some m) ∧
    (∀ bad err, T.parseValue bad = .error err →
      parsePayload T.toJson bad = .error err) ∧
    (∀ (J : Json) (p : String) (d : payloadData), J.UnmarshalPayload p = .ok d →
      parsePayload J p = .ok d.Data.LiveMeasurement) ∧
    (∀ (J : Json) (p : String) (err : GoError), J.UnmarshalPayload p = .error err →
      parsePayload J p = .error err) := by
  refine ⟨?_, ?_, ?_, ?_⟩
  · have hfill := LiveMeasurement.fill_toJSON T stamp stampText currencyRaw m
      LiveMeasurement.zero htime _ rfl
    simp only [parsePayload, JsonText.toJson, unmarshalPayload, hparse, payloadData.fill, payloadData.assign, fieldOf,
      payloadInner.fill, payloadInner.assign, LiveMeasurement.toJSON, Option.getD]
    simp only [LiveMeasurement.toJSON] at hfill
    simp [hfill, Except.map]
  · intro bad err hbad
    simp [parsePayload, JsonText.toJson, unmarshalPayload, hbad]
  · intro J p d h
    simp [parsePayload, h]
  · intro J p err h
    simp [parsePayload, h]

/-- C17 at the payload carrying `sampleFull`. -/
theorem C17_witness :
    parsePayload tableText.toJson fullPayload = .ok (some sampleFull) :=
  (C17_parsePayload_returns_nested_record tableText fullPayload
    "\"2024-05-01T12:00:00Z\"" "2024-05-01T12:00:00Z" "\"NOK\"" sampleFull
    (by simp [tableText]) (by simp [tableText, sampleFull])).1


/-! ## The formatters, the configuration and the price lookup: claims -/

/-- C21. For every measurement the colour of the power line is `BrightRed` exactly when
`Power > 5000`, `BrightYellow` exactly when `2000 < Power <= 5000` and `BrightGreen`
exactly when `Power <= 2000` (2000 itself is green, 5000 itself is yellow); and the
output of `FormatLiveMeasurement` has that colour code right before the power value,
which is followed by ` W` and `Reset`. -/
theorem C21_power_colour_by_usage (F : Fmt) (m : LiveMeasurement) :
    (output.powerColor m.Power = output.BrightRed ↔ m.Power > 5000) ∧
    (output.powerColor m.Power = output.BrightYellow ↔
      2000 < m.Power ∧ m.Power ≤ 5000) ∧
    (output.powerColor m.Power = output.BrightGreen ↔ m.Power ≤ 2000) ∧
    output.powerColor 2000 = output.BrightGreen ∧
    output.powerColor 5000 = output.BrightYellow ∧
    ∃ before after,
      output.PrettyFormatter.FormatLiveMeasurement F (some m) =
        some (before ++ output.Bold ++ output.powerColor m.Power ++ F.float 0 m.Power ++
          " W" ++ output.Reset ++ after) := by
  have hry : output.BrightRed ≠ output.BrightYellow := by decide
  have hrg : output.BrightRed ≠ output.BrightGreen := by decide
  have hyg : output.BrightYellow ≠ output.BrightGreen := by decide
  refine ⟨?_, ?_, ?_, ?_, ?_, ?_⟩
  · unfold output.powerColor
    by_cases h1 : m.Power > 5000
    · simp [h1]
    · by_cases h2 : m.Power > 2000
      · simp [h1, h2, hry.symm]
      · simp [h1, h2, hrg.symm]
  · unfold output.powerColor
    by_cases h1 : m.Power > 5000
    · rw [if_pos h1]
      constructor
      · intro h
        exact absurd h hry
      · intro h
        exact absurd h1 (not_lt.mpr h.2)
    · by_cases h2 : m.Power > 2000
      · rw [if_neg h1, if_pos h2]
        exact ⟨fun _ => ⟨h2, not_lt.mp h1⟩, fun _ => rfl⟩
      · rw [if_neg h1, if_neg h2]
        constructor
        · intro h
          exact absurd h.symm hyg
        · intro h
          exact absurd h.1 h2
  · unfold output.powerColor
    by_cases h1 : m.Power > 5000
    · simp only [h1, if_true]
      constructor
      · intro h
        exact absurd h hrg
      · intro h
        have : (2000 : ℚ) < 5000 := by norm_num
        exact absurd (lt_trans this h1) (not_lt.mpr h)
    · by_cases h2 : m.Power > 2000
      · simp only [h1, h2, if_true, if_false]
        constructor
        · intro h
          exact absurd h hyg
        · intro h
          exact absurd h2 (not_lt.mpr h)
      · simp only [h1, h2, if_false, true_iff]
        exact not_lt.mp h2
  · unfold output.powerColor
    norm_num
  · unfold output.powerColor
    norm_num
  · refine ⟨("\n" ++ output.Bold ++ output.Cyan ++ "⚡ Live Power" ++ output.Reset ++ "\n") ++
      (output.Dim ++ repeatString "─" 14 ++ output.Reset ++ "\n\n") ++ "  ",
      "\n\n" ++
      ((if m.PowerProduction > 0 then
        "  " ++ output.Green ++ "☀️  Production:" ++ output.Reset ++ " " ++
          F.float 0 m.PowerProduction ++ " W\n"
       else "") ++
      (("  " ++ output.Bold ++ "📊 Today" ++ output.Reset ++ "\n") ++
      (("     Consumed: " ++ output.BrightCyan ++ F.float 2 m.AccumulatedConsumption ++
        " kWh" ++ output.Reset ++ "\n") ++
      (("     Cost:     " ++ output.BrightYellow ++ F.float 2 m.AccumulatedCost ++ " " ++
        m.Currency ++ output.Reset ++ "\n") ++
      ((if m.VoltagePhase1 > 0 then
        ("\n  " ++ output.Bold ++ "🔌 Grid" ++ output.Reset ++ "\n") ++
        ("     Voltage: " ++ F.float 0 m.VoltagePhase1 ++ " / " ++
          F.float 0 m.VoltagePhase2 ++ " / " ++ F.float 0 m.VoltagePhase3 ++ " V\n") ++
        ("     Current: " ++ F.float 1 m.CurrentL1 ++ " / " ++ F.float 1 m.CurrentL2 ++
          " / " ++ F.float 1 m.CurrentL3 ++ " A\n")
       else "") ++
      ("\n  " ++ output.Dim ++ F.clock m.Timestamp ++ output.Reset ++ "\n")))))), ?_⟩
    simp only [output.PrettyFormatter.FormatLiveMeasurement, String.append_assoc]

/-- C22. `config.Load` resolves in the order environment, config file, default. A
non-empty `TIBBER_TOKEN` (resp. `TIBBER_HOME_ID`) is the resulting `Token` (resp.
`HomeID`) whatever the file holds; when the variable is empty the field is the value of
the file if the file could be read, else the empty string. `Format` is the `format`
value of the file when the file could be read and that value is not empty, else
`"pretty"`. The file is the one at `configPath`, or at the default path when
`configPath` is empty; no file is read when both are empty. `Load` returns no error. -/
theorem C22_Load_priority (E : ConfigEnv) (configPath : String) :
    (E.tibberToken ≠ "" → (Load E configPath).1.Token = E.tibberToken) ∧
    (E.tibberHomeID ≠ "" → (Load E configPath).1.HomeID = E.tibberHomeID) ∧
    (E.tibberToken = "" → (Load E configPath).1.Token =
      match (if (if configPath = "" then E.defaultConfigPath else configPath) = "" then none
        else E.readInConfig (if configPath = "" then E.defaultConfigPath else configPath))
      with
      | some getString => getString "token"
      | none => "") ∧
    (E.tibberHomeID = "" → (Load E configPath).1.HomeID =
      match (if (if configPath = "" then E.defaultConfigPath else configPath) = "" then none
        else E.readInConfig (if configPath = "" then E.defaultConfigPath else configPath))
      with
      | some getString => getString "home_id"
      | none => "") ∧
    ((Load E configPath).1.Format =
      match (if (if configPath = "" then E.defaultConfigPath else configPath) = "" then none
        else E.readInConfig (if configPath = "" then E.defaultConfigPath else configPath))
      with
      | some getString => if getString "format" ≠ "" then getString "format" else "pretty"
      | none => "pretty") ∧
    (Load E configPath).2 = none := by
  unfold Load
  generalize (if configPath = "" then E.defaultConfigPath else configPath) = path
  by_cases hp : path = ""
  · by_cases ht : E.tibberToken = "" <;> by_cases hh : E.tibberHomeID = "" <;>
      simp [hp, ht, hh]
  · cases hr : E.readInConfig path with
    | none =>
      by_cases ht : E.tibberToken = "" <;> by_cases hh : E.tibberHomeID = "" <;>
        simp [hp, ht, hh, hr]
    | some getString =>
      by_cases hf : getString "format" = "" <;> by_cases ht : E.tibberToken = "" <;>
        by_cases hh : E.tibberHomeID = "" <;> simp [hp, ht, hh, hr, hf]

/-- The scan of `GetPrices` stops at a home that passes its test. -/
theorem GetPrices.scan_hit (homeID : String) (home : PriceHome) (rest : List PriceHome)
    (info : PriceInfo) (h : GetPrices.selects homeID home info) :
    GetPrices.scan homeID (home :: rest) = some info := by
  obtain ⟨hid, sub, hsub, hinfo⟩ := h
  simp [GetPrices.scan, hid, hsub, hinfo]

/-- The scan of `GetPrices` passes over a home that fails its test. -/
theorem GetPrices.scan_skip (homeID : String) (home : PriceHome) (rest : List PriceHome)
    (h : ∀ info, ¬ GetPrices.selects homeID home info) :
    GetPrices.scan homeID (home :: rest) = GetPrices.scan homeID rest := by
  by_cases hid : homeID = "" ∨ home.ID = homeID
  · cases hsub : home.CurrentSubscription with
    | none => simp [GetPrices.scan, hsub]
    | some sub =>
      cases hinfo : sub.PriceInfo with
      | none => simp [GetPrices.scan, hsub, hinfo]
      | some i => exact absurd ⟨hid, sub, hsub, hinfo⟩ (h i)
  · simp only [GetPrices.scan, if_neg hid]

/-- Where the scan of `GetPrices` gives up, no home is one it would stop at. -/
theorem GetPrices.scan_none (homeID : String) (homes : List PriceHome) :
    GetPrices.scan homeID homes = none ↔
      ∀ home ∈ homes, ∀ info, ¬ GetPrices.selects homeID home info := by
  induction homes with
  | nil => simp [GetPrices.scan]
  | cons home rest ih =>
    by_cases hx : ∃ i, GetPrices.selects homeID home i
    · obtain ⟨i, hi⟩ := hx
      rw [GetPrices.scan_hit homeID home rest i hi]
      constructor
      · intro h
        cases h
      · intro h
        exact absurd hi (h home (List.mem_cons_self _ _) i)
    · have hx1 : ∀ i, ¬ GetPrices.selects homeID home i := fun i hi => hx ⟨i, hi⟩
      rw [GetPrices.scan_skip homeID home rest hx1, ih]
      constructor
      · intro h y hy i
        rcases List.mem_cons.mp hy with rfl | hy
        · exact hx1 i
        · exact h y hy i
      · intro h y hy i
        exact h y (List.mem_cons_of_mem _ hy) i

/-- What the scan of `GetPrices` returns is the price info of the first home, in list
order, it would stop at. -/
theorem GetPrices.scan_first (homeID : String) (before after : List PriceHome)
    (home : PriceHome) (info : PriceInfo)
    (hbefore : ∀ h ∈ before, ∀ i, ¬ GetPrices.selects homeID h i)
    (hhome : GetPrices.selects homeID home info) :
    GetPrices.scan homeID (before ++ home :: after) = some info := by
  induction before with
  | nil => exact GetPrices.scan_hit homeID home after info hhome
  | cons h rest ih =>
    rw [List.cons_append,
      GetPrices.scan_skip homeID h _ (hbefore h (List.mem_cons_self _ _))]
    exact ih (fun x hx => hbefore x (List.mem_cons_of_mem _ hx))

/-- What the scan of `GetPrices` returns comes from a home it stops at, the homes before
it being passed over. -/
theorem GetPrices.scan_some (homeID : String) (homes : List PriceHome) (info : PriceInfo)
    (h : GetPrices.scan homeID homes = some info) :
    ∃ before home after, homes = before ++ home :: after ∧
      (∀ x ∈ before, ∀ i, ¬ GetPrices.selects homeID x i) ∧
      GetPrices.selects homeID home info := by
  induction homes with
  | nil => simp [GetPrices.scan] at h
  | cons x rest ih =>
    by_cases hx : ∃ i, GetPrices.selects homeID x i
    · obtain ⟨i, hi⟩ := hx
      rw [GetPrices.scan_hit homeID x rest i hi] at h
      cases h
      exact ⟨[], x, rest, rfl, by simp, hi⟩
    · have hx1 : ∀ i, ¬ GetPrices.selects homeID x i := fun i hi => hx ⟨i, hi⟩
      rw [GetPrices.scan_skip homeID x rest hx1] at h
      obtain ⟨before, home, after, heq, hb, hs⟩ := ih h
      refine ⟨x :: before, home, after, by simp [heq], ?_, hs⟩
      intro y hy i
      rcases List.mem_cons.mp hy with rfl | hy
      · exact hx1 i
      · exact hb y hy i

/-- C24. Once the request went through and the answer was decoded into the list
`homes`, `GetPrices` scans for the first match: it returns the price info of the first
home, in list order, that passes the id test (`homeID` empty, or equal to the id of the
home) and has a non-nil current subscription with a non-nil price info. It returns the
error `no price information found` exactly when no home is such; and what it returns
never comes from a home whose id differs from a non-empty `homeID`. -/
theorem C24_GetPrices_first_match (executed : Except GoError String)
    (unmarshal : String → Except GoError (List PriceHome)) (homeID data : String)
    (homes : List PriceHome)
    (hexec : executed = .ok data) (hparse : unmarshal data = .ok homes) :
    (∀ before home after info, homes = before ++ home :: after →
      (∀ x ∈ before, ∀ i, ¬ GetPrices.selects homeID x i) →
      GetPrices.selects homeID home info →
      GetPrices executed unmarshal homeID = .ok info) ∧
    (GetPrices executed unmarshal homeID = .error (.new "no price information found") ↔
      ∀ home ∈ homes, ∀ info, ¬ GetPrices.selects homeID home info) ∧
    (∀ info, GetPrices executed unmarshal homeID = .ok info →
      ∃ before home after, homes = before ++ home :: after ∧
        (∀ x ∈ before, ∀ i, ¬ GetPrices.selects homeID x i) ∧
        GetPrices.selects homeID home info ∧ (homeID ≠ "" → home.ID = homeID)) := by
  have hrun : GetPrices executed unmarshal homeID =
      match GetPrices.scan homeID homes with
      | some info => .ok info
      | none => .error (.new "no price information found") := by
    simp [GetPrices, hexec, hparse]
  refine ⟨?_, ?_, ?_⟩
  · intro before home after info heq hbefore hhome
    rw [hrun, heq, GetPrices.scan_first homeID before after home info hbefore hhome]
  · rw [hrun, ← GetPrices.scan_none]
    cases GetPrices.scan homeID homes <;> simp
  · intro info hinfo
    rw [hrun] at hinfo
    cases hscan : GetPrices.scan homeID homes with
    | none => simp [hscan] at hinfo
    | some i =>
      simp only [hscan, Except.ok.injEq] at hinfo
      subst hinfo
      obtain ⟨before, home, after, heq, hb, hs⟩ := GetPrices.scan_some homeID homes i hscan
      refine ⟨before, home, after, heq, hb, hs, ?_⟩
      intro hne
      rcases hs.1 with h | h
      · exact absurd h hne
      · exact h

/-- C24 at three homes, the first without subscription, asked for `home-1`. -/
theorem C24_witness :
    GetPrices (.ok "data") (fun _ => .ok sampleHomes) "home-1" = .ok samplePriceInfo :=
  (C24_GetPrices_first_match (.ok "data") (fun _ => .ok sampleHomes) "home-1" "data"
    sampleHomes rfl rfl).1 [⟨"home-0", none⟩] ⟨"home-1", some ⟨some samplePriceInfo⟩⟩
    [⟨"home-2", some ⟨some ⟨none, [], []⟩⟩⟩] samplePriceInfo rfl
    (by
      intro x hx i hsel
      obtain ⟨_, sub, hsub, _⟩ := hsel
      rw [List.mem_singleton.mp hx] at hsub
      cases hsub)
    ⟨Or.inr rfl, ⟨some samplePriceInfo⟩, rfl, rfl⟩

/-! ## `float64` rounding -/

theorem roundHalfEven_floor_le (x : ℚ) : ⌊x⌋ ≤ roundHalfEven x := by
  unfold roundHalfEven
  split_ifs <;> omega

theorem roundHalfEven_le_floor_succ (x : ℚ) : roundHalfEven x ≤ ⌊x⌋ + 1 := by
  unfold roundHalfEven
  split_ifs <;> omega

/-- Rounding moves a number up by a half at most. -/
theorem roundHalfEven_le (x : ℚ) : (roundHalfEven x : ℚ) ≤ x + 1 / 2 := by
  have h1 := Int.floor_le x
  have h2 := Int.lt_floor_add_one x
  unfold roundHalfEven
  split_ifs <;> push_cast <;> linarith

/-- Rounding moves a number down by a half at most. -/
theorem le_roundHalfEven (x : ℚ) : x - 1 / 2 ≤ (roundHalfEven x : ℚ) := by
  have h1 := Int.floor_le x
  have h2 := Int.lt_floor_add_one x
  unfold roundHalfEven
  split_ifs <;> push_cast <;> linarith

/-- Rounding keeps the order. -/
theorem roundHalfEven_mono {x y : ℚ} (h : x ≤ y) : roundHalfEven x ≤ roundHalfEven y := by
  have hf : ⌊x⌋ ≤ ⌊y⌋ := Int.floor_mono h
  rcases lt_or_eq_of_le hf with hlt | heq
  · have h1 := roundHalfEven_le_floor_succ x
    have h2 := roundHalfEven_floor_le y
    omega
  · unfold roundHalfEven
    rw [heq]
    rw [heq] at *
    split_ifs <;> first | omega | (exfalso; linarith)

/-- An integer is its own rounding. -/
theorem roundHalfEven_intCast (n : ℤ) : roundHalfEven (n : ℚ) = n := by
  simp [roundHalfEven]

theorem roundHalfEven_le_of_le {x : ℚ} {n : ℤ} (h : x ≤ n) : roundHalfEven x ≤ n := by
  have := roundHalfEven_mono h
  rwa [roundHalfEven_intCast] at this

theorem le_roundHalfEven_of_le {x : ℚ} {n : ℤ} (h : (n : ℚ) ≤ x) : n ≤ roundHalfEven x := by
  have := roundHalfEven_mono h
  rwa [roundHalfEven_intCast] at this

theorem Float64.ulp_pos (x : ℚ) : 0 < Float64.ulp x :=
  zpow_pos (by norm_num) _

theorem Float64.ulpExp_ge (x : ℚ) : -1074 ≤ Float64.ulpExp x := by
  have := le_max_right (Int.log 2 |x|) (-1022)
  unfold Float64.ulpExp
  omega

/-- A positive number lies below `2^53` units in its last place. -/
theorem Float64.lt_ulpExp (x : ℚ) (hx : 0 < x) : x < 2 ^ (Float64.ulpExp x + 53) := by
  have h1 : x < ((2 : ℕ) : ℚ) ^ (Int.log 2 x + 1) := Int.lt_zpow_succ_log_self (by norm_num) x
  have h2 : Int.log 2 x + 1 ≤ Float64.ulpExp x + 53 := by
    have := le_max_left (Int.log 2 |x|) (-1022)
    rw [abs_of_pos hx] at this
    unfold Float64.ulpExp
    rw [abs_of_pos hx]
    omega
  have h3 : ((2 : ℕ) : ℚ) ^ (Int.log 2 x + 1) ≤ 2 ^ (Float64.ulpExp x + 53) := by
    rw [Nat.cast_ofNat]
    exact zpow_le_zpow_right₀ (by norm_num) h2
  exact lt_of_lt_of_le h1 h3

/-- The exponent of the last place at a number that is not subnormal. -/
theorem Float64.ulpExp_normal (x : ℚ) (hx : 2 ^ (-1022 : ℤ) ≤ x) :
    Float64.ulpExp x = Int.log 2 x - 52 := by
  have hpos : 0 < x := lt_of_lt_of_le (zpow_pos (by norm_num) _) hx
  have h1 : (-1022 : ℤ) ≤ Int.log 2 x := by
    rw [← Int.zpow_le_iff_le_log (by norm_num) hpos, Nat.cast_ofNat]
    exact hx
  unfold Float64.ulpExp
  rw [abs_of_pos hpos, max_eq_left h1]

/-- A number that is not subnormal lies at `2^52` units in its last place or above. -/
theorem Float64.ulpExp_le (x : ℚ) (hx : 2 ^ (-1022 : ℤ) ≤ x) :
    2 ^ (Float64.ulpExp x + 52) ≤ x := by
  have hpos : 0 < x := lt_of_lt_of_le (zpow_pos (by norm_num) _) hx
  rw [Float64.ulpExp_normal x hx]
  have h1 : ((2 : ℕ) : ℚ) ^ Int.log 2 x ≤ x := Int.zpow_log_le_self (by norm_num) hpos
  rw [Nat.cast_ofNat] at h1
  have h2 : Int.log 2 x - 52 + 52 = Int.log 2 x := by omega
  rw [h2]
  exact h1

/-- The exponent of the last place grows with the number. -/
theorem Float64.ulpExp_mono {x y : ℚ} (hx : 0 < x) (h : x ≤ y) :
    Float64.ulpExp x ≤ Float64.ulpExp y := by
  have hy : 0 < y := lt_of_lt_of_le hx h
  have h1 : Int.log 2 x ≤ Int.log 2 y := Int.log_mono_right hx h
  unfold Float64.ulpExp
  rw [abs_of_pos hx, abs_of_pos hy]
  have := max_le_max h1 (le_refl (-1022 : ℤ))
  omega

theorem Float64.nearest_zero : Float64.nearest 0 = 0 := by
  simp [Float64.nearest, roundHalfEven]

theorem Float64.nearest_nonneg {x : ℚ} (hx : 0 ≤ x) : 0 ≤ Float64.nearest x := by
  unfold Float64.nearest
  have hq := Float64.ulp_pos x
  have h1 : (0 : ℤ) ≤ roundHalfEven (x / Float64.ulp x) :=
    le_roundHalfEven_of_le (by simpa using div_nonneg hx (le_of_lt hq))
  exact mul_nonneg (by exact_mod_cast h1) (le_of_lt hq)

/-- Rounding to the format moves a number up by half a unit in the last place at most. -/
theorem Float64.nearest_le (x : ℚ) : Float64.nearest x ≤ x + Float64.ulp x / 2 := by
  have hq := Float64.ulp_pos x
  have h1 := roundHalfEven_le (x / Float64.ulp x)
  have h2 := mul_le_mul_of_nonneg_right h1 (le_of_lt hq)
  have h3 : (x / Float64.ulp x + 1 / 2) * Float64.ulp x = x + Float64.ulp x / 2 := by
    field_simp
    ring
  unfold Float64.nearest
  linarith

/-- Rounding to the format moves a number down by half a unit in the last place at
most. -/
theorem Float64.le_nearest (x : ℚ) : x - Float64.ulp x / 2 ≤ Float64.nearest x := by
  have hq := Float64.ulp_pos x
  have h1 := le_roundHalfEven (x / Float64.ulp x)
  have h2 := mul_le_mul_of_nonneg_right h1 (le_of_lt hq)
  have h3 : (x / Float64.ulp x - 1 / 2) * Float64.ulp x = x - Float64.ulp x / 2 := by
    field_simp
    ring
  unfold Float64.nearest
  linarith

theorem Float64.ulpExp_subnormal (x : ℚ) (hx : 0 < x) (h : x < 2 ^ (-1022 : ℤ)) :
    Float64.ulpExp x = -1074 := by
  have h1 : Int.log 2 x < -1022 := by
    rw [← Int.lt_zpow_iff_log_lt (by norm_num) hx, Nat.cast_ofNat]
    exact h
  unfold Float64.ulpExp
  rw [abs_of_pos hx, max_eq_right (le_of_lt h1)]
  norm_num

/-- The rounding of a positive number is at most `2^53` units in the last place. -/
theorem Float64.nearest_le_pow (x : ℚ) (hx : 0 < x) :
    Float64.nearest x ≤ 2 ^ (Float64.ulpExp x + 53) := by
  have hq := Float64.ulp_pos x
  have h0 := Float64.lt_ulpExp x hx
  rw [zpow_add₀ (by norm_num)] at h0
  have h1 : x / Float64.ulp x ≤ ((2 ^ 53 : ℤ) : ℚ) := by
    rw [div_le_iff₀ hq]
    unfold Float64.ulp
    norm_num at h0 ⊢
    linarith
  have h2 : (roundHalfEven (x / Float64.ulp x) : ℚ) ≤ ((2 ^ 53 : ℤ) : ℚ) := by
    exact_mod_cast roundHalfEven_le_of_le h1
  have h3 := mul_le_mul_of_nonneg_right h2 (le_of_lt hq)
  rw [zpow_add₀ (by norm_num)]
  unfold Float64.nearest
  unfold Float64.ulp at h3 ⊢
  norm_num at h3 ⊢
  linarith

/-- The rounding of a number that is not subnormal is at least `2^52` units in the last
place. -/
theorem Float64.pow_le_nearest (x : ℚ) (hx : 2 ^ (-1022 : ℤ) ≤ x) :
    2 ^ (Float64.ulpExp x + 52) ≤ Float64.nearest x := by
  have hq := Float64.ulp_pos x
  have h0 := Float64.ulpExp_le x hx
  rw [zpow_add₀ (by norm_num)] at h0
  have h1 : ((2 ^ 52 : ℤ) : ℚ) ≤ x / Float64.ulp x := by
    rw [le_div_iff₀ hq]
    unfold Float64.ulp
    norm_num at h0 ⊢
    linarith
  have h2 : ((2 ^ 52 : ℤ) : ℚ) ≤ (roundHalfEven (x / Float64.ulp x) : ℚ) := by
    exact_mod_cast le_roundHalfEven_of_le h1
  have h3 := mul_le_mul_of_nonneg_right h2 (le_of_lt hq)
  rw [zpow_add₀ (by norm_num)]
  unfold Float64.nearest
  unfold Float64.ulp at h3 ⊢
  norm_num at h3 ⊢
  linarith

/-- Rounding to the format keeps the order. -/
theorem Float64.nearest_mono {x y : ℚ} (hx : 0 ≤ x) (h : x ≤ y) :
    Float64.nearest x ≤ Float64.nearest y := by
  rcases eq_or_lt_of_le hx with h0 | hpos
  · rw [← h0, Float64.nearest_zero]
    exact Float64.nearest_nonneg (le_trans hx h)
  · have hy : 0 < y := lt_of_lt_of_le hpos h
    have hue := Float64.ulpExp_mono hpos h
    rcases eq_or_lt_of_le hue with heq | hlt
    · unfold Float64.nearest Float64.ulp
      rw [heq]
      have hq : (0 : ℚ) < 2 ^ Float64.ulpExp y := zpow_pos (by norm_num) _
      apply mul_le_mul_of_nonneg_right _ (le_of_lt hq)
      have := roundHalfEven_mono ((div_le_div_iff_of_pos_right hq).mpr h)
      exact_mod_cast this
    · have hynorm : (2 : ℚ) ^ (-1022 : ℤ) ≤ y := by
        by_contra hc
        have := Float64.ulpExp_subnormal y hy (not_le.mp hc)
        have := Float64.ulpExp_ge x
        omega
      have h1 := Float64.nearest_le_pow x hpos
      have h2 := Float64.pow_le_nearest y hynorm
      have h3 : (2 : ℚ) ^ (Float64.ulpExp x + 53) ≤ 2 ^ (Float64.ulpExp y + 52) :=
        zpow_le_zpow_right₀ (by norm_num) (by omega)
      linarith

/-- The rounding of a number is a multiple of `2^-1074`. -/
theorem Float64.nearest_grid (x : ℚ) : ∃ n : ℤ, Float64.nearest x = n * 2 ^ (-1074 : ℤ) := by
  have h := Float64.ulpExp_ge x
  refine ⟨roundHalfEven (x / Float64.ulp x) * 2 ^ (Float64.ulpExp x + 1074).toNat, ?_⟩
  have h1 : Float64.ulp x = 2 ^ ((Float64.ulpExp x + 1074).toNat : ℤ) * 2 ^ (-1074 : ℤ) := by
    unfold Float64.ulp
    rw [← zpow_add₀ (by norm_num), Int.toNat_of_nonneg (by omega)]
    congr 1
    omega
  unfold Float64.nearest
  rw [h1, zpow_natCast]
  push_cast
  ring

/-- A number written with a positive mantissa below `2^53` and an exponent from -1074 on
is its own rounding. -/
theorem Float64.nearest_of_repr (m k : ℤ) (hm0 : 0 < m) (hm : m < 2 ^ 53)
    (hk : -1074 ≤ k) : Float64.nearest (m * 2 ^ k) = m * 2 ^ k := by
  have hk0 : (0 : ℚ) < 2 ^ k := zpow_pos (by norm_num) _
  have hx : (0 : ℚ) < m * 2 ^ k := mul_pos (by exact_mod_cast hm0) hk0
  have hlt : (m : ℚ) * 2 ^ k < 2 ^ (k + 53) := by
    rw [zpow_add₀ (by norm_num)]
    have : (m : ℚ) < 2 ^ (53 : ℤ) := by
      have : (m : ℚ) < ((2 ^ 53 : ℤ) : ℚ) := by exact_mod_cast hm
      norm_num at this ⊢
      exact this
    nlinarith
  have hlog : Int.log 2 ((m : ℚ) * 2 ^ k) < k + 53 := by
    rw [← Int.lt_zpow_iff_log_lt (by norm_num) hx, Nat.cast_ofNat]
    exact hlt
  have hue : Float64.ulpExp (m * 2 ^ k) ≤ k := by
    unfold Float64.ulpExp
    rw [abs_of_pos hx]
    have := max_le (show Int.log 2 ((m : ℚ) * 2 ^ k) ≤ k + 52 by omega)
      (show (-1022 : ℤ) ≤ k + 52 by omega)
    omega
  have hsplit : (2 : ℚ) ^ k =
      2 ^ ((k - Float64.ulpExp (m * 2 ^ k)).toNat : ℤ) * 2 ^ Float64.ulpExp (m * 2 ^ k) := by
    rw [← zpow_add₀ (by norm_num), Int.toNat_of_nonneg (by omega)]
    congr 1
    omega
  have hdiv : (m : ℚ) * 2 ^ k / Float64.ulp (m * 2 ^ k) =
      ((m * 2 ^ (k - Float64.ulpExp (m * 2 ^ k)).toNat : ℤ) : ℚ) := by
    have hq := Float64.ulp_pos (m * 2 ^ k)
    rw [div_eq_iff (ne_of_gt hq)]
    unfold Float64.ulp
    push_cast
    rw [← zpow_natCast]
    nth_rewrite 1 [hsplit]
    ring
  unfold Float64.nearest
  rw [hdiv, roundHalfEven_intCast]
  unfold Float64.ulp
  push_cast
  rw [← zpow_natCast]
  nth_rewrite 3 [hsplit]
  ring

theorem Float64.isValue_iff (x : ℚ) :
    Float64.isValue x ↔ Float64.nearest x = x ∧ |x| < 2 ^ (1024 : ℤ) := by
  unfold Float64.isValue Float64.round
  constructor
  · intro h
    split_ifs at h with hc
    have h1 : Float64.nearest x = x := Float64.fin.inj h
    rw [h1] at hc
    exact ⟨h1, not_le.mp hc⟩
  · rintro ⟨h1, h2⟩
    rw [h1, if_neg (not_le.mpr h2)]

/-- A finite `float64` is a multiple of `2^-1074`. -/
theorem Float64.isValue_grid {x : ℚ} (hx : Float64.isValue x) :
    ∃ n : ℤ, x = n * 2 ^ (-1074 : ℤ) := by
  obtain ⟨n, hn⟩ := Float64.nearest_grid x
  rw [((Float64.isValue_iff x).mp hx).1] at hn
  exact ⟨n, hn⟩

/-- The numbers with a positive mantissa below `2^53` and an exponent between -1074 and
971 are finite `float64` values. -/
theorem Float64.isValue_of_repr (m k : ℤ) (hm0 : 0 < m) (hm : m < 2 ^ 53)
    (hk : -1074 ≤ k) (hk2 : k ≤ 971) : Float64.isValue (m * 2 ^ k) := by
  rw [Float64.isValue_iff]
  refine ⟨Float64.nearest_of_repr m k hm0 hm hk, ?_⟩
  have hk0 : (0 : ℚ) < 2 ^ k := zpow_pos (by norm_num) _
  have hx : (0 : ℚ) < m * 2 ^ k := mul_pos (by exact_mod_cast hm0) hk0
  rw [abs_of_pos hx]
  have h1 : (m : ℚ) < 2 ^ (53 : ℤ) := by
    have : (m : ℚ) < ((2 ^ 53 : ℤ) : ℚ) := by exact_mod_cast hm
    norm_num at this ⊢
    exact this
  have h2 : (2 : ℚ) ^ k ≤ 2 ^ (971 : ℤ) := zpow_le_zpow_right₀ (by norm_num) hk2
  have h3 : (2 : ℚ) ^ (1024 : ℤ) = 2 ^ (53 : ℤ) * 2 ^ (971 : ℤ) := by
    rw [← zpow_add₀ (by norm_num)]
    norm_num
  rw [h3]
  exact mul_lt_mul h1 h2 hk0 (by positivity)

/-- The rounding of a number that is not negative and stays below `2^1024` is finite. -/
theorem Float64.round_of_lt {x : ℚ} (hx : 0 ≤ x) (h : Float64.nearest x < 2 ^ (1024 : ℤ)) :
    Float64.round x = .fin (Float64.nearest x) := by
  unfold Float64.round
  rw [abs_of_nonneg (Float64.nearest_nonneg hx), if_neg (not_le.mpr h)]

/-- The unit in the last place of a positive number is at most `2^-52` times the number,
or the smallest unit `2^-1074`. -/
theorem Float64.ulp_le (x : ℚ) (hx : 0 < x) :
    Float64.ulp x ≤ x * 2 ^ (-52 : ℤ) ∨ Float64.ulp x = 2 ^ (-1074 : ℤ) := by
  by_cases h : (2 : ℚ) ^ (-1022 : ℤ) ≤ x
  · left
    have h1 := Float64.ulpExp_le x h
    rw [zpow_add₀ (by norm_num)] at h1
    unfold Float64.ulp
    have h2 : (0 : ℚ) < 2 ^ Float64.ulpExp x := zpow_pos (by norm_num) _
    norm_num at h1 ⊢
    linarith
  · right
    unfold Float64.ulp
    rw [Float64.ulpExp_subnormal x hx (not_le.mp h)]

theorem Float64.nearest_tiny : Float64.nearest (2 ^ (-1074 : ℤ)) = 2 ^ (-1074 : ℤ) := by
  have := Float64.nearest_of_repr 1 (-1074) (by norm_num) (by norm_num) (by norm_num)
  simpa using this

/-- Two finite `float64` that differ are at least `2^-1074` apart. -/
theorem Float64.isValue_gap {x y : ℚ} (hx : Float64.isValue x) (hy : Float64.isValue y)
    (h : x < y) : 2 ^ (-1074 : ℤ) ≤ y - x := by
  obtain ⟨n, hn⟩ := Float64.isValue_grid hx
  obtain ⟨m, hm⟩ := Float64.isValue_grid hy
  have hq : (0 : ℚ) < 2 ^ (-1074 : ℤ) := zpow_pos (by norm_num) _
  have h1 : (n : ℚ) < m := by
    rw [hn, hm] at h
    exact lt_of_mul_lt_mul_right h (le_of_lt hq)
  have h2 : n + 1 ≤ m := by exact_mod_cast h1
  have h3 : (n : ℚ) + 1 ≤ m := by exact_mod_cast h2
  rw [hn, hm]
  nlinarith

/-- The quotient computed for the bar of one entry: for finite `float64` totals with
`lo ≤ total ≤ hi`, `lo < hi` and a spread of at most `2^1019`, every intermediate result
is finite, and the quotient lies between 0 and 20.5; at `total = hi` it is at least
19.5. -/
theorem Float64.barQuotient (lo hi total : ℚ) (hlo : Float64.isValue lo)
    (hhi : Float64.isValue hi) (hrange : lo < hi) (h1 : lo ≤ total) (h2 : total ≤ hi)
    (hspread : hi - lo ≤ 2 ^ (1019 : ℤ)) :
    ∃ r : ℚ,
      Float64.div (Float64.mul (.fin 20) (Float64.sub (.fin total) (.fin lo)))
        (Float64.sub (.fin hi) (.fin lo)) = .fin r ∧
      0 ≤ r ∧ r ≤ 41 / 2 ∧ (total = hi → 39 / 2 ≤ r) := by
  have htiny : (0 : ℚ) < 2 ^ (-1074 : ℤ) := zpow_pos (by norm_num) _
  have hbig : (2 : ℚ) ^ (1019 : ℤ) < 2 ^ (1024 : ℤ) :=
    zpow_lt_zpow_right₀ (by norm_num) (by norm_num)
  have hb0 : 0 < hi - lo := sub_pos.mpr hrange
  have hb1 : 2 ^ (-1074 : ℤ) ≤ hi - lo := Float64.isValue_gap hlo hhi hrange
  -- the range
  have hd2lo : 2 ^ (-1074 : ℤ) ≤ Float64.nearest (hi - lo) := by
    have := Float64.nearest_mono (le_of_lt htiny) hb1
    rwa [Float64.nearest_tiny] at this
  have hd2hi : Float64.nearest (hi - lo) ≤ 2 ^ (1019 : ℤ) := by
    have := Float64.nearest_mono (le_of_lt hb0) hspread
    have h := Float64.nearest_of_repr 1 1019 (by norm_num) (by norm_num) (by norm_num)
    simp only [Int.cast_one, one_mul] at h
    rwa [h] at this
  have hd2pos : 0 < Float64.nearest (hi - lo) := lt_of_lt_of_le htiny hd2lo
  have hsub2 : Float64.sub (.fin hi) (.fin lo) = .fin (Float64.nearest (hi - lo)) := by
    simp only [Float64.sub]
    exact Float64.round_of_lt (le_of_lt hb0) (lt_of_le_of_lt hd2hi hbig)
  -- the share
  have ha0 : 0 ≤ total - lo := sub_nonneg.mpr h1
  have hab : total - lo ≤ hi - lo := by linarith
  have hd1 : Float64.nearest (total - lo) ≤ Float64.nearest (hi - lo) :=
    Float64.nearest_mono ha0 hab
  have hd10 : 0 ≤ Float64.nearest (total - lo) := Float64.nearest_nonneg ha0
  have hsub1 : Float64.sub (.fin total) (.fin lo) = .fin (Float64.nearest (total - lo)) := by
    simp only [Float64.sub]
    exact Float64.round_of_lt ha0 (lt_of_le_of_lt (le_trans hd1 hd2hi) hbig)
  -- the product
  have h20d2 : 0 < 20 * Float64.nearest (hi - lo) := by linarith
  have hulp : Float64.ulp (20 * Float64.nearest (hi - lo)) ≤ Float64.nearest (hi - lo) := by
    rcases Float64.ulp_le _ h20d2 with h | h
    · have h52 : (2 : ℚ) ^ (-52 : ℤ) ≤ 1 / 20 := by norm_num
      calc Float64.ulp (20 * Float64.nearest (hi - lo))
          ≤ 20 * Float64.nearest (hi - lo) * 2 ^ (-52 : ℤ) := h
        _ ≤ 20 * Float64.nearest (hi - lo) * (1 / 20) :=
          mul_le_mul_of_nonneg_left h52 (le_of_lt h20d2)
        _ = Float64.nearest (hi - lo) := by ring
    · rw [h]
      exact hd2lo
  have htop : Float64.nearest (20 * Float64.nearest (hi - lo)) ≤
      41 / 2 * Float64.nearest (hi - lo) := by
    have := Float64.nearest_le (20 * Float64.nearest (hi - lo))
    linarith
  have hbot : 39 / 2 * Float64.nearest (hi - lo) ≤
      Float64.nearest (20 * Float64.nearest (hi - lo)) := by
    have := Float64.le_nearest (20 * Float64.nearest (hi - lo))
    linarith
  have ht0 : 0 ≤ Float64.nearest (20 * Float64.nearest (total - lo)) :=
    Float64.nearest_nonneg (by linarith)
  have htmono : Float64.nearest (20 * Float64.nearest (total - lo)) ≤
      Float64.nearest (20 * Float64.nearest (hi - lo)) :=
    Float64.nearest_mono (by linarith) (by linarith)
  have htbig : Float64.nearest (20 * Float64.nearest (hi - lo)) ≤ 5 * 2 ^ (1021 : ℤ) := by
    have := Float64.nearest_mono (le_of_lt h20d2)
      (show 20 * Float64.nearest (hi - lo) ≤ 5 * 2 ^ (1021 : ℤ) by
        have : (5 : ℚ) * 2 ^ (1021 : ℤ) = 20 * 2 ^ (1019 : ℤ) := by
          rw [show (1021 : ℤ) = 2 + 1019 by norm_num, zpow_add₀ (by norm_num)]
          norm_num
        linarith)
    have h := Float64.nearest_of_repr 5 1021 (by norm_num) (by norm_num) (by norm_num)
    simp only [Int.cast_ofNat] at h
    rwa [h] at this
  have h5 : (5 : ℚ) * 2 ^ (1021 : ℤ) < 2 ^ (1024 : ℤ) := by
    rw [show (1024 : ℤ) = 3 + 1021 by norm_num, zpow_add₀ (by norm_num)]
    have : (0 : ℚ) < 2 ^ (1021 : ℤ) := zpow_pos (by norm_num) _
    norm_num
  have hmul : Float64.mul (.fin 20) (.fin (Float64.nearest (total - lo))) =
      .fin (Float64.nearest (20 * Float64.nearest (total - lo))) := by
    simp only [Float64.mul]
    exact Float64.round_of_lt (by linarith)
      (lt_of_le_of_lt (le_trans htmono htbig) h5)
  -- the quotient
  have hz0 : 0 ≤ Float64.nearest (20 * Float64.nearest (total - lo)) /
      Float64.nearest (hi - lo) := div_nonneg ht0 (le_of_lt hd2pos)
  have hz1 : Float64.nearest (20 * Float64.nearest (total - lo)) /
      Float64.nearest (hi - lo) ≤ 41 / 2 := by
    rw [div_le_iff₀ hd2pos]
    linarith
  have h41 : Float64.nearest (41 / 2) = 41 / 2 := by
    have h := Float64.nearest_of_repr 41 (-1) (by norm_num) (by norm_num) (by norm_num)
    norm_num at h
    exact h
  have h39 : Float64.nearest (39 / 2) = 39 / 2 := by
    have h := Float64.nearest_of_repr 39 (-1) (by norm_num) (by norm_num) (by norm_num)
    norm_num at h
    exact h
  have hr1 : Float64.nearest (Float64.nearest (20 * Float64.nearest (total - lo)) /
      Float64.nearest (hi - lo)) ≤ 41 / 2 := by
    have := Float64.nearest_mono hz0 hz1
    rwa [h41] at this
  have h1024 : (41 : ℚ) / 2 < 2 ^ (1024 : ℤ) := by norm_num
  refine ⟨Float64.nearest (Float64.nearest (20 * Float64.nearest (total - lo)) /
      Float64.nearest (hi - lo)), ?_, Float64.nearest_nonneg hz0, hr1, ?_⟩
  · rw [hsub1, hsub2, hmul]
    simp only [Float64.div, if_neg (ne_of_gt hd2pos)]
    exact Float64.round_of_lt hz0 (lt_of_le_of_lt hr1 h1024)
  · intro hmax
    rw [hmax]
    have hz2 : 39 / 2 ≤ Float64.nearest (20 * Float64.nearest (hi - lo)) /
        Float64.nearest (hi - lo) := by
      rw [le_div_iff₀ hd2pos]
      linarith
    have := Float64.nearest_mono (by norm_num) hz2
    rwa [h39] at this

/-- The rounding of a number that is not negative and reaches `2^1024` is `+Inf`. -/
theorem Float64.round_of_ge {x : ℚ} (hx : 0 ≤ x)
    (h : ¬ Float64.nearest x < 2 ^ (1024 : ℤ)) : Float64.round x = .inf false := by
  have h0 := Float64.nearest_nonneg hx
  unfold Float64.round
  rw [abs_of_nonneg h0, if_pos (not_lt.mp h)]
  simp [not_lt.mpr h0]

/-- The quotient computed for the bar of one entry, whatever the spread: for finite
`float64` totals with `lo ≤ total ≤ hi` and `lo < hi` it is a NaN, `+Inf`, or a finite
value between 0 and 20.5. -/
theorem Float64.barQuotient_cases (lo hi total : ℚ) (hlo : Float64.isValue lo)
    (hhi : Float64.isValue hi) (hrange : lo < hi) (h1 : lo ≤ total) (h2 : total ≤ hi) :
    Float64.div (Float64.mul (.fin 20) (Float64.sub (.fin total) (.fin lo)))
        (Float64.sub (.fin hi) (.fin lo)) = .nan ∨
    Float64.div (Float64.mul (.fin 20) (Float64.sub (.fin total) (.fin lo)))
        (Float64.sub (.fin hi) (.fin lo)) = .inf false ∨
    ∃ r : ℚ,
      Float64.div (Float64.mul (.fin 20) (Float64.sub (.fin total) (.fin lo)))
        (Float64.sub (.fin hi) (.fin lo)) = .fin r ∧ 0 ≤ r ∧ r ≤ 41 / 2 := by
  have htiny : (0 : ℚ) < 2 ^ (-1074 : ℤ) := zpow_pos (by norm_num) _
  have hb0 : 0 < hi - lo := sub_pos.mpr hrange
  have hb1 : 2 ^ (-1074 : ℤ) ≤ hi - lo := Float64.isValue_gap hlo hhi hrange
  have hd2lo : 2 ^ (-1074 : ℤ) ≤ Float64.nearest (hi - lo) := by
    have := Float64.nearest_mono (le_of_lt htiny) hb1
    rwa [Float64.nearest_tiny] at this
  have hd2pos : 0 < Float64.nearest (hi - lo) := lt_of_lt_of_le htiny hd2lo
  have ha0 : 0 ≤ total - lo := sub_nonneg.mpr h1
  have hab : total - lo ≤ hi - lo := by linarith
  have hd1 : Float64.nearest (total - lo) ≤ Float64.nearest (hi - lo) :=
    Float64.nearest_mono ha0 hab
  have hd10 : 0 ≤ Float64.nearest (total - lo) := Float64.nearest_nonneg ha0
  have h20d1 : 0 ≤ 20 * Float64.nearest (total - lo) := by linarith
  have ht0 : 0 ≤ Float64.nearest (20 * Float64.nearest (total - lo)) :=
    Float64.nearest_nonneg h20d1
  have hmulInf : Float64.mul (.fin 20) (.inf false) = .inf false := by
    simp [Float64.mul]
  by_cases hB : Float64.nearest (hi - lo) < 2 ^ (1024 : ℤ)
  · have hsub2 : Float64.sub (.fin hi) (.fin lo) = .fin (Float64.nearest (hi - lo)) := by
      simp only [Float64.sub]
      exact Float64.round_of_lt (le_of_lt hb0) hB
    have hsub1 : Float64.sub (.fin total) (.fin lo) =
        .fin (Float64.nearest (total - lo)) := by
      simp only [Float64.sub]
      exact Float64.round_of_lt ha0 (lt_of_le_of_lt hd1 hB)
    by_cases hT : Float64.nearest (20 * Float64.nearest (total - lo)) < 2 ^ (1024 : ℤ)
    · right
      right
      have h20d2 : 0 < 20 * Float64.nearest (hi - lo) := by linarith
      have hulp : Float64.ulp (20 * Float64.nearest (hi - lo)) ≤
          Float64.nearest (hi - lo) := by
        rcases Float64.ulp_le _ h20d2 with h | h
        · have h52 : (2 : ℚ) ^ (-52 : ℤ) ≤ 1 / 20 := by norm_num
          calc Float64.ulp (20 * Float64.nearest (hi - lo))
              ≤ 20 * Float64.nearest (hi - lo) * 2 ^ (-52 : ℤ) := h
            _ ≤ 20 * Float64.nearest (hi - lo) * (1 / 20) :=
              mul_le_mul_of_nonneg_left h52 (le_of_lt h20d2)
            _ = Float64.nearest (hi - lo) := by ring
        · rw [h]
          exact hd2lo
      have htop : Float64.nearest (20 * Float64.nearest (hi - lo)) ≤
          41 / 2 * Float64.nearest (hi - lo) := by
        have := Float64.nearest_le (20 * Float64.nearest (hi - lo))
        linarith
      have htmono : Float64.nearest (20 * Float64.nearest (total - lo)) ≤
          Float64.nearest (20 * Float64.nearest (hi - lo)) :=
        Float64.nearest_mono h20d1 (by linarith)
      have hmul : Float64.mul (.fin 20) (.fin (Float64.nearest (total - lo))) =
          .fin (Float64.nearest (20 * Float64.nearest (total - lo))) := by
        simp only [Float64.mul]
        exact Float64.round_of_lt h20d1 hT
      have hz0 : 0 ≤ Float64.nearest (20 * Float64.nearest (total - lo)) /
          Float64.nearest (hi - lo) := div_nonneg ht0 (le_of_lt hd2pos)
      have hz1 : Float64.nearest (20 * Float64.nearest (total - lo)) /
          Float64.nearest (hi - lo) ≤ 41 / 2 := by
        rw [div_le_iff₀ hd2pos]
        linarith
      have h41 : Float64.nearest (41 / 2) = 41 / 2 := by
        have h := Float64.nearest_of_repr 41 (-1) (by norm_num) (by norm_num) (by norm_num)
        norm_num at h
        exact h
      have hr1 : Float64.nearest (Float64.nearest (20 * Float64.nearest (total - lo)) /
          Float64.nearest (hi - lo)) ≤ 41 / 2 := by
        have := Float64.nearest_mono hz0 hz1
        rwa [h41] at this
      have h1024 : (41 : ℚ) / 2 < 2 ^ (1024 : ℤ) := by norm_num
      refine ⟨Float64.nearest (Float64.nearest (20 * Float64.nearest (total - lo)) /
        Float64.nearest (hi - lo)), ?_, Float64.nearest_nonneg hz0, hr1⟩
      rw [hsub1, hsub2, hmul]
      simp only [Float64.div, if_neg (ne_of_gt hd2pos)]
      exact Float64.round_of_lt hz0 (lt_of_le_of_lt hr1 h1024)
    · right
      left
      have hmul : Float64.mul (.fin 20) (.fin (Float64.nearest (total - lo))) =
          .inf false := by
        simp only [Float64.mul]
        exact Float64.round_of_ge h20d1 hT
      rw [hsub1, hsub2, hmul]
      simp [Float64.div, not_lt.mpr (le_of_lt hd2pos)]
  · have hsub2 : Float64.sub (.fin hi) (.fin lo) = .inf false := by
      simp only [Float64.sub]
      exact Float64.round_of_ge (le_of_lt hb0) hB
    by_cases hA : Float64.nearest (total - lo) < 2 ^ (1024 : ℤ)
    · have hsub1 : Float64.sub (.fin total) (.fin lo) =
          .fin (Float64.nearest (total - lo)) := by
        simp only [Float64.sub]
        exact Float64.round_of_lt ha0 hA
      by_cases hT : Float64.nearest (20 * Float64.nearest (total - lo)) < 2 ^ (1024 : ℤ)
      · right
        right
        have hmul : Float64.mul (.fin 20) (.fin (Float64.nearest (total - lo))) =
            .fin (Float64.nearest (20 * Float64.nearest (total - lo))) := by
          simp only [Float64.mul]
          exact Float64.round_of_lt h20d1 hT
        refine ⟨0, ?_, le_refl 0, by norm_num⟩
        rw [hsub1, hsub2, hmul]
        simp [Float64.div]
      · left
        have hmul : Float64.mul (.fin 20) (.fin (Float64.nearest (total - lo))) =
            .inf false := by
          simp only [Float64.mul]
          exact Float64.round_of_ge h20d1 hT
        rw [hsub1, hsub2, hmul]
        simp [Float64.div]
    · left
      have hsub1 : Float64.sub (.fin total) (.fin lo) = .inf false := by
        simp only [Float64.sub]
        exact Float64.round_of_ge ha0 hA
      rw [hsub1, hsub2, hmulInf]
      simp [Float64.div]

/-- The bar length for finite `float64` totals with `lo ≤ total ≤ hi` and `lo < hi`: it
lies between 1 and 20 when the spread is at most `2^1019` (nothing overflows), and also
when the platform's `int(x)` gives at most 20 for a NaN or an infinity. -/
theorem output.barLen_bounds (conv : Float64 → Int) (lo hi total : ℚ)
    (hlo : Float64.isValue lo) (hhi : Float64.isValue hi) (hrange : lo < hi)
    (h1 : lo ≤ total) (h2 : total ≤ hi)
    (hsafe : (∀ x, conv x ≤ 20) ∨ hi - lo ≤ 2 ^ (1019 : ℤ)) :
    1 ≤ output.barLen conv lo hi total ∧ output.barLen conv lo hi total ≤ 20 := by
  have hfin : ∀ r : ℚ, 0 ≤ r → r ≤ 41 / 2 →
      0 ≤ Float64.toInt conv (.fin r) ∧ Float64.toInt conv (.fin r) ≤ 20 := by
    intro r hr0 hr1
    have hf0 : 0 ≤ ⌊r⌋ := Int.floor_nonneg.mpr hr0
    have hf1 : ⌊r⌋ < 21 := by
      rw [Int.floor_lt]
      push_cast
      linarith
    have htr : truncate r = ⌊r⌋ := by simp [truncate, hr0]
    have hconv : Float64.toInt conv (.fin r) = ⌊r⌋ := by
      simp only [Float64.toInt, htr]
      rw [if_pos]
      constructor <;> omega
    rw [hconv]
    omega
  have hle : Float64.toInt conv
      (Float64.div (Float64.mul (.fin 20) (Float64.sub (.fin total) (.fin lo)))
        (Float64.sub (.fin hi) (.fin lo))) ≤ 20 := by
    rcases hsafe with hconv | hspread
    · rcases Float64.barQuotient_cases lo hi total hlo hhi hrange h1 h2 with
        h | h | ⟨r, h, hr0, hr1⟩
      · rw [h]
        exact hconv _
      · rw [h]
        exact hconv _
      · rw [h]
        exact (hfin r hr0 hr1).2
    · obtain ⟨r, h, hr0, hr1, _⟩ :=
        Float64.barQuotient lo hi total hlo hhi hrange h1 h2 hspread
      rw [h]
      exact (hfin r hr0 hr1).2
  unfold output.barLen
  constructor
  · split_ifs <;> omega
  · split_ifs <;> omega

/-- The bar length of an entry at the maximum, the spread being at most `2^1019`: 19 at
least. -/
theorem output.barLen_max (conv : Float64 → Int) (lo hi : ℚ)
    (hlo : Float64.isValue lo) (hhi : Float64.isValue hi) (hrange : lo < hi)
    (hspread : hi - lo ≤ 2 ^ (1019 : ℤ)) : 19 ≤ output.barLen conv lo hi hi := by
  obtain ⟨r, hr, hr0, hr1, hr2⟩ :=
    Float64.barQuotient lo hi hi hlo hhi hrange (le_of_lt hrange) (le_refl hi) hspread
  have hf1 : ⌊r⌋ < 21 := by
    rw [Int.floor_lt]
    push_cast
    linarith
  have hf19 : 19 ≤ ⌊r⌋ := by
    rw [Int.le_floor]
    push_cast
    linarith [hr2 rfl]
  have htr : truncate r = ⌊r⌋ := by simp [truncate, hr0]
  have hconv : Float64.toInt conv (.fin r) = ⌊r⌋ := by
    simp only [Float64.toInt, htr]
    rw [if_pos]
    constructor <;> omega
  unfold output.barLen
  rw [hr, hconv]
  split_ifs <;> omega

/-! ## The price bars -/

/-- The first loop of `formatPriceList` ends with a minimum below and a maximum above
every total it has seen; the maximum is the start value or one of the totals, and so is
the minimum. -/
theorem output.priceRange_bounds (prices : List Price) (lo hi : ℚ) :
    (output.priceRange prices (lo, hi)).1 ≤ lo ∧
    hi ≤ (output.priceRange prices (lo, hi)).2 ∧
    (∀ p ∈ prices, (output.priceRange prices (lo, hi)).1 ≤ p.Total ∧
      p.Total ≤ (output.priceRange prices (lo, hi)).2) ∧
    ((output.priceRange prices (lo, hi)).2 = hi ∨
      ∃ p ∈ prices, p.Total = (output.priceRange prices (lo, hi)).2) ∧
    ((output.priceRange prices (lo, hi)).1 = lo ∨
      ∃ p ∈ prices, p.Total = (output.priceRange prices (lo, hi)).1) := by
  induction prices generalizing lo hi with
  | nil => simp [output.priceRange]
  | cons p rest ih =>
    simp only [output.priceRange]
    obtain ⟨h1, h2, h3, h4, h5⟩ := ih (if p.Total < lo then p.Total else lo)
      (if p.Total > hi then p.Total else hi)
    have hlo : (if p.Total < lo then p.Total else lo) ≤ lo ∧
        (if p.Total < lo then p.Total else lo) ≤ p.Total := by
      by_cases h : p.Total < lo
      · simp [h, le_of_lt h]
      · simp [h, not_lt.mp h]
    have hhi : hi ≤ (if p.Total > hi then p.Total else hi) ∧
        p.Total ≤ (if p.Total > hi then p.Total else hi) := by
      by_cases h : p.Total > hi
      · simp [h, le_of_lt h]
      · simp [h, not_lt.mp h]
    refine ⟨le_trans h1 hlo.1, le_trans hhi.1 h2, ?_, ?_, ?_⟩
    · intro q hq
      rcases List.mem_cons.mp hq with rfl | hq
      · exact ⟨le_trans h1 hlo.2, le_trans hhi.2 h2⟩
      · exact h3 q hq
    · rcases h4 with h4 | ⟨q, hq, hqt⟩
      · by_cases h : p.Total > hi
        · right
          refine ⟨p, List.mem_cons_self _ _, ?_⟩
          rw [h4, if_pos h]
        · left
          rw [h4, if_neg h]
      · exact Or.inr ⟨q, List.mem_cons_of_mem _ hq, hqt⟩
    · rcases h5 with h5 | ⟨q, hq, hqt⟩
      · by_cases h : p.Total < lo
        · right
          refine ⟨p, List.mem_cons_self _ _, ?_⟩
          rw [h5, if_pos h]
        · left
          rw [h5, if_neg h]
      · exact Or.inr ⟨q, List.mem_cons_of_mem _ hq, hqt⟩

/-- Started at the first total, the first loop of `formatPriceList` ends with the least
and the greatest total of the list. -/
theorem output.priceRange_spec (first : Price) (rest : List Price) :
    (∀ p ∈ first :: rest,
      (output.priceRange (first :: rest) (first.Total, first.Total)).1 ≤ p.Total ∧
      p.Total ≤ (output.priceRange (first :: rest) (first.Total, first.Total)).2) ∧
    (∃ p ∈ first :: rest,
      p.Total = (output.priceRange (first :: rest) (first.Total, first.Total)).1) ∧
    (∃ p ∈ first :: rest,
      p.Total = (output.priceRange (first :: rest) (first.Total, first.Total)).2) := by
  obtain ⟨_, _, hall, hmax, hmin⟩ :=
    output.priceRange_bounds (first :: rest) first.Total first.Total
  refine ⟨hall, ?_, ?_⟩
  · rcases hmin with h | h
    · exact ⟨first, List.mem_cons_self _ _, h.symm⟩
    · exact h
  · rcases hmax with h | h
    · exact ⟨first, List.mem_cons_self _ _, h.symm⟩
    · exact h

theorem repeatString_length (s : String) (n : Nat) :
    (repeatString s n).length = n * s.length := by
  induction n with
  | zero => simp [repeatString]
  | succ k ih =>
    simp only [repeatString, String.length_append, ih]
    ring

/-- The line of an entry when the range is not a single point: the bar has `n` filled
and `20 - n` empty cells, `n` being the bar length, between 1 and 20; none of the two
`strings.Repeat` panics. When nothing overflows, `n` is 19 or 20 for an entry at the
maximum. -/
theorem output.priceLine_bar (conv : Float64 → Int) (F : Fmt) (now : Time) (lo hi : ℚ)
    (p : Price) (hlo : Float64.isValue lo) (hhi : Float64.isValue hi) (hrange : lo < hi)
    (h1 : lo ≤ p.Total) (h2 : p.Total ≤ hi)
    (hsafe : (∀ x, conv x ≤ 20) ∨ hi - lo ≤ 2 ^ (1019 : ℤ)) :
    ∃ n : ℕ, 1 ≤ n ∧ n ≤ 20 ∧ output.barLen conv lo hi p.Total = n ∧
      stringsRepeat "█" n = some (repeatString "█" n) ∧
      stringsRepeat "░" (20 - (n : ℤ)) = some (repeatString "░" (20 - n)) ∧
      output.priceLine conv F now lo hi p =
        some ("   " ++
          (if F.hour p.StartsAt = F.hour now ∧ F.day p.StartsAt = F.day now then
            output.BrightYellow ++ "▶" ++ output.Reset ++ " "
           else "  ") ++
          F.hourMinute p.StartsAt ++ " " ++ output.priceColor p.Level ++
          (repeatString "█" n ++ repeatString "░" (20 - n)) ++ F.float 2 p.Total ++
          output.Reset ++ " " ++ output.Dim ++ p.Currency ++ output.Reset ++ "\n") ∧
      (repeatString "█" n ++ repeatString "░" (20 - n)).length = 20 ∧
      (hi - lo ≤ 2 ^ (1019 : ℤ) → p.Total = hi → n = 19 ∨ n = 20) := by
  obtain ⟨hb1, hb2⟩ := output.barLen_bounds conv lo hi p.Total hlo hhi hrange h1 h2 hsafe
  have hb3 : hi - lo ≤ 2 ^ (1019 : ℤ) → p.Total = hi →
      19 ≤ output.barLen conv lo hi p.Total := by
    intro hspread hmax
    rw [hmax]
    exact output.barLen_max conv lo hi hlo hhi hrange hspread
  obtain ⟨n, hn⟩ := Int.eq_ofNat_of_zero_le
    (show 0 ≤ output.barLen conv lo hi p.Total by omega)
  rw [hn] at hb1 hb2 hb3
  have hfilled : stringsRepeat "█" (n : ℤ) = some (repeatString "█" n) := by
    simp [stringsRepeat]
  have hempty : stringsRepeat "░" (20 - (n : ℤ)) = some (repeatString "░" (20 - n)) := by
    have h : ¬ (20 - (n : ℤ) < 0) := by omega
    have h' : (20 - (n : ℤ)).toNat = 20 - n := by omega
    simp only [stringsRepeat, if_neg h, h']
  have hl1 : ("█" : String).length = 1 := by decide
  have hl2 : ("░" : String).length = 1 := by decide
  refine ⟨n, by omega, by omega, hn, hfilled, hempty, ?_, ?_, ?_⟩
  · unfold output.priceLine
    simp only [gt_iff_lt, hrange, if_true]
    rw [hn, hfilled, hempty]
  · rw [String.length_append, repeatString_length, repeatString_length, hl1, hl2]
    omega
  · intro hspread hmax
    have := hb3 hspread hmax
    omega

/-- A price within the range of plain totals gets its line: no panic. -/
theorem output.priceLine_isSome (conv : Float64 → Int) (F : Fmt) (now : Time) (lo hi : ℚ)
    (p : Price) (hlo : Float64.isValue lo) (hhi : Float64.isValue hi)
    (h1 : lo ≤ p.Total) (h2 : p.Total ≤ hi)
    (hsafe : (∀ x, conv x ≤ 20) ∨ hi - lo ≤ 2 ^ (1019 : ℤ)) :
    (output.priceLine conv F now lo hi p).isSome = true := by
  by_cases hrange : lo < hi
  · obtain ⟨n, _, _, _, _, _, hline, _⟩ :=
      output.priceLine_bar conv F now lo hi p hlo hhi hrange h1 h2 hsafe
    rw [hline]
    rfl
  · unfold output.priceLine
    simp [hrange]

/-- Prices within the range of plain totals get their lines: no panic. -/
theorem output.priceLines_isSome (conv : Float64 → Int) (F : Fmt) (now : Nat → Time)
    (lo hi : ℚ) (prices : List Price) (i : Nat) (hlo : Float64.isValue lo)
    (hhi : Float64.isValue hi) (hsafe : (∀ x, conv x ≤ 20) ∨ hi - lo ≤ 2 ^ (1019 : ℤ))
    (h : ∀ p ∈ prices, lo ≤ p.Total ∧ p.Total ≤ hi) :
    (output.priceLines conv F now lo hi i prices).isSome = true := by
  induction prices generalizing i with
  | nil => simp [output.priceLines]
  | cons p rest ih =>
    have hp := h p (List.mem_cons_self _ _)
    have h1 := output.priceLine_isSome conv F (now i) lo hi p hlo hhi hp.1 hp.2 hsafe
    have h2 := ih (i + 1) (fun q hq => h q (List.mem_cons_of_mem _ hq))
    obtain ⟨line, hline⟩ := Option.isSome_iff_exists.mp h1
    obtain ⟨more, hmore⟩ := Option.isSome_iff_exists.mp h2
    simp [output.priceLines, hline, hmore]

/-- The range of a list of plain totals: its ends are finite `float64` values, and an
overflow between them cannot make a bar longer than 20 cells. -/
theorem output.priceRange_plain (conv : Float64 → Int) (first : Price) (rest : List Price)
    (hplain : output.plainTotals conv (first :: rest)) :
    Float64.isValue (output.priceRange (first :: rest) (first.Total, first.Total)).1 ∧
    Float64.isValue (output.priceRange (first :: rest) (first.Total, first.Total)).2 ∧
    ((∀ x, conv x ≤ 20) ∨
      (output.priceRange (first :: rest) (first.Total, first.Total)).2 -
        (output.priceRange (first :: rest) (first.Total, first.Total)).1 ≤
          2 ^ (1019 : ℤ)) := by
  obtain ⟨_, ⟨pmin, hpmin, hmin⟩, ⟨pmax, hpmax, hmax⟩⟩ := output.priceRange_spec first rest
  refine ⟨?_, ?_, ?_⟩
  · rw [← hmin]
    exact hplain.1 pmin hpmin
  · rw [← hmax]
    exact hplain.1 pmax hpmax
  · rcases hplain.2 with h | h
    · exact Or.inl h
    · right
      rw [← hmin, ← hmax]
      exact h pmin hpmin pmax hpmax

/-- On a list of plain totals that is not empty `formatPriceList` does not panic. -/
theorem output.formatPriceList_isSome (conv : Float64 → Int) (F : Fmt) (now : Nat → Time)
    (first : Price) (rest : List Price)
    (hplain : output.plainTotals conv (first :: rest)) :
    (output.PrettyFormatter.formatPriceList conv F now (first :: rest)).isSome = true := by
  obtain ⟨hlo, hhi, hsafe⟩ := output.priceRange_plain conv first rest hplain
  unfold output.PrettyFormatter.formatPriceList
  exact output.priceLines_isSome conv F now _ _ _ 0 hlo hhi hsafe
    (output.priceRange_spec first rest).1

/-- Beyond the close totals. For the totals 0 and `2^1023` the product `20 * 2^1023`
overflows to `+Inf` and so does the quotient; for the totals `-2^1023` and `2^1023` the
difference overflows and the quotient is a NaN. In both cases `int(x)` is what the
platform makes of it: on amd64 the bar length of the entry at the maximum is 1. -/
theorem output.barLen_overflow :
    Float64.isValue (2 ^ (1023 : ℤ)) ∧
    Float64.mul (.fin 20) (Float64.sub (.fin (2 ^ (1023 : ℤ))) (.fin 0)) = .inf false ∧
    output.barLen Float64.amd64 0 (2 ^ (1023 : ℤ)) (2 ^ (1023 : ℤ)) = 1 ∧
    Float64.sub (.fin (2 ^ (1023 : ℤ))) (.fin (-2 ^ (1023 : ℤ))) = .inf false ∧
    output.barLen Float64.amd64 (-2 ^ (1023 : ℤ)) (2 ^ (1023 : ℤ)) (2 ^ (1023 : ℤ)) = 1 := by
  have hv : Float64.isValue (2 ^ (1023 : ℤ)) := by
    have h := Float64.isValue_of_repr (2 ^ 52) 971 (by norm_num) (by norm_num) (by norm_num)
      (by norm_num)
    have e : (((2 ^ 52 : ℤ) : ℚ)) * 2 ^ (971 : ℤ) = 2 ^ (1023 : ℤ) := by
      rw [show (1023 : ℤ) = 52 + 971 by norm_num, zpow_add₀ (by norm_num)]
      norm_num
    rwa [e] at h
  have hsub : Float64.sub (.fin (2 ^ (1023 : ℤ))) (.fin 0) = .fin (2 ^ (1023 : ℤ)) := by
    simp only [Float64.sub, sub_zero]
    exact hv
  have hnear : Float64.nearest (20 * 2 ^ (1023 : ℤ)) = 5 * 2 ^ (1025 : ℤ) := by
    have h := Float64.nearest_of_repr 5 1025 (by norm_num) (by norm_num) (by norm_num)
    have e : ((5 : ℤ) : ℚ) * 2 ^ (1025 : ℤ) = 20 * 2 ^ (1023 : ℤ) := by
      rw [show (1025 : ℤ) = 2 + 1023 by norm_num, zpow_add₀ (by norm_num)]
      norm_num
    rw [e] at h
    rw [h, ← e]
    norm_num
  have hmul : Float64.mul (.fin 20) (.fin (2 ^ (1023 : ℤ))) = .inf false := by
    simp only [Float64.mul]
    apply Float64.round_of_ge (by positivity)
    rw [hnear]
    norm_num
  have hdiff : Float64.sub (.fin (2 ^ (1023 : ℤ))) (.fin (-2 ^ (1023 : ℤ))) =
      .inf false := by
    simp only [Float64.sub]
    have e : (2 : ℚ) ^ (1023 : ℤ) - -2 ^ (1023 : ℤ) = ((1 : ℤ) : ℚ) * 2 ^ (1024 : ℤ) := by
      rw [show (1024 : ℤ) = 1 + 1023 by norm_num, zpow_add₀ (by norm_num)]
      norm_num
    have h := Float64.nearest_of_repr 1 1024 (by norm_num) (by norm_num) (by norm_num)
    apply Float64.round_of_ge
    · rw [e]
      positivity
    · rw [e, h]
      norm_num
  have hneg : ¬ ((2 : ℚ) ^ (1023 : ℤ) < 0) := not_lt.mpr (by positivity)
  refine ⟨hv, by rw [hsub, hmul], ?_, hdiff, ?_⟩
  · unfold output.barLen
    rw [hsub, hmul]
    simp [Float64.div, Float64.toInt, Float64.amd64, hneg]
  · unfold output.barLen
    rw [hdiff]
    simp [Float64.mul, Float64.div, Float64.toInt, Float64.amd64]

/-- C25, as stated, fails: the bar length is computed in `float64`, and the entry at the
maximum is not always fully filled. For the totals 0 and 0.47 (both finite `float64`,
the second being the greater), `20 * 0.47` rounds to 9.399999999999999 and its quotient
by 0.47 to 19.999999999999996, so that the bar of the entry at the maximum has 19 filled
cells and an empty one. And for the totals 0 and `2^1023` the product overflows: on amd64
the entry at the maximum has a single filled cell. -/
theorem C25_counterexample :
    (output.finiteTotals floatPriceList ∧ output.closeTotals floatPriceList ∧
      output.priceRange floatPriceList (0, 0) = (0, nearly047) ∧
      (0 : ℚ) < nearly047 ∧
      Float64.mul (.fin 20) (Float64.sub (.fin nearly047) (.fin 0)) =
        .fin (1322932390540083 / 140737488355328) ∧
      Float64.div (.fin (1322932390540083 / 140737488355328))
        (Float64.sub (.fin nearly047) (.fin 0)) =
        .fin (5629499534213119 / 281474976710656) ∧
      output.barLen Float64.amd64 0 nearly047 nearly047 = 19 ∧
      output.barLen Float64.amd64 0 nearly047 nearly047 ≠ 20 ∧
      output.priceLine Float64.amd64 plainFmt ⟨0⟩ 0 nearly047
          ⟨nearly047, 0, 0, ⟨1⟩, "NORMAL", "NOK"⟩ =
        some ("   " ++ output.BrightYellow ++ "▶" ++ output.Reset ++ " 12:00 " ++
          output.Yellow ++ "███████████████████░" ++ "#" ++ output.Reset ++ " " ++
          output.Dim ++ "NOK" ++ output.Reset ++ "\n")) ∧
    Float64.isValue (2 ^ (1023 : ℤ)) ∧
    output.barLen Float64.amd64 0 (2 ^ (1023 : ℤ)) (2 ^ (1023 : ℤ)) = 1 :=
  ⟨by decide!, output.barLen_overflow.1, output.barLen_overflow.2.2.1⟩

/-- C25, amended. Take lists of plain totals: finite `float64` values, either no further
apart than `2^1019` (nothing overflows) or on a platform whose `int(x)` gives at most 20
for a NaN or an infinity. `FormatPrices` calls `formatPriceList` on non-empty lists only
(on an empty list `formatPriceList` would panic), and does not panic. For a non-empty
list with two different totals, the first loop of `formatPriceList` finds the least
total `lo` and the greatest total `hi`, and every entry gets the line with its bar: the
bar length computed in `float64` is a number `n` between 1 and 20, both `strings.Repeat`
succeed, and the bar has exactly 20 cells, `n` filled and `20 - n` empty. When the
totals are no further apart than `2^1019`, the entry at the maximum has 19 or 20 filled
cells. -/
theorem C25_FormatPrices_bars_within_width (conv : Float64 → Int) (F : Fmt)
    (now nowToday nowTomorrow : Nat → Time) (info : PriceInfo) (homeID : String)
    (first : Price) (rest : List Price)
    (htoday : output.plainTotals conv info.Today)
    (htomorrow : output.plainTotals conv info.Tomorrow)
    (hplain : output.plainTotals conv (first :: rest))
    (hrange : ∃ p ∈ first :: rest, ∃ q ∈ first :: rest, p.Total < q.Total) :
    (output.PrettyFormatter.FormatPrices conv F nowToday nowTomorrow info homeID).isSome =
      true ∧
    output.PrettyFormatter.formatPriceList conv F now [] = none ∧
    ∃ lo hi : ℚ,
      output.priceRange (first :: rest) (first.Total, first.Total) = (lo, hi) ∧
      (∀ p ∈ first :: rest, lo ≤ p.Total ∧ p.Total ≤ hi) ∧
      (∃ p ∈ first :: rest, p.Total = lo) ∧ (∃ p ∈ first :: rest, p.Total = hi) ∧
      lo < hi ∧
      (output.PrettyFormatter.formatPriceList conv F now (first :: rest)).isSome = true ∧
      output.PrettyFormatter.formatPriceList conv F now (first :: rest) =
        output.priceLines conv F now lo hi 0 (first :: rest) ∧
      ∀ p ∈ first :: rest, ∀ t : Time, ∃ n : ℕ, 1 ≤ n ∧ n ≤ 20 ∧
        output.barLen conv lo hi p.Total = n ∧
        stringsRepeat "█" n = some (repeatString "█" n) ∧
        stringsRepeat "░" (20 - (n : ℤ)) = some (repeatString "░" (20 - n)) ∧
        output.priceLine conv F t lo hi p =
          some ("   " ++
            (if F.hour p.StartsAt = F.hour t ∧ F.day p.StartsAt = F.day t then
              output.BrightYellow ++ "▶" ++ output.Reset ++ " "
             else "  ") ++
            F.hourMinute p.StartsAt ++ " " ++ output.priceColor p.Level ++
            (repeatString "█" n ++ repeatString "░" (20 - n)) ++ F.float 2 p.Total ++
            output.Reset ++ " " ++ output.Dim ++ p.Currency ++ output.Reset ++ "\n") ∧
        (repeatString "█" n ++ repeatString "░" (20 - n)).length = 20 ∧
        (output.closeTotals (first :: rest) → p.Total = hi → n = 19 ∨ n = 20) := by
  refine ⟨?_, rfl, ?_⟩
  · unfold output.PrettyFormatter.FormatPrices
    have hlist : ∀ (clock : Nat → Time) (l : List Price), output.plainTotals conv l →
        l.length > 0 →
        ∃ out, output.PrettyFormatter.formatPriceList conv F clock l = some out := by
      intro clock l hl hlen
      cases l with
      | nil => simp at hlen
      | cons a b =>
        exact Option.isSome_iff_exists.mp (output.formatPriceList_isSome conv F clock a b hl)
    by_cases h1 : info.Today.length > 0 <;> by_cases h2 : info.Tomorrow.length > 0
    · obtain ⟨o1, ho1⟩ := hlist nowToday _ htoday h1
      obtain ⟨o2, ho2⟩ := hlist nowTomorrow _ htomorrow h2
      simp [h1, h2, ho1, ho2]
    · obtain ⟨o1, ho1⟩ := hlist nowToday _ htoday h1
      simp [h1, h2, ho1]
    · obtain ⟨o2, ho2⟩ := hlist nowTomorrow _ htomorrow h2
      simp [h1, h2, ho2]
    · simp [h1, h2]
  · obtain ⟨hall, ⟨pmin, hpmin, hmin⟩, ⟨pmax, hpmax, hmax⟩⟩ :=
      output.priceRange_spec first rest
    obtain ⟨hlo, hhi, hsafe⟩ := output.priceRange_plain conv first rest hplain
    obtain ⟨p, hp, q, hq, hpq⟩ := hrange
    have hlt : (output.priceRange (first :: rest) (first.Total, first.Total)).1 <
        (output.priceRange (first :: rest) (first.Total, first.Total)).2 :=
      lt_of_le_of_lt (hall p hp).1 (lt_of_lt_of_le hpq (hall q hq).2)
    refine ⟨_, _, rfl, hall, ⟨pmin, hpmin, hmin⟩, ⟨pmax, hpmax, hmax⟩, hlt,
      output.formatPriceList_isSome conv F now first rest hplain, rfl, ?_⟩
    intro e he t
    obtain ⟨n, hn1, hn2, hbar, hfilled, hempty, hline, hlen, hmaxbar⟩ :=
      output.priceLine_bar conv F t _ _ e hlo hhi hlt (hall e he).1 (hall e he).2 hsafe
    refine ⟨n, hn1, hn2, hbar, hfilled, hempty, hline, hlen, ?_⟩
    intro hclose
    apply hmaxbar
    rw [← hmin, ← hmax]
    exact hclose pmin hpmin pmax hpmax

/-- C25 amended, at the list with the totals 1, 3 and 2: the entry at the total 2 has 10
filled cells, the entry at the maximum 20. -/
theorem C25_witness :
    (output.PrettyFormatter.FormatPrices Float64.amd64 plainFmt (fun _ => ⟨0⟩) (fun _ => ⟨0⟩)
      samplePriceInfo "home-1").isSome = true ∧
    output.priceRange samplePriceList (1, 1) = (1, 3) ∧
    output.barLen Float64.amd64 1 3 2 = 10 ∧
    output.barLen Float64.amd64 1 3 3 = 20 :=
  have h := C25_FormatPrices_bars_within_width Float64.amd64 plainFmt (fun _ => ⟨0⟩)
    (fun _ => ⟨0⟩) (fun _ => ⟨0⟩) samplePriceInfo "home-1"
    ⟨1, 1, 0, ⟨0⟩, "CHEAP", "NOK"⟩
    [⟨3, 2, 1, ⟨1⟩, "EXPENSIVE", "NOK"⟩, ⟨2, 1, 1, ⟨2⟩, "NORMAL", "NOK"⟩]
    ⟨by decide!, Or.inr (by decide!)⟩ ⟨by decide!, Or.inr (by decide!)⟩
    ⟨by decide!, Or.inr (by decide!)⟩
    ⟨⟨1, 1, 0, ⟨0⟩, "CHEAP", "NOK"⟩, by decide, ⟨3, 2, 1, ⟨1⟩, "EXPENSIVE", "NOK"⟩,
      by decide, by decide!⟩
  ⟨h.1, by decide!, by decide!, by decide!⟩

/-! ## The token masking -/

/-- C26, as stated, fails: a token of 8 bytes in the config file (`abc12345`) is
displayed as it is, complete. -/
theorem C26_counterexample :
    showFileToken [97, 98, 99, 49, 50, 51, 52, 53] =
      some [97, 98, 99, 49, 50, 51, 52, 53] ∧
    containsToken [97, 98, 99, 49, 50, 51, 52, 53] [97, 98, 99, 49, 50, 51, 52, 53] :=
  ⟨by decide, [], [], by decide⟩

/-- C26, amended. For a token of the config file longer than 8 bytes the displayed form
is computed without a slice out of range, and it is the first 4 bytes, three dots and
the last 4 bytes: 11 bytes, which cannot contain a token longer than 11 bytes. A token
of the config file of at most 8 bytes is displayed unchanged. -/
theorem C26_file_token_masking (token : List UInt8) :
    (token.length > 8 →
      showFileToken token = some (token.take 4 ++ dots ++ token.drop (token.length - 4)) ∧
      (token.take 4 ++ dots ++ token.drop (token.length - 4)).length = 11 ∧
      (token.length > 11 →
        ¬ containsToken (token.take 4 ++ dots ++ token.drop (token.length - 4)) token)) ∧
    (token.length ≤ 8 → showFileToken token = some token) := by
  constructor
  · intro hlen
    have hshown : (token.take 4 ++ dots ++ token.drop (token.length - 4)).length = 11 := by
      simp only [List.length_append, List.length_take, List.length_drop, dots,
        List.length_cons, List.length_nil]
      omega
    refine ⟨?_, hshown, ?_⟩
    · have h1 : (token.length : Int) > 8 := by omega
      have h2 : (0 : Int) ≤ 4 ∧ (4 : Int) ≤ token.length := by omega
      have h3 : (0 : Int) ≤ (token.length : Int) - 4 ∧
          (token.length : Int) - 4 ≤ token.length := by omega
      have h4 : ((token.length : Int) - 4).toNat = token.length - 4 := by omega
      simp [showFileToken, sliceTo, sliceFrom, h1, h2, h3, h4]
    · intro hlong hcontains
      obtain ⟨before, after, heq⟩ := hcontains
      have := congrArg List.length heq
      rw [hshown] at this
      simp only [List.length_append] at this
      omega
  · intro hlen
    have h1 : ¬ (token.length : Int) > 8 := by omega
    simp [showFileToken, h1]

/-- The unguarded sibling: for a `TIBBER_TOKEN` shorter than 4 bytes the slice
`envToken[:4]` panics. -/
theorem showEnvToken_short (envToken : List UInt8) (h : envToken.length < 4) :
    showEnvToken envToken = none := by
  have h1 : ¬ ((0 : Int) ≤ 4 ∧ (4 : Int) ≤ envToken.length) := by omega
  have hs : sliceTo envToken 4 = none := by
    unfold sliceTo
    rw [if_neg h1]
  simp [showEnvToken, hs]

/-! ## Payloads without a record -/

/-- A payload read as `null`, as an object without `data`, with an empty or null `data`,
or with a null `liveMeasurement`, is parsed without error into the nil pointer. -/
theorem parsePayload_nil (T : JsonText) (payload : String) (v : JValue)
    (hval : T.parseValue payload = .ok v)
    (hshape : v = .null ∨ v = .obj [] ∨ v = .obj [("data", .null)] ∨
      v = .obj [("data", .obj [])] ∨ v = .obj [("data", .obj [("liveMeasurement", .null)])]) :
    parsePayload T.toJson payload = .ok none := by
  rcases hshape with h | h | h | h | h <;> subst h <;>
    simp [parsePayload, JsonText.toJson, unmarshalPayload, hval, payloadData.fill,
      payloadData.assign, payloadInner.fill, payloadInner.assign, fieldOf, Except.map]

/-- C23 fails on the code. A `next` frame whose payload is valid JSON without a record
(the literal `null`, an object without `data.liveMeasurement`, or with a null
`liveMeasurement`) is not skipped: `parsePayload` returns the nil pointer without
error, and `Subscribe` calls the handler with nil. `FormatLiveMeasurement` of the pretty
formatter, which the handler of the live command applies to its argument, panics on
nil. -/
theorem C23_handler_called_with_nil {σ : Type} (T : JsonText) (F : Fmt) (c : LiveClient)
    (handler : σ → Option LiveMeasurement → σ × Option GoError) (env : Env) (s : σ)
    (pre : List Tick) (data : String) (msg : wsMessage) (v : JValue)
    (hpre : (Subscribe T.toJson c handler (env.withScript pre) s).outcome = .pending)
    (hmsg : T.toJson.UnmarshalMsg data = .ok msg) (hty : msg.Type_ = "next")
    (hval : T.parseValue msg.Payload = .ok v)
    (hshape : v = .null ∨ v = .obj [] ∨ v = .obj [("data", .null)] ∨
      v = .obj [("data", .obj [])] ∨ v = .obj [("data", .obj [("liveMeasurement", .null)])]) :
    parsePayload T.toJson msg.Payload = .ok none ∧
    handlerCalls
        (Subscribe T.toJson c handler (env.withScript (pre ++ [Tick.frame data])) s).trace =
      handlerCalls (Subscribe T.toJson c handler (env.withScript pre) s).trace ++ [none] ∧
    output.PrettyFormatter.FormatLiveMeasurement F none = none := by
  have hnil := parsePayload_nil T msg.Payload v hval hshape
  refine ⟨hnil, ?_, rfl⟩
  rw [Subscribe_extend T.toJson c handler env s pre _ hpre,
    receiveLoop_next T.toJson handler data [] _ none ⟨msg, hmsg, hty, hnil⟩]
  cases (handler (Subscribe T.toJson c handler (env.withScript pre) s).state none).2 <;>
    simp [receiveLoop, Run.deferClose, Run.after, handlerCalls]

/-- C23 at the frame
`{"id":"1","type":"next","payload":{"data":{"liveMeasurement":null}}}`: the handler is
called once, with nil. -/
theorem C23_witness :
    handlerCalls (Subscribe nullText.toJson sampleClient countingHandler
        (wireEnv.withScript ([] ++ [Tick.frame (nextFrameWith nullMeasurementPayload)]))
        0).trace = [none] :=
  (C23_handler_called_with_nil nullText plainFmt sampleClient countingHandler wireEnv 0 []
    (nextFrameWith nullMeasurementPayload) ⟨"next", "1", nullMeasurementPayload⟩
    (.obj [("data", .obj [("liveMeasurement", .null)])])
    (by decide) rfl rfl (by simp [nullText])
    (Or.inr (Or.inr (Or.inr (Or.inr rfl))))).2.1.trans (by decide)

end Tibber
